import Mathlib

/-!
# PiEmu: a shallow embedding of the ARM / BCM2835 emulator

The C sources (`memory.c`, `cpu.c`, `gpio.c`, `nes.c`, `bcm2835/*.c`) are
translated function by function.  Conventions:

* Machine integers are natural numbers; every place where C truncates
  (an assignment to a narrower type, unsigned wrap-around) carries an explicit
  `% 2^w`.  Stored values have the bounded types `uint8_t` ... `uint64_t`
  (`Fin 2^w`), so that a state of the model is exactly a state of the C program.
* `int32_t` register slots are stored as their 32-bit patterns; `ts32` gives the
  signed reading where the C code computes on `int32_t`.
* Bit-fields (`cpsr.b.*`, the `op_*_t` overlays of an instruction word) are
  mask-and-shift accessors on the 32-bit word, least significant field first.
* `emulator_fatal` (a `longjmp` out of the interpreter) is the result `none`.
* `emulator_error` and `emulator_info` only print; printing is outside the model,
  so they leave the state as it is.
* Host time is the field `host_time_us` of the emulator state.
* The host allocator is the field `host_malloc` of the emulator state: `host_malloc n`
  tells whether `malloc(n)` returns a block or `NULL`.
-/

namespace PiEmu

/-! ## Machine integers -/

abbrev uint8_t := Fin 256
abbrev uint16_t := Fin 65536
abbrev uint32_t := Fin 4294967296
abbrev uint64_t := Fin 18446744073709551616

/-- Conversion to `uint8_t`: keeps the low 8 bits. -/
def u8 (n : Nat) : uint8_t := ⟨n % 256, Nat.mod_lt n (by decide)⟩

/-- Conversion to `uint16_t`: keeps the low 16 bits. -/
def u16 (n : Nat) : uint16_t := ⟨n % 65536, Nat.mod_lt n (by decide)⟩

/-- Conversion to `uint32_t`: keeps the low 32 bits. -/
def u32 (n : Nat) : uint32_t := ⟨n % 4294967296, Nat.mod_lt n (by decide)⟩

/-- Conversion to `uint64_t` (also `size_t`): keeps the low 64 bits. -/
def u64 (n : Nat) : uint64_t := ⟨n % 18446744073709551616, Nat.mod_lt n (by decide)⟩

/-- The signed reading of a 32-bit pattern (`int32_t`). -/
def ts32 (x : Nat) : Int :=
  if x % 4294967296 < 2147483648 then (x % 4294967296 : Nat)
  else (x % 4294967296 : Nat) - 4294967296

/-- The 32-bit pattern of an integer (conversion to `uint32_t`). -/
def tu32 (i : Int) : Nat := (i % 4294967296).toNat

/-- Array store `a[i] = v`. -/
def upd {α : Type} (a : Nat → α) (i : Nat) (v : α) : Nat → α :=
  fun j => if j = i then v else a j

/-! ## State -/

/-- One GPIO port (`gpio_port_t`). -/
structure gpio_port_t where
  func : uint8_t
  state : uint8_t

/-- GPIO emulation (`gpio_t`): the vector of `GPIO_PORT_COUNT` ports. -/
structure gpio_t where
  ports : Nat → gpio_port_t

/-- Mailbox (`mbox_t`). -/
structure mbox_t where
  last_channel : uint8_t

/-- Framebuffer data (`framebuffer_t`); `framebuffer = none` is the null pointer.
The SDL surface belongs to the presentation layer and is not modelled. -/
structure framebuffer_t where
  framebuffer : Option (Nat → uint8_t)
  fb_bpp : uint64_t
  fb_pitch : uint64_t
  fb_size : uint64_t
  fb_address : uint32_t
  fb_palette : Nat → uint16_t
  error : Bool
  width : uint32_t
  height : uint32_t
  depth : uint32_t

/-- Peripherals state (`peripheral_t`); the `int` fields only ever hold small
non-negative values. -/
structure peripheral_t where
  spi1_enable : Nat
  spi2_enable : Nat
  irq_tx : Nat
  irq_rx : Nat
  uart_enable : Nat
  uart_bits : Nat
  uart_baud_rate_counter : Nat
  uart_baud_rate : Nat
  uart_dlab : Nat

/-- NES controller (`nes_t`); key bindings belong to the host input layer. -/
structure nes_t where
  last_latch : uint32_t
  last_clock : uint32_t
  counter : uint32_t
  state : Nat → uint32_t

/-- CPU data (`cpu_t`): the register banks, the SPSRs and the CPSR word. -/
structure cpu_t where
  r_usr : Nat → uint32_t
  r_fiq : Nat → uint32_t
  r_svc : Nat → uint32_t
  r_und : Nat → uint32_t
  r_abt : Nat → uint32_t
  r_irq : Nat → uint32_t
  spsr_svc : uint32_t
  spsr_abt : uint32_t
  spsr_und : uint32_t
  spsr_irq : uint32_t
  spsr_fiq : uint32_t
  cpsr : uint32_t

/-- VFP registers (`vfp_t`). -/
structure vfp_t where
  s : Nat → uint32_t
  fpsid : uint32_t
  fpscr : uint32_t
  fpexc : uint32_t

/-- Emulator state (`struct _emulator_t`); `data` is `memory.data`.  The last two
fields are the host: its clock and its allocator. -/
structure emulator_t where
  terminated : Bool
  mem_size : Nat
  start_addr : uint32_t
  graphics : Bool
  quiet : Bool
  nes_enabled : Bool
  fb : framebuffer_t
  data : Nat → uint8_t
  cpu : cpu_t
  gpio : gpio_t
  mbox : mbox_t
  pr : peripheral_t
  vfp : vfp_t
  nes : nes_t
  system_timer_base : uint64_t
  last_refresh : uint64_t
  host_time_us : uint64_t
  host_malloc : Nat → Bool

/-! ## Device register map -/

abbrev GPIO_BASE : Nat := 0x20200000
abbrev GPIO_FSEL0 : Nat := GPIO_BASE + 0x00
abbrev GPIO_FSEL5 : Nat := GPIO_BASE + 0x14
abbrev GPIO_SET0 : Nat := GPIO_BASE + 0x1C
abbrev GPIO_SET1 : Nat := GPIO_BASE + 0x20
abbrev GPIO_CLR0 : Nat := GPIO_BASE + 0x28
abbrev GPIO_CLR1 : Nat := GPIO_BASE + 0x2C
abbrev GPIO_LEV0 : Nat := GPIO_BASE + 0x34
abbrev GPIO_LEV1 : Nat := GPIO_BASE + 0x38
abbrev GPIO_EDS0 : Nat := GPIO_BASE + 0x40
abbrev GPIO_EDS1 : Nat := GPIO_BASE + 0x44
abbrev GPIO_REN0 : Nat := GPIO_BASE + 0x4C
abbrev GPIO_REN1 : Nat := GPIO_BASE + 0x50
abbrev GPIO_FEN0 : Nat := GPIO_BASE + 0x58
abbrev GPIO_FEN1 : Nat := GPIO_BASE + 0x5C
abbrev GPIO_HEN0 : Nat := GPIO_BASE + 0x64
abbrev GPIO_HEN1 : Nat := GPIO_BASE + 0x68
abbrev GPIO_LEN0 : Nat := GPIO_BASE + 0x70
abbrev GPIO_LEN1 : Nat := GPIO_BASE + 0x74
abbrev GPIO_AREN0 : Nat := GPIO_BASE + 0x7C
abbrev GPIO_AREN1 : Nat := GPIO_BASE + 0x80
abbrev GPIO_AFEN0 : Nat := GPIO_BASE + 0x88
abbrev GPIO_AFEN1 : Nat := GPIO_BASE + 0x8C
abbrev GPIO_PUD : Nat := GPIO_BASE + 0x94
abbrev GPIO_UDCLK0 : Nat := GPIO_BASE + 0x98
abbrev GPIO_UDCLK1 : Nat := GPIO_BASE + 0x9C

abbrev MBOX_BASE : Nat := 0x2000b880
abbrev MBOX_READ : Nat := MBOX_BASE + 0x00
abbrev MBOX_STATUS : Nat := MBOX_BASE + 0x18
abbrev MBOX_WRITE : Nat := MBOX_BASE + 0x20

abbrev AUX_BASE : Nat := 0x20215000
abbrev AUX_ENABLES : Nat := AUX_BASE + 0x04
abbrev AUX_MU_IO_REG : Nat := AUX_BASE + 0x40
abbrev AUX_MU_IER_REG : Nat := AUX_BASE + 0x44
abbrev AUX_MU_LCR_REG : Nat := AUX_BASE + 0x4C
abbrev AUX_MU_LSR_REG : Nat := AUX_BASE + 0x54
abbrev AUX_MU_BAUD_REG : Nat := AUX_BASE + 0x68
abbrev AUX_SPI1_CNTL1_REG : Nat := AUX_BASE + 0xC4

abbrev NES_GPIO_PORT_LATCH : Nat := 11
abbrev NES_GPIO_PORT_CLOCK : Nat := 10
abbrev NES_GPIO_PORT_DATA : Nat := 4
abbrev NES_BUTTON_COUNT : Nat := 8

/-- Bitwise complement of a 32-bit value (`~x` on `uint32_t`). -/
def not32 (x : Nat) : Nat := 4294967295 - x % 4294967296

/-! ## Device reads (`gpio.c`, `mbox.c`, `peripheral.c`, `emulator.c`) -/

/-- Range test of `dma_is_port`. -/
def dma_is_port (addr : Nat) : Bool :=
  decide (0x20007000 ≤ addr ∧ addr < 0x20007FF4)

/-- Address test of `gpio_is_port`: the aligned address names a GPIO register. -/
def gpio_is_port (addr : Nat) : Bool :=
  let addr := addr &&& 0xFFFFFFFC
  if addr < GPIO_BASE ∨ GPIO_UDCLK1 < addr then false
  else
    decide ((GPIO_FSEL0 ≤ addr ∧ addr ≤ GPIO_FSEL5) ∨ (GPIO_SET0 ≤ addr ∧ addr ≤ GPIO_SET1) ∨
      (GPIO_CLR0 ≤ addr ∧ addr ≤ GPIO_CLR1) ∨ (GPIO_LEV0 ≤ addr ∧ addr ≤ GPIO_LEV1) ∨
      (GPIO_EDS0 ≤ addr ∧ addr ≤ GPIO_EDS1) ∨ (GPIO_REN0 ≤ addr ∧ addr ≤ GPIO_REN1) ∨
      (GPIO_FEN0 ≤ addr ∧ addr ≤ GPIO_FEN1) ∨ (GPIO_HEN0 ≤ addr ∧ addr ≤ GPIO_HEN1) ∨
      (GPIO_LEN0 ≤ addr ∧ addr ≤ GPIO_LEN1) ∨ (GPIO_AREN0 ≤ addr ∧ addr ≤ GPIO_AREN1) ∨
      (GPIO_AFEN0 ≤ addr ∧ addr ≤ GPIO_AFEN1) ∨ addr = GPIO_PUD ∨
      (GPIO_UDCLK0 ≤ addr ∧ addr ≤ GPIO_UDCLK1))

/-- The loop `for i < 32: reg |= ports[i + offset].state << i` of `gpio_read_port`. -/
def gpio_read_states (gpio : gpio_t) (offset : Nat) : Nat :=
  (List.range 32).foldl
    (fun reg i => reg ||| (((gpio.ports (i + offset)).state.val <<< i) % 4294967296)) 0

/-- Register read `gpio_read_port`; it is called only on addresses accepted by
`gpio_is_port` (its assertion). -/
def gpio_read_port (gpio : gpio_t) (address : Nat) : Nat :=
  let address := address &&& 0xFFFFFFFC
  if GPIO_FSEL0 ≤ address ∧ address ≤ GPIO_FSEL5 then
    let base := ((address &&& 0x000000FF) / 4 * 10) % 256
    (List.range 10).foldl
      (fun reg i => reg ||| (((gpio.ports (base + i)).func.val <<< (3 * i)) % 4294967296)) 0
  else if address = GPIO_SET1 ∨ address = GPIO_LEV1 then gpio_read_states gpio 32
  else if address = GPIO_SET0 ∨ address = GPIO_LEV0 then gpio_read_states gpio 0
  else if address = GPIO_CLR1 then not32 (gpio_read_states gpio 32)
  else if address = GPIO_CLR0 then not32 (gpio_read_states gpio 0)
  else 0

/-- Address test of `mbox_is_port`. -/
def mbox_is_port (addr : Nat) : Bool :=
  let addr := addr &&& 0xFFFFFFFC
  decide (MBOX_BASE ≤ addr ∧ addr ≤ MBOX_WRITE)

/-- Register read `mbox_read`. -/
def mbox_read (emu : emulator_t) (addr : Nat) : Nat :=
  let addr := addr &&& 0xFFFFFFFC
  if addr = MBOX_READ then
    if emu.mbox.last_channel.val = 1 then
      emu.mbox.last_channel.val ||| (if emu.fb.error then 0xFFFFFFF0 else 0x0)
    else emu.mbox.last_channel.val
  else if addr = MBOX_STATUS then 0
  else 0

/-- Address test of `pr_is_aux_port`. -/
def pr_is_aux_port (addr : Nat) : Bool :=
  decide (addr ≥ AUX_BASE ∧ addr ≤ AUX_SPI1_CNTL1_REG)

/-- Register read `pr_read`. -/
def pr_read (pr : peripheral_t) (addr : Nat) : Nat :=
  if addr = AUX_ENABLES then
    (if pr.uart_enable ≠ 0 then 0x1 else 0x0) ||| (if pr.spi1_enable ≠ 0 then 0x2 else 0x0) |||
      (if pr.spi2_enable ≠ 0 then 0x4 else 0x0)
  else if addr = AUX_MU_IER_REG then
    (if pr.irq_rx ≠ 0 then 0x1 else 0x0) ||| (if pr.irq_tx ≠ 0 then 0x2 else 0x0)
  else if addr = AUX_MU_LSR_REG then 0x60
  else if addr = AUX_MU_IO_REG then
    if pr.uart_dlab ≠ 0 then pr.uart_baud_rate &&& 0xFF else 0x00
  else 0

/-- The 64-bit microsecond counter `emulator_get_system_timer`. -/
def emulator_get_system_timer (emu : emulator_t) : Nat :=
  (emu.host_time_us.val + 18446744073709551616 - emu.system_timer_base.val)
    % 18446744073709551616

/-- Range test of `fb_is_buffer`. -/
def fb_is_buffer (emu : emulator_t) (address : Nat) : Bool :=
  if !emu.graphics then false
  else decide (emu.fb.fb_address.val ≤ address ∧
    address < (emu.fb.fb_address.val + emu.fb.fb_size.val) % 18446744073709551616)

/-! ## Memory reads (`memory.c`) -/

/-- Byte read `memory_read_byte`. -/
def memory_read_byte (emu : emulator_t) (addr : Nat) : Nat :=
  let addr := addr &&& 0x3FFFFFFF
  if addr < emu.mem_size then (emu.data addr).val
  else 0

/-- Halfword read `memory_read_word_le`. -/
def memory_read_word_le (emu : emulator_t) (addr : Nat) : Nat :=
  let addr := addr &&& 0x3FFFFFFF
  if addr + 1 < emu.mem_size then
    let base := addr &&& 0xFFFFFFFE
    let off := addr &&& 0x01
    ((emu.data (base + ((off + 0) &&& 0x01))).val <<< 0) |||
    ((emu.data (base + ((off + 1) &&& 0x01))).val <<< 8)
  else 0

/-- Word read `memory_read_dword_le`: SDRAM, then the device ranges in order. -/
def memory_read_dword_le (emu : emulator_t) (addr : Nat) : Nat :=
  let addr := addr &&& 0x3FFFFFFF
  if addr + 3 < emu.mem_size then
    let base := addr &&& 0xFFFFFFFC
    let off := addr &&& 0x03
    ((emu.data (base + ((off + 0) &&& 0x03))).val <<< 0) |||
    ((emu.data (base + ((off + 1) &&& 0x03))).val <<< 8) |||
    ((emu.data (base + ((off + 2) &&& 0x03))).val <<< 16) |||
    ((emu.data (base + ((off + 3) &&& 0x03))).val <<< 24)
  else if addr = 0x20003004 then emulator_get_system_timer emu &&& 0xffffffff
  else if addr = 0x20003008 then (emulator_get_system_timer emu >>> 32) &&& 0xffffffff
  else if gpio_is_port addr then gpio_read_port emu.gpio addr
  else if mbox_is_port addr then mbox_read emu addr
  else if pr_is_aux_port addr then pr_read emu.pr addr
  else if dma_is_port addr then 0
  else 0

/-! ## Device writes (`nes.c`, `gpio.c`, `peripheral.c`, `framebuffer.c`, `mbox.c`) -/

/-- Store `gpio->ports[i].state = v`. -/
def gpio_set_state (emu : emulator_t) (i : Nat) (v : Nat) : emulator_t :=
  { emu with gpio := { ports := upd emu.gpio.ports i { emu.gpio.ports i with state := u8 v } } }

/-- Store `gpio->ports[i].func = v`. -/
def gpio_set_func (emu : emulator_t) (i : Nat) (v : Nat) : emulator_t :=
  { emu with gpio := { ports := upd emu.gpio.ports i { emu.gpio.ports i with func := u8 v } } }

/-- Data line update `nes_write_button`: a pressed button drives the line low. -/
def nes_write_button (emu : emulator_t) (button : Nat) : emulator_t :=
  gpio_set_state emu NES_GPIO_PORT_DATA (if (emu.nes.state button).val ≠ 0 then 0 else 1)

/-- Latch and clock edges `nes_gpio_write`. -/
def nes_gpio_write (emu : emulator_t) (port : Nat) (value : Nat) : emulator_t :=
  if port = NES_GPIO_PORT_LATCH then
    let emu1 :=
      if emu.nes.last_latch.val = 0 ∧ value = 1 then
        let emu0 := nes_write_button { emu with nes := { emu.nes with counter := u32 0 } } 0
        { emu0 with nes := { emu0.nes with counter := u32 (0 + 1) } }
      else emu
    { emu1 with nes := { emu1.nes with last_latch := u32 value } }
  else if port = NES_GPIO_PORT_CLOCK then
    let emu1 :=
      if value = 1 ∧ emu.nes.last_clock.val = 0 then
        let emu0 :=
          if emu.nes.counter.val < NES_BUTTON_COUNT then nes_write_button emu emu.nes.counter.val
          else gpio_set_state emu NES_GPIO_PORT_DATA 1
        { emu0 with nes := { emu0.nes with counter := u32 (emu0.nes.counter.val + 1) } }
      else emu
    { emu1 with nes := { emu1.nes with last_clock := u32 value } }
  else emu

/-- The loop of `gpio_write_port` over the 32 bits of a `SET` (`level = 1`) or `CLR`
(`level = 0`) register; the pair is the state and the remaining shifted value. -/
def gpio_write_states (emu : emulator_t) (offset : Nat) (val : Nat) (level : Nat) : emulator_t :=
  ((List.range 32).foldl
    (fun (acc : emulator_t × Nat) i =>
      let e := acc.1
      let v := acc.2
      let e1 :=
        if v &&& 1 ≠ 0 then
          let e0 := gpio_set_state e (offset + i) level
          if e0.nes_enabled ∧ offset = 0 then nes_gpio_write e0 i level else e0
        else e
      (e1, v >>> 1))
    (emu, val % 4294967296)).1

/-- Register write `gpio_write_port`; called only on addresses accepted by `gpio_is_port`. -/
def gpio_write_port (emu : emulator_t) (address : Nat) (val : Nat) : emulator_t :=
  let address := address &&& 0xFFFFFFFC
  if GPIO_FSEL0 ≤ address ∧ address ≤ GPIO_FSEL5 then
    let base := ((address &&& 0x000000FF) / 4 * 10) % 256
    ((List.range 10).foldl
      (fun (acc : emulator_t × Nat) i =>
        (gpio_set_func acc.1 (base + i) (acc.2 &&& 0x00000007), acc.2 >>> 3))
      (emu, val % 4294967296)).1
  else if address = GPIO_SET1 then gpio_write_states emu 32 val 1
  else if address = GPIO_SET0 then gpio_write_states emu 0 val 1
  else if address = GPIO_CLR1 then gpio_write_states emu 32 val 0
  else if address = GPIO_CLR0 then gpio_write_states emu 0 val 0
  else emu

/-- Register write `pr_write`; the value arrives as a `uint8_t`. -/
def pr_write (pr : peripheral_t) (addr : Nat) (data : Nat) : peripheral_t :=
  let data := data % 256
  if addr = AUX_ENABLES then
    { pr with uart_enable := if data &&& 0x1 ≠ 0 then 1 else 0
              spi1_enable := if data &&& 0x2 ≠ 0 then 1 else 0
              spi2_enable := if data &&& 0x4 ≠ 0 then 1 else 0 }
  else if addr = AUX_MU_IER_REG then
    if pr.uart_dlab ≠ 0 then
      { pr with uart_baud_rate := (pr.uart_baud_rate &&& 0xFF) ||| ((data >>> 8) &&& 0xFF) }
    else
      { pr with irq_rx := if data &&& 0x1 ≠ 0 then 1 else 0
                irq_tx := if data &&& 0x1 ≠ 0 then 1 else 0 }
  else if addr = AUX_MU_LCR_REG then
    { pr with uart_bits := if data &&& 0x1 ≠ 0 then 8 else 7 }
  else if addr = AUX_MU_BAUD_REG then
    { pr with uart_baud_rate_counter := data &&& 0xFF }
  else if addr = AUX_MU_IO_REG then
    if pr.uart_dlab ≠ 0 then
      { pr with uart_baud_rate := (pr.uart_baud_rate &&& 0xFF00) ||| (data &&& 0xFF) }
    else pr
  else pr

/-- Framebuffer halfword store `fb_write_word`; `none` when the assertion
`fb->framebuffer` fails. -/
def fb_write_word (emu : emulator_t) (address : Nat) (data : Nat) : Option emulator_t :=
  match emu.fb.framebuffer with
  | none => none
  | some buf =>
    let addr := (address + 4294967296 - emu.fb.fb_address.val) % 4294967296
    let buf := upd buf (addr + 0) (u8 ((data >>> 0) &&& 0xFF))
    let buf := upd buf (addr + 1) (u8 ((data >>> 8) &&& 0xFF))
    some { emu with fb := { emu.fb with framebuffer := some buf } }

/-- Framebuffer word store `fb_write_dword`; `none` when the assertion
`fb->framebuffer` fails. -/
def fb_write_dword (emu : emulator_t) (address : Nat) (data : Nat) : Option emulator_t :=
  match emu.fb.framebuffer with
  | none => none
  | some buf =>
    let addr := (address + 4294967296 - emu.fb.fb_address.val) % 4294967296
    let buf := upd buf (addr + 0) (u8 ((data >>> 0) &&& 0xFF))
    let buf := upd buf (addr + 1) (u8 ((data >>> 8) &&& 0xFF))
    let buf := upd buf (addr + 2) (u8 ((data >>> 16) &&& 0xFF))
    let buf := upd buf (addr + 3) (u8 ((data >>> 24) &&& 0xFF))
    some { emu with fb := { emu.fb with framebuffer := some buf } }

/-- Body of `fb_request`, with the word store it calls on the way back passed in
(`fb_request`, `mbox_write` and `memory_write_dword_le` call each other).  The old
buffer is freed and `malloc(fb_size)` asked of the host; `none` when it returns `NULL`
and the assertion `fb->framebuffer` fails, otherwise the buffer is zeroed by `memset`. -/
def fb_request_with (write : emulator_t → Nat → Nat → Option emulator_t)
    (emu : emulator_t) (addr : Nat) : Option emulator_t :=
  let emu := { emu with fb := { emu.fb with error := false } }
  if !emu.graphics then
    some { emu with fb := { emu.fb with error := true } }
  else if addr < 0x40000000 then
    some { emu with fb := { emu.fb with error := true } }
  else
    let addr := (addr - 0x40000000) % 4294967296
    let req : Nat → Nat := fun i => memory_read_dword_le emu ((addr + (i <<< 2)) % 4294967296)
    let virt_width := req 2
    let virt_height := req 3
    let depth := req 5
    let palette : Nat → uint16_t :=
      if depth = 8 then
        fun i => if i < 256 then u16 (memory_read_word_le emu ((addr + 40 + i * 2) % 4294967296))
          else emu.fb.fb_palette i
      else emu.fb.fb_palette
    let fb_bpp := depth >>> 3
    let fb_pitch := (virt_width * fb_bpp) % 18446744073709551616
    let pitch := (fb_pitch + (4 - (fb_pitch % 4)) % 4) % 4294967296
    let fb_size := (fb_pitch * virt_height) % 18446744073709551616
    let req1 : Nat → Nat := fun i =>
      if i = 4 then pitch else if i = 9 then fb_size % 4294967296
      else if i = 8 then emu.mem_size % 4294967296 else req i
    let emu1 : emulator_t :=
      { emu with fb := { emu.fb with
          framebuffer := some (fun _ => 0)
          fb_palette := palette
          fb_bpp := u64 fb_bpp
          fb_pitch := u64 fb_pitch
          fb_size := u64 fb_size
          fb_address := u32 emu.mem_size
          width := u32 virt_width
          height := u32 virt_height } }
    if emu.host_malloc fb_size then
      (List.range 10).foldlM
        (fun e i => write e ((addr + (i <<< 2)) % 4294967296) (req1 i)) emu1
    else none

/-- Body of `mbox_write`, with `fb_request` passed in. -/
def mbox_write_with (fb_request : emulator_t → Nat → Option emulator_t)
    (emu : emulator_t) (addr : Nat) (val : Nat) : Option emulator_t :=
  let addr := addr &&& 0xFFFFFFFC
  let channel := (val &&& 0xF) % 256
  let data := val &&& 0xFFFFFFF0
  let emu := { emu with mbox := { last_channel := u8 channel } }
  if addr = MBOX_WRITE then
    if channel = 1 then fb_request emu data
    else some emu
  else some emu

/-! ## Memory writes (`memory.c`) -/

/-- Byte store `memory_write_byte`. -/
def memory_write_byte (emu : emulator_t) (addr : Nat) (data : Nat) : emulator_t :=
  let addr := addr &&& 0x3FFFFFFF
  if addr < emu.mem_size then
    { emu with data := upd emu.data addr (u8 data) }
  else emu

/-- Halfword store `memory_write_word_le`. -/
def memory_write_word_le (emu : emulator_t) (addr : Nat) (data : Nat) : Option emulator_t :=
  let addr := addr &&& 0x3FFFFFFF
  let data := data % 65536
  if addr + 1 < emu.mem_size then
    let d := upd emu.data (addr + 0) (u8 ((data >>> 0) &&& 0xFF))
    let d := upd d (addr + 1) (u8 ((data >>> 8) &&& 0xFF))
    some { emu with data := d }
  else if fb_is_buffer emu addr then fb_write_word emu addr data
  else some emu

/-- Body of `memory_write_dword_le`, with `fb_request` (reached through
`mbox_write`) passed in. -/
def memory_write_dword_le_with (fb_request : emulator_t → Nat → Option emulator_t)
    (emu : emulator_t) (addr : Nat) (data : Nat) : Option emulator_t :=
  let addr := addr &&& 0x3FFFFFFF
  let data := data % 4294967296
  if addr + 3 < emu.mem_size then
    let d := upd emu.data (addr + 0) (u8 ((data >>> 0) &&& 0xFF))
    let d := upd d (addr + 1) (u8 ((data >>> 8) &&& 0xFF))
    let d := upd d (addr + 2) (u8 ((data >>> 16) &&& 0xFF))
    let d := upd d (addr + 3) (u8 ((data >>> 24) &&& 0xFF))
    some { emu with data := d }
  else if gpio_is_port addr then some (gpio_write_port emu addr data)
  else if mbox_is_port addr then mbox_write_with fb_request emu addr data
  else if fb_is_buffer emu addr then fb_write_dword emu addr data
  else if pr_is_aux_port addr then some { emu with pr := pr_write emu.pr addr data }
  else if dma_is_port addr then some emu
  else some emu

/-- The call cycle `fb_request` → `memory_write_dword_le` → `mbox_write` →
`fb_request` unrolled `depth` times; at depth 0 the call does not return. -/
def fb_request_depth : Nat → emulator_t → Nat → Option emulator_t
  | 0 => fun _ _ => none
  | depth + 1 => fb_request_with (memory_write_dword_le_with (fb_request_depth depth))

/-- Framebuffer request `fb_request`.  A request made from inside a request (a
descriptor overlapping the mailbox registers) stops at its address check, so
three levels cover every call chain (`fb_request_depth_stable`). -/
def fb_request (emu : emulator_t) (addr : Nat) : Option emulator_t :=
  fb_request_depth 3 emu addr

/-- Word store `memory_write_dword_le`: SDRAM, then the device ranges in order. -/
def memory_write_dword_le (emu : emulator_t) (addr : Nat) (data : Nat) : Option emulator_t :=
  memory_write_dword_le_with fb_request emu addr data

/-- The byte swap `__builtin_bswap16`; its argument is converted to `uint16_t`. -/
def bswap16 (x : Nat) : Nat := (x % 65536 % 256) * 256 + x % 65536 / 256

/-- Big-endian word store `memory_write_dword_be` (`memory.h`): the 32-bit value goes
through the 16-bit byte swap and the 16-bit store. -/
def memory_write_dword_be (emu : emulator_t) (addr : Nat) (data : Nat) : Option emulator_t :=
  memory_write_word_le emu addr (bswap16 (data % 4294967296))

/-! ## Framebuffer: pixel decoding (`framebuffer.c`) -/

/-- Result of `fb_get_pixel`: the three arguments it hands to `SDL_MapRGB` (the mapping
to the surface format belongs to the presentation layer), or the literal 0 it returns
for an unsupported pixel size. -/
inductive fb_colour where
  | rgb (r g b : Nat)
  | zero
  deriving DecidableEq

/-- Pixel decode `fb_get_pixel`; the buffer offset is computed in `size_t`. -/
def fb_get_pixel (fb : framebuffer_t) (x y : Nat) : fb_colour :=
  match fb.framebuffer with
  | none => fb_colour.rgb 0xff 0x00 0xff
  | some buf =>
    let off := (y * fb.fb_pitch.val + x * fb.fb_bpp.val) % 18446744073709551616
    let byte := fun (k : Nat) => (buf ((off + k) % 18446744073709551616)).val
    if fb.fb_bpp.val = 1 then
      let value := (fb.fb_palette (byte 0)).val
      fb_colour.rgb ((((value >>> 11) &&& 0x1F) * 255) / 31)
        ((((value >>> 5) &&& 0x3F) * 255) / 63) (((value &&& 0x1F) * 255) / 31)
    else if fb.fb_bpp.val = 2 then
      let value := (byte 0 + (byte 1 <<< 8)) % 65536
      fb_colour.rgb (((value &&& 0x1F) * 255) / 31)
        ((((value >>> 5) &&& 0x3F) * 255) / 63) ((((value >>> 11) &&& 0x1F) * 255) / 31)
    else if fb.fb_bpp.val = 3 ∨ fb.fb_bpp.val = 4 then
      let value := (byte 0 + (byte 1 <<< 8) + (byte 2 <<< 16) + (byte 3 <<< 24)) % 4294967296
      fb_colour.rgb (value &&& 0xFF) ((value >>> 8) &&& 0xFF) ((value >>> 16) &&& 0xFF)
    else fb_colour.zero

/-! ## CPU: registers, modes and status words (`cpu.h`, `cpu.c`) -/

/-- ARM registers (`armReg_t`): an index 0..15. -/
abbrev armReg_t := Fin 16

abbrev SP : armReg_t := 13
abbrev LR : armReg_t := 14
abbrev PC : armReg_t := 15

abbrev MODE_USR : Nat := 0x10
abbrev MODE_FIQ : Nat := 0x11
abbrev MODE_IRQ : Nat := 0x12
abbrev MODE_SVC : Nat := 0x13
abbrev MODE_ABT : Nat := 0x17
abbrev MODE_UND : Nat := 0x1B
abbrev MODE_SYS : Nat := 0x1F

/-- Bit-field read: the `w` bits of `r` starting at bit `lo`. -/
def bitfield_get (r lo w : Nat) : Nat := r / 2 ^ lo % 2 ^ w

/-- Bit-field store: the `w` bits of `r` starting at bit `lo` replaced by the low
`w` bits of `v`. -/
def bitfield_set (r lo w v : Nat) : Nat :=
  r - (r / 2 ^ lo % 2 ^ w) * 2 ^ lo + (v % 2 ^ w) * 2 ^ lo

/-- Mode field `cpsr.b.m`. -/
def cpsr_m (cpu : cpu_t) : Nat := bitfield_get cpu.cpsr.val 0 5
/-- Overflow flag `cpsr.b.v`. -/
def cpsr_v (cpu : cpu_t) : Nat := bitfield_get cpu.cpsr.val 28 1
/-- Carry flag `cpsr.b.c`. -/
def cpsr_c (cpu : cpu_t) : Nat := bitfield_get cpu.cpsr.val 29 1
/-- Zero flag `cpsr.b.z`. -/
def cpsr_z (cpu : cpu_t) : Nat := bitfield_get cpu.cpsr.val 30 1
/-- Negative flag `cpsr.b.n`. -/
def cpsr_n (cpu : cpu_t) : Nat := bitfield_get cpu.cpsr.val 31 1

/-- Store `cpsr.b.m = v`. -/
def set_cpsr_m (cpu : cpu_t) (v : Nat) : cpu_t :=
  { cpu with cpsr := u32 (bitfield_set cpu.cpsr.val 0 5 v) }
/-- Store `cpsr.b.v = v`. -/
def set_cpsr_v (cpu : cpu_t) (v : Nat) : cpu_t :=
  { cpu with cpsr := u32 (bitfield_set cpu.cpsr.val 28 1 v) }
/-- Store `cpsr.b.c = v`. -/
def set_cpsr_c (cpu : cpu_t) (v : Nat) : cpu_t :=
  { cpu with cpsr := u32 (bitfield_set cpu.cpsr.val 29 1 v) }
/-- Store `cpsr.b.z = v`. -/
def set_cpsr_z (cpu : cpu_t) (v : Nat) : cpu_t :=
  { cpu with cpsr := u32 (bitfield_set cpu.cpsr.val 30 1 v) }
/-- Store `cpsr.b.n = v`. -/
def set_cpsr_n (cpu : cpu_t) (v : Nat) : cpu_t :=
  { cpu with cpsr := u32 (bitfield_set cpu.cpsr.val 31 1 v) }

/-- A C truth value as 0 or 1. -/
def b2n (b : Bool) : Nat := if b then 1 else 0

/-- Condition test `check_cond`. -/
def check_cond (cpu : cpu_t) (cc : Nat) : Bool :=
  match cc with
  | 0x0 => cpsr_z cpu != 0
  | 0x1 => cpsr_z cpu == 0
  | 0x2 => cpsr_c cpu != 0
  | 0x3 => cpsr_c cpu == 0
  | 0x4 => cpsr_n cpu != 0
  | 0x5 => cpsr_n cpu == 0
  | 0x6 => cpsr_v cpu != 0
  | 0x7 => cpsr_v cpu == 0
  | 0x8 => cpsr_c cpu != 0 && cpsr_z cpu == 0
  | 0x9 => cpsr_c cpu == 0 || cpsr_z cpu != 0
  | 0xa => cpsr_n cpu == cpsr_v cpu
  | 0xb => cpsr_n cpu != cpsr_v cpu
  | 0xc => cpsr_z cpu == 0 && cpsr_n cpu == cpsr_v cpu
  | 0xd => cpsr_z cpu != 0 || cpsr_n cpu != cpsr_v cpu
  | 0xe => true
  | _ => false

/-- Register read `cpu_read_register`; fatal for SP/LR in an invalid mode. -/
def cpu_read_register (cpu : cpu_t) (reg : armReg_t) : Option Nat :=
  if reg.val ≤ 7 then some (cpu.r_usr reg.val).val
  else if reg.val ≤ 12 then
    if cpsr_m cpu = MODE_FIQ then some (cpu.r_fiq (reg.val - 8)).val
    else some (cpu.r_usr reg.val).val
  else if reg.val ≤ 14 then
    if cpsr_m cpu = MODE_USR ∨ cpsr_m cpu = MODE_SYS then some (cpu.r_usr reg.val).val
    else if cpsr_m cpu = MODE_FIQ then some (cpu.r_fiq (reg.val - 8)).val
    else if cpsr_m cpu = MODE_IRQ then some (cpu.r_irq (reg.val - 13)).val
    else if cpsr_m cpu = MODE_SVC then some (cpu.r_svc (reg.val - 13)).val
    else if cpsr_m cpu = MODE_ABT then some (cpu.r_abt (reg.val - 13)).val
    else if cpsr_m cpu = MODE_UND then some (cpu.r_und (reg.val - 13)).val
    else none
  else some (((cpu.r_usr 15).val + 4) % 4294967296)

/-- Register write `cpu_write_register`; SP/LR in an invalid mode are not stored. -/
def cpu_write_register (cpu : cpu_t) (reg : armReg_t) (value : Nat) : cpu_t :=
  if reg.val ≤ 7 then { cpu with r_usr := upd cpu.r_usr reg.val (u32 value) }
  else if reg.val ≤ 12 then
    if cpsr_m cpu = MODE_FIQ then { cpu with r_fiq := upd cpu.r_fiq (reg.val - 8) (u32 value) }
    else { cpu with r_usr := upd cpu.r_usr reg.val (u32 value) }
  else if reg.val ≤ 14 then
    if cpsr_m cpu = MODE_USR ∨ cpsr_m cpu = MODE_SYS then
      { cpu with r_usr := upd cpu.r_usr reg.val (u32 value) }
    else if cpsr_m cpu = MODE_FIQ then
      { cpu with r_fiq := upd cpu.r_fiq (reg.val - 8) (u32 value) }
    else if cpsr_m cpu = MODE_IRQ then
      { cpu with r_irq := upd cpu.r_irq (reg.val - 13) (u32 value) }
    else if cpsr_m cpu = MODE_SVC then
      { cpu with r_svc := upd cpu.r_svc (reg.val - 13) (u32 value) }
    else if cpsr_m cpu = MODE_ABT then
      { cpu with r_abt := upd cpu.r_abt (reg.val - 13) (u32 value) }
    else if cpsr_m cpu = MODE_UND then
      { cpu with r_und := upd cpu.r_und (reg.val - 13) (u32 value) }
    else cpu
  else { cpu with r_usr := upd cpu.r_usr 15 (u32 value) }

/-- Read of the current mode's SPSR, `read_spsr`; 0 in a mode without one. -/
def read_spsr (cpu : cpu_t) : Nat :=
  if cpsr_m cpu = MODE_SVC then cpu.spsr_svc.val
  else if cpsr_m cpu = MODE_ABT then cpu.spsr_abt.val
  else if cpsr_m cpu = MODE_UND then cpu.spsr_und.val
  else if cpsr_m cpu = MODE_IRQ then cpu.spsr_irq.val
  else if cpsr_m cpu = MODE_FIQ then cpu.spsr_fiq.val
  else 0

/-- Write of the current mode's SPSR, `write_spsr`. -/
def write_spsr (cpu : cpu_t) (value : Nat) : cpu_t :=
  if cpsr_m cpu = MODE_SVC then { cpu with spsr_svc := u32 value }
  else if cpsr_m cpu = MODE_ABT then { cpu with spsr_abt := u32 value }
  else if cpsr_m cpu = MODE_UND then { cpu with spsr_und := u32 value }
  else if cpsr_m cpu = MODE_IRQ then { cpu with spsr_irq := u32 value }
  else if cpsr_m cpu = MODE_FIQ then { cpu with spsr_fiq := u32 value }
  else cpu

/-- Mode switch `change_mode`; fatal outside `MODE_USR ... MODE_SYS`. -/
def change_mode (cpu : cpu_t) (mode : Nat) : Option cpu_t :=
  if MODE_USR ≤ mode ∧ mode ≤ MODE_SYS then some (set_cpsr_m cpu mode)
  else none

/-! ## CPU: barrel shifter and data processing (`cpu.c`) -/

/-- The operator `>>` on an `int32_t` (arithmetic shift), on 32-bit patterns. -/
def asr32 (value shift : Nat) : Nat := tu32 (ts32 value / 2 ^ shift)

/-- Rotation helper `rotate_right`; its `value` parameter is an `int32_t`, so the
right shift inside it is the arithmetic one. -/
def rotate_right (value shift : Nat) : Nat :=
  let shift := (shift % 256) &&& 0x1F
  asr32 value shift ||| ((value % 4294967296) <<< (32 - shift)) % 4294967296

/-- Operand 2 / offset `compute_offset_operand2`: the value and the CPU with the
carry flag updated when `s` is set.  The loop `while (shift_amount > 32)
shift_amount -= 32` of the rotate case is written in closed form. -/
def compute_offset_operand2 (cpu : cpu_t) (imm : Nat) (s : Nat) : Option (Nat × cpu_t) := do
  let rm_data ← cpu_read_register cpu ⟨(imm &&& 0x0000000F) % 16, Nat.mod_lt _ (by decide)⟩
  let shift_type := (imm >>> 5) &&& 0x00000003
  let shift_amount ←
    if (imm >>> 4) &&& 0x00000001 ≠ 0 then
      let rs := (imm >>> 8) &&& 0x0000000F
      if rs = 15 then none
      else (cpu_read_register cpu ⟨rs % 16, Nat.mod_lt _ (by decide)⟩).map (· &&& 0x000000FF)
    else some ((imm >>> 7) &&& 0x0000001F)
  if shift_amount = 0 then some (rm_data, cpu)
  else
    match shift_type with
    | 0x0 =>
      if shift_amount ≥ 32 then
        some (0, if s ≠ 0 then
          set_cpsr_c cpu (b2n (shift_amount = 32 ∧ rm_data &&& 0x1 ≠ 0)) else cpu)
      else
        some ((rm_data <<< shift_amount) % 4294967296,
          if s ≠ 0 then set_cpsr_c cpu ((rm_data >>> (32 - shift_amount)) &&& 0x1) else cpu)
    | 0x1 =>
      if shift_amount ≥ 32 then
        some (0, if s ≠ 0 then
          set_cpsr_c cpu (b2n (shift_amount = 32 ∧ rm_data >>> 31 ≠ 0)) else cpu)
      else
        some (rm_data >>> shift_amount,
          if s ≠ 0 then set_cpsr_c cpu ((rm_data >>> (shift_amount - 1)) &&& 0x1) else cpu)
    | 0x2 =>
      if shift_amount ≥ 32 then
        let bit31 := rm_data >>> 31
        some (if bit31 ≠ 0 then 0xFFFFFFFF else 0x0,
          if s ≠ 0 then set_cpsr_c cpu bit31 else cpu)
      else
        some (asr32 rm_data shift_amount,
          if s ≠ 0 then set_cpsr_c cpu ((rm_data >>> (shift_amount - 1)) &&& 0x1) else cpu)
    | _ =>
      let shift_amount := if shift_amount > 32 then (shift_amount - 1) % 32 + 1 else shift_amount
      if shift_amount = 32 then
        some (rm_data, if s ≠ 0 then set_cpsr_c cpu (rm_data >>> 31) else cpu)
      else
        some (rotate_right rm_data shift_amount,
          if s ≠ 0 then set_cpsr_c cpu ((rm_data >>> (shift_amount - 1)) &&& 0x1) else cpu)

/-- Field `Rn` (bits 19..16) of an instruction word. -/
def op_Rn (instr : Nat) : armReg_t := ⟨(instr >>> 16) % 16, Nat.mod_lt _ (by decide)⟩
/-- Field `Rd` (bits 15..12) of an instruction word. -/
def op_Rd (instr : Nat) : armReg_t := ⟨(instr >>> 12) % 16, Nat.mod_lt _ (by decide)⟩
/-- Field at bits 11..8 (`Rs`, or `Rn` of a multiply) of an instruction word. -/
def op_Rs (instr : Nat) : armReg_t := ⟨(instr >>> 8) % 16, Nat.mod_lt _ (by decide)⟩
/-- Field `Rm` (bits 3..0) of an instruction word. -/
def op_Rm (instr : Nat) : armReg_t := ⟨instr % 16, Nat.mod_lt _ (by decide)⟩
/-- Single bit `n` of an instruction word. -/
def op_bit (instr n : Nat) : Nat := (instr >>> n) % 2

/-- The flag updates `z = (res == 0); n = bit 31 of res`. -/
def set_zn (cpu : cpu_t) (res : Nat) : cpu_t :=
  set_cpsr_n (set_cpsr_z cpu (b2n (res = 0))) (res >>> 31)

/-- The sign rule of SUB/CMP/RSB/SBC/RSC: `v = 0`, then 1 for
positive - negative = negative and for negative - positive = positive. -/
def set_v_sub (cpu : cpu_t) (op1 op2 res : Nat) : cpu_t :=
  let cpu := set_cpsr_v cpu 0
  if ts32 op1 ≥ 0 ∧ ts32 op2 < 0 ∧ ts32 res < 0 then set_cpsr_v cpu 1
  else if ts32 op1 < 0 ∧ ts32 op2 ≥ 0 ∧ ts32 res ≥ 0 then set_cpsr_v cpu 1
  else cpu

/-- The two tests of ADD/CMN/ADC: negative + negative = positive, and
positive + positive = negative, each setting `v = 1`. -/
def set_v_add (cpu : cpu_t) (op1 op2 res : Nat) : cpu_t :=
  let cpu := if ts32 op1 < 0 ∧ ts32 op2 < 0 ∧ ts32 res > 0 then set_cpsr_v cpu 1 else cpu
  if ts32 op1 > 0 ∧ ts32 op2 > 0 ∧ ts32 res < 0 then set_cpsr_v cpu 1 else cpu

/-- Data processing `instr_single_data_processing` on the instruction word
(`op_data_proc_t`: imm 11..0, Rd 15..12, Rn 19..16, s 20, op 24..21, i 25). -/
def instr_single_data_processing (cpu : cpu_t) (instr : Nat) : Option cpu_t := do
  let imm := instr % 4096
  let s := op_bit instr 20
  let op := (instr >>> 21) % 16
  let i := op_bit instr 25
  let op1 ← cpu_read_register cpu (op_Rn instr)
  let (op2, cpu) ←
    if i ≠ 0 then
      let rotate_amount := (imm >>> 8) &&& 0xF
      some (rotate_right (imm &&& 0xFF) (rotate_amount * 2), cpu)
    else compute_offset_operand2 cpu (imm &&& 0x00000FFF) s
  match op with
  | 0x0 | 0x8 =>
    let res := op1 &&& op2
    let cpu := if s ≠ 0 ∨ op = 0x08 then set_zn cpu res else cpu
    some (if op = 0x0 then cpu_write_register cpu (op_Rd instr) res else cpu)
  | 0x1 | 0x9 =>
    let res := op1 ^^^ op2
    let cpu := if s ≠ 0 ∨ op = 0x09 then set_zn cpu res else cpu
    some (if op = 0x1 then cpu_write_register cpu (op_Rd instr) res else cpu)
  | 0x2 | 0xA | 0x3 =>
    let (op1, op2) := if op = 0x3 then (op2, op1) else (op1, op2)
    let res64 : Int := ts32 op1 - ts32 op2
    let res := tu32 res64
    let cpu :=
      if s ≠ 0 ∨ op = 0x0A then
        set_v_sub (set_cpsr_c (set_zn cpu res) (b2n ((res64 / 4294967296) % 2 = 0))) op1 op2 res
      else cpu
    some (if op = 0x2 ∨ op = 0x3 then cpu_write_register cpu (op_Rd instr) res else cpu)
  | 0x4 | 0xB =>
    let res64 : Int := ts32 op1 + ts32 op2
    let res := tu32 res64
    let cpu :=
      if s ≠ 0 ∨ op = 0xB then
        set_v_add (set_cpsr_v (set_cpsr_c (set_zn cpu res) (b2n (res64 / 4294967296 ≠ 0))) 0)
          op1 op2 res
      else cpu
    some (if op = 0x4 then cpu_write_register cpu (op_Rd instr) res else cpu)
  | 0x5 =>
    let res64 : Int := ts32 op1 + ts32 op2 + (cpsr_c cpu : Int)
    let res := tu32 res64
    let cpu :=
      if s ≠ 0 then
        set_cpsr_c (set_v_add (set_zn cpu res) op1 op2 res) (b2n (res64 / 4294967296 ≠ 0))
      else cpu
    some (cpu_write_register cpu (op_Rd instr) res)
  | 0x6 | 0x7 =>
    let (op1, op2) := if op = 0x7 then (op2, op1) else (op1, op2)
    let res64 : Int := ts32 op1 - ts32 op2 + (cpsr_c cpu : Int) - 1
    let res := tu32 res64
    let cpu :=
      if s ≠ 0 then
        set_v_sub (set_cpsr_c (set_zn cpu res) (b2n (res64 / 4294967296 ≠ -1))) op1 op2 res
      else cpu
    some (cpu_write_register cpu (op_Rd instr) res)
  | 0xC =>
    let res := op1 ||| op2
    let cpu := if s ≠ 0 then set_zn cpu res else cpu
    some (cpu_write_register cpu (op_Rd instr) res)
  | 0xD =>
    let cpu := if s ≠ 0 then set_zn cpu op2 else cpu
    some (cpu_write_register cpu (op_Rd instr) op2)
  | 0xE =>
    let res := op1 &&& not32 op2
    let cpu := if s ≠ 0 then set_zn cpu res else cpu
    some (cpu_write_register cpu (op_Rd instr) res)
  | _ =>
    let res := not32 op2
    let cpu := if s ≠ 0 then set_zn cpu res else cpu
    some (cpu_write_register cpu (op_Rd instr) res)

/-! ## CPU: multiply, status register transfers, branches (`cpu.c`) -/

/-- The signed reading of a 64-bit pattern (`ts64`). -/
def ts64 (u : Nat) : Int :=
  if u % 18446744073709551616 < 9223372036854775808 then (u % 18446744073709551616 : Nat)
  else (u % 18446744073709551616 : Nat) - 18446744073709551616

/-- The 64-bit pattern of an integer (`tu64`). -/
def tu64 (s : Int) : Nat := (s % 18446744073709551616).toNat

/-- Long multiply `instr_multiply_long` (`op_multiply_long_t`: Rm 3..0, Rs 11..8,
RdLo 15..12, RdHi 19..16, s 20, a 21, u 22).  The operands reach `ts64` as
zero-extended `uint64_t` values. -/
def instr_multiply_long (cpu : cpu_t) (instr : Nat) : Option cpu_t := do
  let RdLo := op_Rd instr
  let RdHi := op_Rn instr
  let (lo, hi) ←
    if op_bit instr 21 ≠ 0 then do
      let lo ← cpu_read_register cpu RdLo
      let hi ← cpu_read_register cpu RdHi
      pure (lo, hi)
    else some (0, 0)
  let large := lo + hi * 4294967296
  let operandA ← cpu_read_register cpu (op_Rm instr)
  let operandB ← cpu_read_register cpu (op_Rs instr)
  let large :=
    if op_bit instr 22 ≠ 0 then tu64 (ts64 operandA * ts64 operandB + ts64 large)
    else (operandA * operandB + large) % 18446744073709551616
  let lo := large % 4294967296
  let hi := large / 4294967296
  let cpu :=
    if op_bit instr 20 ≠ 0 then set_cpsr_z (set_cpsr_n cpu (hi >>> 31)) (b2n (large = 0))
    else cpu
  some (cpu_write_register (cpu_write_register cpu RdLo lo) RdHi hi)

/-- Multiply `instr_multiply` (`op_multiply_t`: Rm 3..0, Rs 11..8, Rn 15..12,
Rd 19..16, s 20, a 21): here the accumulator `Rn` sits in bits 15..12 (`op_Rd`) and
the destination `Rd` in bits 19..16 (`op_Rn`). -/
def instr_multiply (cpu : cpu_t) (instr : Nat) : Option cpu_t := do
  let op1 ← cpu_read_register cpu (op_Rm instr)
  let op2 ← cpu_read_register cpu (op_Rs instr)
  let res ←
    if op_bit instr 21 ≠ 0 then
      (cpu_read_register cpu (op_Rd instr)).map fun opA => (opA + op1 * op2) % 4294967296
    else some ((op1 * op2) % 4294967296)
  let cpu := if op_bit instr 20 ≠ 0 then set_cpsr_n (set_cpsr_z cpu (b2n (res = 0))) (res >>> 31)
    else cpu
  some (cpu_write_register cpu (op_Rn instr) res)

/-- Status register read `instr_mrs` (`op_mrs_t`: Rd 15..12, Ps 22). -/
def instr_mrs (cpu : cpu_t) (instr : Nat) : Option cpu_t :=
  if op_bit instr 22 = 0 then some (cpu_write_register cpu (op_Rd instr) cpu.cpsr.val)
  else if cpsr_m cpu = MODE_USR then some (cpu_write_register cpu (op_Rd instr) (read_spsr cpu))
  else none

/-- Status register write `write_psr`. -/
def write_psr (cpu : cpu_t) (Pd value flags : Nat) : Option cpu_t :=
  if flags ≠ 0 ∨ cpsr_m cpu = MODE_USR then
    let mask := 0xF0000000
    let value := value &&& mask
    if Pd = 0 then
      some { cpu with cpsr := u32 (value ||| (cpu.cpsr.val &&& not32 mask)) }
    else if cpsr_m cpu = MODE_USR then none
    else some (write_spsr cpu (value ||| (read_spsr cpu &&& not32 mask)))
  else if Pd = 0 then some { cpu with cpsr := u32 value }
  else some (write_spsr cpu value)

/-- Full PSR write `instr_msr_psr` (`op_msr_psr_t`: Rm 3..0, Pd 22). -/
def instr_msr_psr (cpu : cpu_t) (instr : Nat) : Option cpu_t := do
  let value ← cpu_read_register cpu (op_Rm instr)
  write_psr cpu (op_bit instr 22) value 0

/-- Flags-only PSR write `instr_msr_psrf` (`op_msr_psrf_t`: src 11..0, Pd 22, i 25). -/
def instr_msr_psrf (cpu : cpu_t) (instr : Nat) : Option cpu_t := do
  let src := instr % 4096
  if op_bit instr 25 = 0 then
    let value ← cpu_read_register cpu ⟨(src &&& 0xf) % 16, Nat.mod_lt _ (by decide)⟩
    write_psr cpu (op_bit instr 22) value 1
  else
    let (value, cpu) ← compute_offset_operand2 cpu (src &&& 0xff) ((src >>> 8) &&& 0xf)
    write_psr cpu (op_bit instr 22) value 1

/-- Branch `instr_branch` (`op_branch_t`: offset 23..0, l 24). -/
def instr_branch (cpu : cpu_t) (instr : Nat) : Option cpu_t := do
  let offset := ((instr % 16777216) <<< 2) % 4294967296
  let offset := if offset &&& (1 <<< 25) ≠ 0 then offset ||| 0xFC000000 else offset
  let pc ← cpu_read_register cpu PC
  let lr := (pc + 4294967296 - 4) % 4294967296
  let pc := (pc + offset) % 4294967296
  let cpu := cpu_write_register cpu PC pc
  some (if op_bit instr 24 ≠ 0 then cpu_write_register cpu LR lr else cpu)

/-- Branch and exchange `instr_branch_exchange` (`op_branch_exchange_t`: Rn 3..0);
the THUMB test is made on the field `Rn`. -/
def instr_branch_exchange (cpu : cpu_t) (instr : Nat) : Option cpu_t :=
  if (op_Rm instr).val &&& 0x1 ≠ 0 then none
  else (cpu_read_register cpu (op_Rm instr)).map fun pc => cpu_write_register cpu PC pc

/-- Software interrupt `instr_swi`. -/
def instr_swi (cpu : cpu_t) : Option cpu_t := do
  let cpu ← change_mode cpu MODE_SVC
  let pc ← cpu_read_register cpu PC
  let cpu := cpu_write_register cpu LR pc
  let cpu := cpu_write_register cpu PC 0x08
  some (write_spsr cpu cpu.cpsr.val)

/-- Undefined instruction trap `instr_undefined`. -/
def instr_undefined (cpu : cpu_t) : Option cpu_t := do
  let cpu ← change_mode cpu MODE_UND
  let pc ← cpu_read_register cpu PC
  let cpu := cpu_write_register cpu LR pc
  let cpu := cpu_write_register cpu PC 0x04
  some (write_spsr cpu cpu.cpsr.val)

/-! ## CPU: loads and stores (`cpu.c`) -/

/-- One step of the register loop of `instr_block_data_transfer` for register `reg`;
the state is the emulator and the running address. -/
def block_data_transfer_step (instr : Nat) (acc : emulator_t × Nat) (reg : Nat) :
    Option (emulator_t × Nat) :=
  let emu := acc.1
  let address := acc.2
  let rl := instr % 65536
  let rn := op_Rn instr
  let offset := if op_bit instr 23 ≠ 0 then 4 else 4294967292
  if rl &&& (1 <<< reg) = 0 then some acc
  else do
    let r : armReg_t := ⟨reg % 16, Nat.mod_lt _ (by decide)⟩
    let address := if op_bit instr 24 ≠ 0 then (address + offset) % 4294967296 else address
    let emu :=
      if op_bit instr 21 ≠ 0 ∧ reg = rn.val then
        { emu with cpu := cpu_write_register emu.cpu rn address }
      else emu
    let emu ←
      if op_bit instr 20 ≠ 0 then
        if op_bit instr 22 ≠ 0 then
          some { emu with cpu := { emu.cpu with
            r_usr := upd emu.cpu.r_usr reg (u32 (memory_read_dword_le emu address)) } }
        else
          some { emu with cpu :=
            cpu_write_register emu.cpu r (memory_read_dword_le emu address) }
      else
        if op_bit instr 22 ≠ 0 then
          memory_write_dword_le emu address (emu.cpu.r_usr reg).val
        else do
          let v ← cpu_read_register emu.cpu r
          memory_write_dword_le emu address v
    let address := if op_bit instr 24 = 0 then (address + offset) % 4294967296 else address
    some (emu, address)

/-- Block transfer `instr_block_data_transfer` (`op_block_data_trans_t`: rl 15..0,
rn 19..16, l 20, w 21, s 22, u 23, p 24). -/
def instr_block_data_transfer (emu : emulator_t) (instr : Nat) : Option emulator_t := do
  let rl := instr % 65536
  let rn := op_Rn instr
  if rl = 0 then none
  else if rn.val = 15 then none
  else if op_bit instr 22 ≠ 0 ∧ (cpsr_m emu.cpu = MODE_USR ∨ cpsr_m emu.cpu = MODE_SYS) then none
  else do
    let base ← cpu_read_register emu.cpu rn
    let address := base &&& 0xfffffffc
    let regs := if op_bit instr 23 ≠ 0 then List.range 16 else (List.range 16).reverse
    let (emu, address) ← regs.foldlM (block_data_transfer_step instr) (emu, address)
    let emu :=
      if op_bit instr 20 ≠ 0 ∧ op_bit instr 22 ≠ 0 ∧ rl &&& (1 <<< 15) ≠ 0 then
        { emu with cpu := { emu.cpu with cpsr := u32 (read_spsr emu.cpu) } }
      else emu
    some (if op_bit instr 21 ≠ 0 ∧ rl &&& (1 <<< rn.val) = 0 then
      { emu with cpu := cpu_write_register emu.cpu rn address } else emu)

/-- Single transfer `instr_single_data_trans` (`op_single_data_trans_t`:
offset 11..0, rd 15..12, rn 19..16, l 20, w 21, b 22, u 23, p 24, i 25). -/
def instr_single_data_trans (emu : emulator_t) (instr : Nat) : Option emulator_t := do
  let rn0 ← cpu_read_register emu.cpu (op_Rn instr)
  let (offset, cpu) ←
    if op_bit instr 25 ≠ 0 then compute_offset_operand2 emu.cpu ((instr % 4096) &&& 0x00000FFF) 0
    else some ((instr % 4096) &&& 0x00000FFF, emu.cpu)
  let emu := { emu with cpu := cpu }
  let moved :=
    if op_bit instr 23 ≠ 0 then (rn0 + offset) % 4294967296
    else (rn0 + 4294967296 - offset) % 4294967296
  let addr := if op_bit instr 24 ≠ 0 then moved else rn0
  let rn := moved
  let emu ←
    if op_bit instr 20 ≠ 0 then
      if op_bit instr 22 ≠ 0 then
        some { emu with cpu := cpu_write_register emu.cpu (op_Rd instr) (memory_read_byte emu addr) }
      else
        some { emu with cpu :=
          cpu_write_register emu.cpu (op_Rd instr) (memory_read_dword_le emu addr) }
    else do
      let v ← cpu_read_register emu.cpu (op_Rd instr)
      if op_bit instr 22 ≠ 0 then some (memory_write_byte emu addr v)
      else memory_write_dword_le emu addr v
  if op_bit instr 21 ≠ 0 ∨ op_bit instr 24 = 0 then
    if (op_Rn instr).val = 15 then none
    else some { emu with cpu := cpu_write_register emu.cpu (op_Rn instr) rn }
  else some emu

/-- Swap `instr_single_data_swap` (`op_single_data_swap_t`: rm 3..0, rd 15..12,
rn 19..16, b 22). -/
def instr_single_data_swap (emu : emulator_t) (instr : Nat) : Option emulator_t := do
  if (op_Rd instr).val = 15 ∨ (op_Rn instr).val = 15 ∨ (op_Rm instr).val = 15 then none
  else do
    let swap_address ← cpu_read_register emu.cpu (op_Rn instr)
    if op_bit instr 22 ≠ 0 then
      let tmp := memory_read_byte emu swap_address
      let v ← cpu_read_register emu.cpu (op_Rm instr)
      let emu := memory_write_byte emu swap_address v
      some { emu with cpu := cpu_write_register emu.cpu (op_Rd instr) tmp }
    else
      let tmp := memory_read_dword_le emu swap_address
      let v ← cpu_read_register emu.cpu (op_Rm instr)
      let emu ← memory_write_dword_le emu swap_address v
      some { emu with cpu := cpu_write_register emu.cpu (op_Rd instr) tmp }

/-- Operation selection `hw_sd_transfer_fun_sel` on the field `sh` (bits 6..5). -/
def hw_sd_transfer_fun_sel (emu : emulator_t) (instr : Nat) (address : Nat) :
    Option emulator_t :=
  let l := op_bit instr 20
  let rd := op_Rd instr
  match (instr >>> 5) % 4 with
  | 0 => instr_single_data_swap emu instr
  | 1 =>
    if l ≠ 0 then
      some { emu with cpu := cpu_write_register emu.cpu rd (memory_read_word_le emu address) }
    else do
      let address := if rd.val = 15 then (address + 12) % 4294967296 else address
      let v ← cpu_read_register emu.cpu rd
      memory_write_word_le emu address (v % 65536)
  | 2 =>
    if l ≠ 0 then
      let val := 0x000000FF &&& memory_read_byte emu address
      let val := if val &&& (1 <<< 7) ≠ 0 then val ||| 0xFFFFFF00 else val
      some { emu with cpu := cpu_write_register emu.cpu rd val }
    else none
  | _ =>
    if l ≠ 0 then
      let val := 0x0000FFFF &&& memory_read_word_le emu address
      let val := if val &&& (1 <<< 15) ≠ 0 then val ||| 0xFFFF0000 else val
      some { emu with cpu := cpu_write_register emu.cpu rd val }
    else none

/-- Halfword and signed transfer `instr_hw_sd_transfer` (`op_hw_sd_trans_t`:
rm_ln 3..0, sh 6..5, hn 11..8, rd 15..12, rn 19..16, l 20, w 21, o 22, u 23, p 24). -/
def instr_hw_sd_transfer (emu : emulator_t) (instr : Nat) : Option emulator_t := do
  let base ← cpu_read_register emu.cpu (op_Rn instr)
  let offset ←
    if op_bit instr 22 ≠ 0 then some ((0 ||| (op_Rm instr).val) ||| ((op_Rs instr).val <<< 4))
    else if (op_Rm instr).val = 15 then none
    else cpu_read_register emu.cpu (op_Rm instr)
  let moved :=
    if op_bit instr 23 ≠ 0 then (base + offset) % 4294967296
    else (base + 4294967296 - offset) % 4294967296
  let emu ← hw_sd_transfer_fun_sel emu instr (if op_bit instr 24 ≠ 0 then moved else base)
  if op_bit instr 21 ≠ 0 ∨ op_bit instr 24 = 0 then
    if (op_Rn instr).val = 15 then none
    else some { emu with cpu := cpu_write_register emu.cpu (op_Rn instr) moved }
  else some emu

/-! ## VFP coprocessor (`vfp.c`) -/

/-- The host: single-precision arithmetic of the machine the emulator runs on, on
32-bit patterns, and the outcome of an interactive `debug_break` session (whether
it ends with the command `q`). -/
structure host_t where
  fadd : Nat → Nat → Nat
  fsub : Nat → Nat → Nat
  fmul : Nat → Nat → Nat
  fdiv : Nat → Nat → Nat
  fneg : Nat → Nat
  fabs : Nat → Nat
  fsqrt : Nat → Nat
  is_nan : Nat → Bool
  feq : Nat → Nat → Bool
  flt : Nat → Nat → Bool
  of_u32 : Nat → Nat
  of_i32 : Nat → Nat
  round_u32 : Nat → Nat
  trunc_u32 : Nat → Nat
  round_i32 : Nat → Nat
  trunc_i32 : Nat → Nat
  debug_quit : Bool

/-- Comparison `dp_fcmps`: sets `fpscr.b.flags` (bits 31..28). -/
def dp_fcmps (host : host_t) (vfp : vfp_t) (a b : Nat) : vfp_t :=
  let flags :=
    if host.is_nan a ∨ host.is_nan b then 0x3
    else if host.feq a b then 0x6
    else if host.flt a b then 0x8
    else 0x2
  { vfp with fpscr := u32 (bitfield_set vfp.fpscr.val 28 4 flags) }

/-- Data processing `vfp_data_proc` (`op_coproc_data_proc_t`: CRm 3..0, CP 7..5,
CRd 15..12, CRn 19..16, CP_opcode 23..20). -/
def vfp_data_proc (host : host_t) (vfp : vfp_t) (instr : Nat) : Option vfp_t :=
  let CP_opcode := (instr >>> 20) % 16
  let CP := (instr >>> 5) % 8
  let CRd := (instr >>> 12) % 16
  let CRn := (instr >>> 16) % 16
  let CRm := instr % 16
  let opcode := ((((CP_opcode >>> 3) &&& 0x1) <<< 3) ||| ((CP_opcode &&& 0x3) <<< 1)) |||
    ((CP >>> 1) &&& 0x1)
  let Fd := (CRd <<< 1) ||| ((CP_opcode >>> 2) &&& 0x1)
  let Fn := (CRn <<< 1) ||| ((CP >>> 2) &&& 0x1)
  let Fm := (CRm <<< 1) ||| (CP &&& 0x1)
  let fn := if opcode ≠ 0xf then (vfp.s Fn).val else 0
  let fm := (vfp.s Fm).val
  let o := (vfp.s Fd).val
  let done (vfp : vfp_t) (o : Nat) : Option vfp_t := some { vfp with s := upd vfp.s Fd (u32 o) }
  match opcode with
  | 0x0 => done vfp (host.fadd o (host.fmul fn fm))
  | 0x1 => done vfp (host.fsub o (host.fmul fn fm))
  | 0x2 => done vfp (host.fadd (host.fneg o) (host.fmul fn fm))
  | 0x3 => done vfp (host.fsub (host.fneg o) (host.fmul fn fm))
  | 0x4 => done vfp (host.fmul fn fm)
  | 0x5 => done vfp (host.fneg (host.fmul fn fm))
  | 0x6 => done vfp (host.fadd fn fm)
  | 0x7 => done vfp (host.fsub fn fm)
  | 0x8 => done vfp (host.fdiv fn fm)
  | 0xf =>
    match Fn with
    | 0x0 => done vfp fm
    | 0x1 => done vfp (host.fabs fm)
    | 0x2 => done vfp (host.fneg fm)
    | 0x3 => done vfp (host.fsqrt fm)
    | 0x8 => done (dp_fcmps host vfp o fm) o
    | 0x9 => done (dp_fcmps host vfp o fm) o
    | 0xa => done (dp_fcmps host vfp o 0) o
    | 0xb => done (dp_fcmps host vfp o 0) o
    | 0x10 => done vfp (host.of_u32 fm)
    | 0x11 => done vfp (host.of_i32 fm)
    | 0x18 => done vfp (host.round_u32 fm)
    | 0x19 => done vfp (host.trunc_u32 fm)
    | 0x1a => done vfp (host.round_i32 fm)
    | 0x1b => done vfp (host.trunc_i32 fm)
    | _ => done vfp o
  | _ => none

/-- Single register transfer `dt_single_data_transfer`. -/
def dt_single_data_transfer (emu : emulator_t) (Fd : Nat) (Rn : armReg_t) (offset l : Nat) :
    Option emulator_t := do
  let r ← cpu_read_register emu.cpu Rn
  let base := (r + ((offset % 4294967296) <<< 2)) % 4294967296
  if l ≠ 0 then
    some { emu with vfp := { emu.vfp with
      s := upd emu.vfp.s Fd (u32 (memory_read_dword_le emu base)) } }
  else memory_write_dword_le emu base (emu.vfp.s Fd).val

/-- Multiple register transfer `dt_multiple_data_transfer`
(mode 0 unindexed, 1 increment, 2 decrement). -/
def dt_multiple_data_transfer (emu : emulator_t) (Fd : Nat) (Rn : armReg_t)
    (offset l mode : Nat) : Option emulator_t := do
  let r ← cpu_read_register emu.cpu Rn
  let base := r &&& 0xfffffffc
  let base := if mode = 2 then (base + 4294967296 - (offset <<< 2) % 4294967296) % 4294967296
    else base
  let emu := if mode = 2 then { emu with cpu := cpu_write_register emu.cpu Rn base } else emu
  let emu ←
    (List.range offset).foldlM
      (fun (emu : emulator_t) i =>
        if l ≠ 0 then
          some { emu with vfp := { emu.vfp with s := (upd emu.vfp.s (Fd + i)
            (u32 (memory_read_dword_le emu ((base + (i <<< 2)) % 4294967296)))) } }
        else
          memory_write_dword_le emu ((base + (i <<< 2)) % 4294967296) (emu.vfp.s (Fd + i)).val)
      emu
  some (if mode = 1 then
    { emu with cpu := cpu_write_register emu.cpu Rn ((base + (offset <<< 2)) % 4294967296) }
    else emu)

/-- Data transfer `vfp_data_transfer` (`op_coproc_data_transfer_t`: offset 7..0,
CRd 15..12, CRn 19..16, l 20, w 21, n 22, u 23, p 24). -/
def vfp_data_transfer (emu : emulator_t) (instr : Nat) : Option emulator_t :=
  let offset := instr % 256
  let l := op_bit instr 20
  let opcode := ((op_bit instr 24 <<< 2) ||| (op_bit instr 23 <<< 1)) ||| op_bit instr 21
  let Fd := (((instr >>> 12) % 16) <<< 1) ||| op_bit instr 22
  let Rn := op_Rn instr
  match opcode with
  | 0x2 => dt_multiple_data_transfer emu Fd Rn offset l 0
  | 0x3 => dt_multiple_data_transfer emu Fd Rn offset l 1
  | 0x4 => dt_single_data_transfer emu Fd Rn ((4294967296 - offset) % 4294967296) l
  | 0x5 => dt_multiple_data_transfer emu Fd Rn offset l 2
  | 0x6 => dt_single_data_transfer emu Fd Rn offset l
  | _ => none

/-- Scalar move `rt_reg_transfer`. -/
def rt_reg_transfer (emu : emulator_t) (Fn : Nat) (Rd : armReg_t) (l : Nat) :
    Option emulator_t :=
  if l ≠ 0 then some { emu with cpu := cpu_write_register emu.cpu Rd (emu.vfp.s Fn).val }
  else (cpu_read_register emu.cpu Rd).map fun v =>
    { emu with vfp := { emu.vfp with s := upd emu.vfp.s Fn (u32 v) } }

/-- System register move `rt_status_reg_transfer`, with FMSTAT. -/
def rt_status_reg_transfer (emu : emulator_t) (Fn : Nat) (Rd : armReg_t) (l : Nat) :
    Option emulator_t :=
  if l ≠ 0 then do
    let value ←
      match Fn with
      | 0x0 => some emu.vfp.fpsid.val
      | 0x2 => some emu.vfp.fpscr.val
      | 0x10 => some emu.vfp.fpexc.val
      | _ => none
    if Rd.val = 15 then
      if Fn = 0x2 then
        some { emu with cpu := { emu.cpu with
          cpsr := u32 ((emu.cpu.cpsr.val &&& 0x0fffffff) ||| (value &&& 0xf0000000)) } }
      else none
    else some { emu with cpu := cpu_write_register emu.cpu Rd value }
  else do
    let value ← cpu_read_register emu.cpu Rd
    match Fn with
    | 0x0 => some { emu with vfp := { emu.vfp with fpsid := u32 value } }
    | 0x2 => some { emu with vfp := { emu.vfp with fpscr := u32 value } }
    | 0x10 => some { emu with vfp := { emu.vfp with fpexc := u32 value } }
    | _ => none

/-- Register transfer `vfp_reg_transfer` (`op_coproc_reg_transfer_t`: CP 7..5,
Rd 15..12, CRn 19..16, l 20, CP_opcode 23..21). -/
def vfp_reg_transfer (emu : emulator_t) (instr : Nat) : Option emulator_t :=
  let opcode := (instr >>> 21) % 8
  let Rd := op_Rd instr
  let Fn := (((instr >>> 16) % 16) <<< 1) ||| ((((instr >>> 5) % 8) >>> 2) &&& 0x1)
  match opcode with
  | 0x0 => rt_reg_transfer emu Fn Rd (op_bit instr 20)
  | 0x7 => rt_status_reg_transfer emu Fn Rd (op_bit instr 20)
  | _ => none

/-! ## CPU: coprocessor dispatch and the fetch/decode/execute step (`cpu.c`) -/

/-- Dispatch `instr_coproc_data_proc` on `CP_number` (bits 11..8). -/
def instr_coproc_data_proc (host : host_t) (emu : emulator_t) (instr : Nat) :
    Option emulator_t :=
  match (instr >>> 8) % 16 with
  | 10 => (vfp_data_proc host emu.vfp instr).map fun v => { emu with vfp := v }
  | 11 => none
  | 15 => some emu
  | _ => none

/-- Dispatch `instr_coproc_data_transfer` on `CP_number` (bits 11..8). -/
def instr_coproc_data_transfer (emu : emulator_t) (instr : Nat) : Option emulator_t :=
  match (instr >>> 8) % 16 with
  | 10 => vfp_data_transfer emu instr
  | 11 => none
  | 15 => some emu
  | _ => none

/-- Dispatch `instr_coproc_reg_transfer` on `CP_number` (bits 11..8). -/
def instr_coproc_reg_transfer (emu : emulator_t) (instr : Nat) : Option emulator_t :=
  match (instr >>> 8) % 16 with
  | 10 => vfp_reg_transfer emu instr
  | 11 => none
  | 15 => some emu
  | _ => none

/-- The interactive `debug_break`: its commands only print, except `q`, which sets
the terminated flag. -/
def debug_break (host : host_t) (emu : emulator_t) : emulator_t :=
  if host.debug_quit then { emu with terminated := true } else emu

/-- Lifts a CPU-only handler to the emulator state. -/
def on_cpu (emu : emulator_t) (r : Option cpu_t) : Option emulator_t :=
  r.map fun c => { emu with cpu := c }

/-- The decode `switch` of `cpu_tick` on a condition-passing instruction word. -/
def cpu_execute (host : host_t) (emu : emulator_t) (instr : Nat) : Option emulator_t :=
  let primary := (instr >>> 24) &&& 0xF
  if primary ≤ 0x3 then
    if instr &&& 0x0FFFFFF0 = 0x012FFF10 then on_cpu emu (instr_branch_exchange emu.cpu instr)
    else if instr &&& 0x0FC000F0 = 0x00000090 then on_cpu emu (instr_multiply emu.cpu instr)
    else if instr &&& 0x0FC000F0 = 0x00800090 then
      on_cpu emu (instr_multiply_long emu.cpu instr)
    else if instr &&& 0x0F400FF0 = 0x01000090 then instr_single_data_swap emu instr
    else if instr &&& 0x003F0FFF = 0x000F0000 then on_cpu emu (instr_mrs emu.cpu instr)
    else if instr &&& 0x0FBFFFF0 = 0x0129F000 then on_cpu emu (instr_msr_psr emu.cpu instr)
    else if instr &&& 0x0DBFF000 = 0x0128F000 then on_cpu emu (instr_msr_psrf emu.cpu instr)
    else if instr &&& 0x0E400F90 = 0x00000090 then instr_hw_sd_transfer emu instr
    else if instr &&& 0x0E400090 = 0x00400090 then instr_hw_sd_transfer emu instr
    else on_cpu emu (instr_single_data_processing emu.cpu instr)
  else if primary ≤ 0x7 then
    if instr &&& 0x0E000010 = 0x06000010 then on_cpu emu (instr_undefined emu.cpu)
    else instr_single_data_trans emu instr
  else if primary ≤ 0x9 then instr_block_data_transfer emu instr
  else if primary ≤ 0xB then on_cpu emu (instr_branch emu.cpu instr)
  else if primary ≤ 0xD then instr_coproc_data_transfer emu instr
  else if primary = 0xE then
    if instr &&& 0x10 = 0 then instr_coproc_data_proc host emu instr
    else instr_coproc_reg_transfer emu instr
  else on_cpu emu (instr_swi emu.cpu)

/-- One instruction `cpu_tick`: fetch at PC, advance PC by 4, stop on the word 0,
skip the PLD word and every word whose condition fails, otherwise execute. -/
def cpu_tick (host : host_t) (emu : emulator_t) : Option emulator_t :=
  let pc := (emu.cpu.r_usr 15).val
  let instr := memory_read_dword_le emu pc
  let emu := { emu with cpu := { emu.cpu with r_usr := upd emu.cpu.r_usr 15 (u32 (pc + 4)) } }
  if instr = 0x0 then some { emu with terminated := true }
  else if instr = 0xf5d1f100 then some emu
  else if !check_cond emu.cpu (instr >>> 28) then some emu
  else
    let emu := if instr &&& 0x0fff00ff = 0x03200003 then debug_break host emu else emu
    cpu_execute host emu instr

/-! ## Start-up (`main.c`, `emulator_init` and the module `*_init` functions) -/

/-- The state after `main` has zeroed the emulator, parsed its arguments and run
`emulator_init`: all registers and memory zero, mode SVC, PC at `start_addr`.  The
start-up allocations have been granted, and the host of this state grants every later
`malloc`; a host that refuses is the same state with another `host_malloc`. -/
def emulator_init (mem_size start_addr : Nat) (graphics quiet nes_enabled : Bool)
    (host_time_us : Nat) : emulator_t :=
  { terminated := false
    mem_size := mem_size
    start_addr := u32 start_addr
    graphics := graphics
    quiet := quiet
    nes_enabled := nes_enabled
    fb :=
      { framebuffer := none, fb_bpp := u64 0, fb_pitch := u64 0, fb_size := u64 0
        fb_address := u32 0, fb_palette := fun _ => u16 0, error := false
        width := u32 (if graphics then 640 else 0)
        height := u32 (if graphics then 480 else 0)
        depth := u32 (if graphics then 32 else 0) }
    data := fun _ => u8 0
    cpu :=
      { r_usr := upd (fun _ => u32 0) 15 (u32 start_addr)
        r_fiq := fun _ => u32 0, r_svc := fun _ => u32 0, r_und := fun _ => u32 0
        r_abt := fun _ => u32 0, r_irq := fun _ => u32 0
        spsr_svc := u32 0, spsr_abt := u32 0, spsr_und := u32 0, spsr_irq := u32 0
        spsr_fiq := u32 0
        cpsr := u32 0x13 }
    gpio := { ports := fun _ => { func := u8 0, state := u8 0 } }
    mbox := { last_channel := u8 0 }
    pr :=
      { spi1_enable := 0, spi2_enable := 0, irq_tx := 0, irq_rx := 0, uart_enable := 0
        uart_bits := 7, uart_baud_rate_counter := 0, uart_baud_rate := 0, uart_dlab := 0 }
    vfp := { s := fun _ => u32 0, fpsid := u32 0, fpscr := u32 0, fpexc := u32 0 }
    nes := { last_latch := u32 0, last_clock := u32 0, counter := u32 0, state := fun _ => u32 0 }
    system_timer_base := u64 (host_time_us / 1000 * 1000)
    last_refresh := u64 0
    host_time_us := u64 host_time_us
    host_malloc := fun _ => true }

/-- Image load `emulator_load` (`emulator.c`): the bytes of the kernel file are copied
to `data + start_addr`; fatal when `start_addr + file_size > mem_size`. -/
def emulator_load (emu : emulator_t) (file : List Nat) : Option emulator_t :=
  if emu.start_addr.val + file.length > emu.mem_size then none
  else some { emu with data := (fun a =>
    if emu.start_addr.val ≤ a ∧ a < emu.start_addr.val + file.length then
      u8 (file.getD (a - emu.start_addr.val) 0)
    else emu.data a) }

/-- A concrete host for examples: a float unit that answers 0 to everything and a
debug session that does not quit. -/
def host_zero : host_t :=
  { fadd := fun _ _ => 0, fsub := fun _ _ => 0, fmul := fun _ _ => 0, fdiv := fun _ _ => 0
    fneg := fun _ => 0, fabs := fun _ => 0, fsqrt := fun _ => 0
    is_nan := fun _ => false, feq := fun _ _ => false, flt := fun _ _ => false
    of_u32 := fun _ => 0, of_i32 := fun _ => 0, round_u32 := fun _ => 0
    trunc_u32 := fun _ => 0, round_i32 := fun _ => 0, trunc_i32 := fun _ => 0
    debug_quit := false }

/-! ## Specification-side definitions -/

/-- The multi-byte read as the specification words it: `base = addr & ~(width-1)`,
`off = addr & (width-1)`, `value = Σ data[base + ((off+i) mod width)] << (8·i)`. -/
def spec_rotated_read (data : Nat → uint8_t) (width addr : Nat) : Nat :=
  let base := addr &&& not32 (width - 1)
  let off := addr &&& (width - 1)
  Finset.sum (Finset.range width) fun i => (data (base + ((off + i) % width))).val <<< (8 * i)

/-- The seven processor modes of `armMode_t`. -/
abbrev valid_mode (m : Nat) : Prop :=
  m = MODE_USR ∨ m = MODE_FIQ ∨ m = MODE_IRQ ∨ m = MODE_SVC ∨ m = MODE_ABT ∨ m = MODE_UND ∨
    m = MODE_SYS

/-- The storage slot of SP (`reg = 13`) or LR (`reg = 14`) as seen from mode `m`:
USR and SYS share the user bank, every other mode has its own. -/
def banked_slot (cpu : cpu_t) (m : Nat) (reg : Nat) : uint32_t :=
  if m = MODE_FIQ then cpu.r_fiq (reg - 8)
  else if m = MODE_IRQ then cpu.r_irq (reg - 13)
  else if m = MODE_SVC then cpu.r_svc (reg - 13)
  else if m = MODE_ABT then cpu.r_abt (reg - 13)
  else if m = MODE_UND then cpu.r_und (reg - 13)
  else cpu.r_usr reg

/-- The bytes of a file that holds the 32-bit words `ws` in little-endian order. -/
def words_le : List Nat → List Nat
  | [] => []
  | w :: ws => w % 256 :: w / 256 % 256 :: w / 65536 % 256 :: w / 16777216 % 256 :: words_le ws

/-- Sign extension of a 24-bit field to an integer. -/
def sext24 (o : Nat) : Int :=
  if o % 16777216 < 8388608 then ((o % 16777216 : Nat) : Int)
  else ((o % 16777216 : Nat) : Int) - 16777216

/-- The moved base of a single data transfer with a 12-bit immediate offset, as the
specification words it: `r + off` when U is set (bit 23), `r - off` otherwise, modulo
2^32. -/
def spec_moved_base (instr r : Nat) : Nat :=
  if op_bit instr 23 ≠ 0 then (r + instr % 4096) % 4294967296
  else (r + 4294967296 - instr % 4096) % 4294967296

/-- The transfer address of a single data transfer with an immediate offset: the moved
base when pre-indexed (P set, bit 24), the base `r` when post-indexed. -/
def spec_transfer_address (instr r : Nat) : Nat :=
  if op_bit instr 24 ≠ 0 then spec_moved_base instr r else r

/-- The guest drives `k` rising edges on the NES CLOCK port, each preceded by the
clock being driven low. -/
def nes_clock_edges : Nat → emulator_t → emulator_t
  | 0, emu => emu
  | k + 1, emu =>
    nes_gpio_write (nes_gpio_write (nes_clock_edges k emu) NES_GPIO_PORT_CLOCK 0)
      NES_GPIO_PORT_CLOCK 1

/-- The ascending list of the registers named by a 16-bit register list. -/
def reg_list (rl : Nat) : List Nat :=
  (List.range 16).filter fun i => rl &&& (1 <<< i) ≠ 0

/-- The effect of `nes_on_key_down` for the key bound to `button`
(`nes->state[button] = 1`). -/
def nes_button_down (emu : emulator_t) (button : Nat) : emulator_t :=
  { emu with nes := { emu.nes with state := upd emu.nes.state button (u32 1) } }

/-- The register with number `n` modulo 16, as the loop of `instr_block_data_transfer`
passes it to `cpu_read_register` and `cpu_write_register`. -/
def armReg_of (n : Nat) : armReg_t := ⟨n % 16, Nat.mod_lt _ (by decide)⟩

/-- The start-up state with R0 = 0x1000 and R1, R2, R3 = 1, 2, 3. -/
def stm_ldm_start : emulator_t :=
  { emulator_init 0x10000 0x20 false false false 0 with
    cpu := cpu_write_register (cpu_write_register (cpu_write_register (cpu_write_register
      (emulator_init 0x10000 0x20 false false false 0).cpu 0 0x1000) 1 1) 2 2) 3 3 }

/-! # Theorems -/

/-! ## Bit masks, shifts and array stores -/

theorem and_FF (x : Nat) : x &&& 0xFF = x % 256 := Nat.and_pow_two_sub_one_eq_mod x 8
theorem and_3 (x : Nat) : x &&& 0x03 = x % 4 := Nat.and_pow_two_sub_one_eq_mod x 2
theorem and_1 (x : Nat) : x &&& 0x01 = x % 2 := Nat.and_pow_two_sub_one_eq_mod x 1
theorem and_3FFFFFFF (x : Nat) : x &&& 0x3FFFFFFF = x % 1073741824 :=
  Nat.and_pow_two_sub_one_eq_mod x 30

theorem and_shifted_mask (x k n : Nat) :
    x &&& ((2 ^ n - 1) <<< k) = ((x >>> k) % 2 ^ n) <<< k := by
  apply Nat.eq_of_testBit_eq
  intro j
  simp only [Nat.testBit_and, Nat.testBit_shiftLeft, Nat.testBit_two_pow_sub_one,
    Nat.testBit_mod_two_pow, Nat.testBit_shiftRight]
  by_cases h : k ≤ j
  · have : k + (j - k) = j := by omega
    simp [h, this, Bool.and_comm]
  · simp [h]

theorem and_FFFFFFFC (x : Nat) : x &&& 0xFFFFFFFC = x % 4294967296 - x % 4 := by
  have h := and_shifted_mask x 2 30
  have e : (2 ^ 30 - 1) <<< 2 = 0xFFFFFFFC := by decide
  rw [e] at h
  rw [h, Nat.shiftLeft_eq, Nat.shiftRight_eq_div_pow]
  omega

theorem and_FFFFFFFE (x : Nat) : x &&& 0xFFFFFFFE = x % 4294967296 - x % 2 := by
  have h := and_shifted_mask x 1 31
  have e : (2 ^ 31 - 1) <<< 1 = 0xFFFFFFFE := by decide
  rw [e] at h
  rw [h, Nat.shiftLeft_eq, Nat.shiftRight_eq_div_pow]
  omega

theorem or_bytes2 (a b : Nat) (ha : a < 256) :
    (a <<< 0) ||| (b <<< 8) = a + b * 256 := by
  rw [Nat.shiftLeft_eq, Nat.shiftLeft_eq, Nat.or_comm]
  have := Nat.mul_add_lt_is_or (i := 8) (b := a) (by simpa using ha) b
  simp only [Nat.pow_zero, Nat.mul_one]
  rw [Nat.mul_comm b, ← this]; omega

theorem or_bytes4 (a b c d : Nat) (ha : a < 256) (hb : b < 256) (hc : c < 256) :
    (a <<< 0) ||| (b <<< 8) ||| (c <<< 16) ||| (d <<< 24)
      = a + b * 256 + c * 65536 + d * 16777216 := by
  rw [or_bytes2 a b ha]
  have h1 : (a + b * 256) ||| (c <<< 16) = a + b * 256 + c * 65536 := by
    rw [Nat.shiftLeft_eq, Nat.or_comm]
    have := Nat.mul_add_lt_is_or (i := 16) (b := a + b * 256) (by norm_num; omega) c
    rw [Nat.mul_comm c, ← this]; omega
  rw [h1]
  rw [Nat.shiftLeft_eq, Nat.or_comm]
  have := Nat.mul_add_lt_is_or (i := 24) (b := a + b * 256 + c * 65536) (by norm_num; omega) d
  rw [Nat.mul_comm d, ← this]; omega

@[simp] theorem u8_val (n : Nat) : (u8 n).val = n % 256 := rfl
@[simp] theorem u16_val (n : Nat) : (u16 n).val = n % 65536 := rfl
@[simp] theorem u32_val (n : Nat) : (u32 n).val = n % 4294967296 := rfl
@[simp] theorem u64_val (n : Nat) : (u64 n).val = n % 18446744073709551616 := rfl

theorem upd_same {α : Type} (a : Nat → α) (i : Nat) (v : α) : upd a i v i = v := by
  simp [upd]

theorem upd_other {α : Type} (a : Nat → α) (i j : Nat) (v : α) (h : j ≠ i) :
    upd a i v j = a j := by
  simp [upd, h]

/-- Value read by `memory_read_dword_le` inside SDRAM, in arithmetic form. -/
theorem memory_read_dword_le_sdram (emu : emulator_t) (addr : Nat)
    (h : addr % 1073741824 + 3 < emu.mem_size) :
    memory_read_dword_le emu addr =
      (emu.data (addr % 1073741824 - addr % 4 + (addr % 4 + 0) % 4)).val
      + (emu.data (addr % 1073741824 - addr % 4 + (addr % 4 + 1) % 4)).val * 256
      + (emu.data (addr % 1073741824 - addr % 4 + (addr % 4 + 2) % 4)).val * 65536
      + (emu.data (addr % 1073741824 - addr % 4 + (addr % 4 + 3) % 4)).val * 16777216 := by
  unfold memory_read_dword_le
  simp only [and_3FFFFFFF, and_FFFFFFFC, and_3]
  rw [if_pos h]
  have e1 : addr % 1073741824 % 4294967296 - addr % 1073741824 % 4
      = addr % 1073741824 - addr % 4 := by omega
  have e2 : addr % 1073741824 % 4 = addr % 4 := by omega
  rw [e1, e2]
  exact or_bytes4 _ _ _ _ (Fin.isLt _) (Fin.isLt _) (Fin.isLt _)

/-- Value read by `memory_read_word_le` inside SDRAM, in arithmetic form. -/
theorem memory_read_word_le_sdram (emu : emulator_t) (addr : Nat)
    (h : addr % 1073741824 + 1 < emu.mem_size) :
    memory_read_word_le emu addr =
      (emu.data (addr % 1073741824 - addr % 2 + (addr % 2 + 0) % 2)).val
      + (emu.data (addr % 1073741824 - addr % 2 + (addr % 2 + 1) % 2)).val * 256 := by
  unfold memory_read_word_le
  simp only [and_3FFFFFFF, and_FFFFFFFE, and_1]
  rw [if_pos h]
  have e1 : addr % 1073741824 % 4294967296 - addr % 1073741824 % 2
      = addr % 1073741824 - addr % 2 := by omega
  have e2 : addr % 1073741824 % 2 = addr % 2 := by omega
  rw [e1, e2]
  exact or_bytes2 _ _ (Fin.isLt _)

/-- Effect of `memory_write_dword_le` inside SDRAM. -/
theorem memory_write_dword_le_sdram (emu : emulator_t) (addr data : Nat)
    (h : addr % 1073741824 + 3 < emu.mem_size) :
    memory_write_dword_le emu addr data = some { emu with data :=
      (upd (upd (upd (upd emu.data (addr % 1073741824 + 0) (u8 (data % 4294967296 % 256)))
        (addr % 1073741824 + 1) (u8 (data % 4294967296 / 256 % 256)))
        (addr % 1073741824 + 2) (u8 (data % 4294967296 / 65536 % 256)))
        (addr % 1073741824 + 3) (u8 (data % 4294967296 / 16777216 % 256))) } := by
  unfold memory_write_dword_le memory_write_dword_le_with
  simp only [and_3FFFFFFF, and_FF, Nat.shiftRight_eq_div_pow]
  rw [if_pos h]
  norm_num

/-- Effect of `memory_write_word_le` inside SDRAM. -/
theorem memory_write_word_le_sdram (emu : emulator_t) (addr data : Nat)
    (h : addr % 1073741824 + 1 < emu.mem_size) :
    memory_write_word_le emu addr data = some { emu with data :=
      (upd (upd emu.data (addr % 1073741824 + 0) (u8 (data % 65536 % 256)))
        (addr % 1073741824 + 1) (u8 (data % 65536 / 256 % 256))) } := by
  unfold memory_write_word_le
  simp only [and_3FFFFFFF, and_FF, Nat.shiftRight_eq_div_pow]
  rw [if_pos h]
  norm_num

/-! ## Memory: round trips and the rotated read (C1, C2, C3) -/

/-- C1 (as amended): a read at a naturally aligned address after a write there
returns the written value truncated to the access width. -/
theorem memory_read_after_write_aligned (emu : emulator_t) (a v : Nat) :
    (a + 1 ≤ emu.mem_size → memory_read_byte (memory_write_byte emu a v) a = v % 256) ∧
    (a % 2 = 0 → a + 2 ≤ emu.mem_size →
      ∃ e, memory_write_word_le emu a v = some e ∧ memory_read_word_le e a = v % 65536) ∧
    (a % 4 = 0 → a + 4 ≤ emu.mem_size →
      ∃ e, memory_write_dword_le emu a v = some e ∧
        memory_read_dword_le e a = v % 4294967296) := by
  refine ⟨?_, ?_, ?_⟩
  · intro h
    have hm : a % 1073741824 < emu.mem_size := by omega
    unfold memory_read_byte memory_write_byte
    simp only [and_3FFFFFFF, if_pos hm, upd_same, u8_val]
  · intro h2 h
    have hm : a % 1073741824 + 1 < emu.mem_size := by omega
    refine ⟨_, memory_write_word_le_sdram emu a v hm, ?_⟩
    rw [memory_read_word_le_sdram _ a (by exact hm)]
    have e0 : a % 1073741824 - a % 2 + (a % 2 + 0) % 2 = a % 1073741824 + 0 := by omega
    have e1 : a % 1073741824 - a % 2 + (a % 2 + 1) % 2 = a % 1073741824 + 1 := by omega
    simp only [e0, e1]
    rw [upd_other _ _ _ _ (by omega), upd_same, upd_same]
    simp only [u8_val]
    omega
  · intro h4 h
    have hm : a % 1073741824 + 3 < emu.mem_size := by omega
    refine ⟨_, memory_write_dword_le_sdram emu a v hm, ?_⟩
    rw [memory_read_dword_le_sdram _ a (by exact hm)]
    have e0 : a % 1073741824 - a % 4 + (a % 4 + 0) % 4 = a % 1073741824 + 0 := by omega
    have e1 : a % 1073741824 - a % 4 + (a % 4 + 1) % 4 = a % 1073741824 + 1 := by omega
    have e2 : a % 1073741824 - a % 4 + (a % 4 + 2) % 4 = a % 1073741824 + 2 := by omega
    have e3 : a % 1073741824 - a % 4 + (a % 4 + 3) % 4 = a % 1073741824 + 3 := by omega
    simp only [e0, e1, e2, e3]
    rw [upd_other _ _ _ _ (by omega), upd_other _ _ _ _ (by omega),
      upd_other _ _ _ _ (by omega), upd_same, upd_other _ _ _ _ (by omega),
      upd_other _ _ _ _ (by omega), upd_same, upd_other _ _ _ _ (by omega), upd_same, upd_same]
    simp only [u8_val]
    omega

/-- C1, witness: the three widths at address 0x20 of a 64 KiB memory. -/
theorem memory_read_after_write_aligned_witness :
    memory_read_byte (memory_write_byte (emulator_init 0x10000 0 false false false 0)
        0x20 0x1FF) 0x20 = 0x1FF % 256 ∧
    (∃ e, memory_write_word_le (emulator_init 0x10000 0 false false false 0) 0x20 0x1FF
        = some e ∧ memory_read_word_le e 0x20 = 0x1FF % 65536) ∧
    (∃ e, memory_write_dword_le (emulator_init 0x10000 0 false false false 0) 0x20 0x1FF
        = some e ∧ memory_read_dword_le e 0x20 = 0x1FF % 4294967296) :=
  have h := memory_read_after_write_aligned (emulator_init 0x10000 0 false false false 0)
    0x20 0x1FF
  ⟨h.1 (by decide), h.2.1 (by decide) (by decide), h.2.2 (by decide) (by decide)⟩

/-- C1, counterexample: a halfword written at the odd address 1 (inside SDRAM) does
not read back; the read returns 0x0034 for the written 0x1234. -/
theorem memory_read_after_write_unaligned_fails :
    1 + 2 ≤ (emulator_init 0x10000 0 false false false 0).mem_size ∧
    (memory_write_word_le (emulator_init 0x10000 0 false false false 0) 1 0x1234).map
      (fun e => memory_read_word_le e 1) = some 0x0034 ∧
    (0x0034 : Nat) ≠ 0x1234 % 65536 := by
  decide

/-- C2: inside SDRAM the 32-bit and 16-bit reads return the rotated sum of the
specification over the masked address, and for an aligned address that sum is the
plain little-endian value of the bytes at the address. -/
theorem memory_read_le_is_rotated_read (emu : emulator_t) (addr : Nat) :
    ((addr &&& 0x3FFFFFFF) + 3 < emu.mem_size →
      memory_read_dword_le emu addr = spec_rotated_read emu.data 4 (addr &&& 0x3FFFFFFF) ∧
      ((addr &&& 0x3FFFFFFF) % 4 = 0 →
        memory_read_dword_le emu addr =
          (emu.data (addr &&& 0x3FFFFFFF)).val
          + (emu.data ((addr &&& 0x3FFFFFFF) + 1)).val * 2 ^ 8
          + (emu.data ((addr &&& 0x3FFFFFFF) + 2)).val * 2 ^ 16
          + (emu.data ((addr &&& 0x3FFFFFFF) + 3)).val * 2 ^ 24)) ∧
    ((addr &&& 0x3FFFFFFF) + 1 < emu.mem_size →
      memory_read_word_le emu addr = spec_rotated_read emu.data 2 (addr &&& 0x3FFFFFFF) ∧
      ((addr &&& 0x3FFFFFFF) % 2 = 0 →
        memory_read_word_le emu addr =
          (emu.data (addr &&& 0x3FFFFFFF)).val
          + (emu.data ((addr &&& 0x3FFFFFFF) + 1)).val * 2 ^ 8)) := by
  simp only [and_3FFFFFFF]
  refine ⟨fun h => ⟨?_, fun hal => ?_⟩, fun h => ⟨?_, fun hal => ?_⟩⟩
  · rw [memory_read_dword_le_sdram emu addr h]
    unfold spec_rotated_read
    have hn : not32 (4 - 1) = 0xFFFFFFFC := by decide
    have e1 : addr % 1073741824 % 4294967296 - addr % 1073741824 % 4
        = addr % 1073741824 - addr % 4 := by omega
    have e2 : addr % 1073741824 % 4 = addr % 4 := by omega
    simp only [hn, and_FFFFFFFC, show (4 - 1 : Nat) = 0x03 from rfl, and_3, e1, e2,
      Finset.sum_range_succ, Finset.sum_range_zero, Nat.shiftLeft_eq]
    have e3 : addr % 1073741824 % 4294967296 = addr % 1073741824 := by omega
    norm_num [e3]
  · rw [memory_read_dword_le_sdram emu addr h]
    have e0 : addr % 1073741824 - addr % 4 + (addr % 4 + 0) % 4 = addr % 1073741824 := by omega
    have e1 : addr % 1073741824 - addr % 4 + (addr % 4 + 1) % 4 = addr % 1073741824 + 1 := by
      omega
    have e2 : addr % 1073741824 - addr % 4 + (addr % 4 + 2) % 4 = addr % 1073741824 + 2 := by
      omega
    have e3 : addr % 1073741824 - addr % 4 + (addr % 4 + 3) % 4 = addr % 1073741824 + 3 := by
      omega
    simp only [e0, e1, e2, e3]
    norm_num
  · rw [memory_read_word_le_sdram emu addr h]
    unfold spec_rotated_read
    have hn : not32 (2 - 1) = 0xFFFFFFFE := by decide
    have e1 : addr % 1073741824 % 4294967296 - addr % 1073741824 % 2
        = addr % 1073741824 - addr % 2 := by omega
    have e2 : addr % 1073741824 % 2 = addr % 2 := by omega
    simp only [hn, and_FFFFFFFE, show (2 - 1 : Nat) = 0x01 from rfl, and_1, e1, e2,
      Finset.sum_range_succ, Finset.sum_range_zero, Nat.shiftLeft_eq]
    have e3 : addr % 1073741824 % 4294967296 = addr % 1073741824 := by omega
    norm_num [e3]
  · rw [memory_read_word_le_sdram emu addr h]
    have e0 : addr % 1073741824 - addr % 2 + (addr % 2 + 0) % 2 = addr % 1073741824 := by omega
    have e1 : addr % 1073741824 - addr % 2 + (addr % 2 + 1) % 2 = addr % 1073741824 + 1 := by
      omega
    simp only [e0, e1]
    norm_num

/-- C2, witness: address 0x101 of a 64 KiB memory lies inside SDRAM for both widths. -/
theorem memory_read_le_is_rotated_read_witness :
    (memory_read_dword_le (emulator_init 0x10000 0 false false false 0) 0x101
        = spec_rotated_read (emulator_init 0x10000 0 false false false 0).data 4
            (0x101 &&& 0x3FFFFFFF)) ∧
    (memory_read_word_le (emulator_init 0x10000 0 false false false 0) 0x101
        = spec_rotated_read (emulator_init 0x10000 0 false false false 0).data 2
            (0x101 &&& 0x3FFFFFFF)) :=
  have h := memory_read_le_is_rotated_read (emulator_init 0x10000 0 false false false 0) 0x101
  ⟨(h.1 (by decide)).1, (h.2 (by decide)).1⟩

/-- C3 (as amended): after the word 0xDEADBEEF is stored at 0x100, the halfword read
at 0x101 returns 0xEFBE and the halfword read at 0x103 returns 0xADDE, whatever the
memory held before. -/
theorem memory_unaligned_halfword_scenario (emu : emulator_t) (h : 0x105 ≤ emu.mem_size) :
    ∃ e, memory_write_dword_le emu 0x100 0xDEADBEEF = some e ∧
      memory_read_word_le e 0x101 = 0xEFBE ∧ memory_read_word_le e 0x103 = 0xADDE := by
  have hm : 0x100 % 1073741824 + 3 < emu.mem_size := by omega
  refine ⟨_, memory_write_dword_le_sdram emu 0x100 0xDEADBEEF hm, ?_, ?_⟩
  · have h1 : 0x101 % 1073741824 + 1 < emu.mem_size := by omega
    rw [memory_read_word_le_sdram _ 0x101 (by exact h1)]
    simp [upd]
  · have h3 : 0x103 % 1073741824 + 1 < emu.mem_size := by omega
    rw [memory_read_word_le_sdram _ 0x103 (by exact h3)]
    simp [upd]

/-- C3, witness: the scenario on the zeroed 64 KiB memory. -/
theorem memory_unaligned_halfword_scenario_witness :
    ∃ e, memory_write_dword_le (emulator_init 0x10000 0 false false false 0) 0x100 0xDEADBEEF
        = some e ∧
      memory_read_word_le e 0x101 = 0xEFBE ∧ memory_read_word_le e 0x103 = 0xADDE :=
  memory_unaligned_halfword_scenario (emulator_init 0x10000 0 false false false 0) (by decide)

/-- C3, counterexample: on zeroed SDRAM the two halfword reads return 0xEFBE and
0xADDE, not 0xADBE and 0xEFDE. -/
theorem memory_unaligned_halfword_scenario_fails :
    (memory_write_dword_le (emulator_init 0x10000 0 false false false 0) 0x100 0xDEADBEEF).map
      (fun e => (memory_read_word_le e 0x101, memory_read_word_le e 0x103))
        = some (0xEFBE, 0xADDE) ∧
    (0xEFBE : Nat) ≠ 0xADBE ∧ (0xADDE : Nat) ≠ 0xEFDE := by
  decide

/-! ## CPU: banked registers and condition codes (C4, C5) -/

theorem SP_val : (SP : armReg_t).val = 13 := rfl
theorem LR_val : (LR : armReg_t).val = 14 := rfl
theorem PC_val : (PC : armReg_t).val = 15 := rfl

theorem cpsr_m_set_cpsr_m (cpu : cpu_t) (m : Nat) : cpsr_m (set_cpsr_m cpu m) = m % 32 := by
  have h := cpu.cpsr.isLt
  unfold cpsr_m set_cpsr_m bitfield_get bitfield_set
  simp only [u32_val]
  norm_num
  omega

theorem cpsr_m_cpu_write_register (cpu : cpu_t) (reg : armReg_t) (v : Nat) :
    cpsr_m (cpu_write_register cpu reg v) = cpsr_m cpu := by
  unfold cpu_write_register
  repeat' split
  all_goals rfl

theorem banked_slot_set_cpsr_m (cpu : cpu_t) (x m reg : Nat) :
    banked_slot (set_cpsr_m cpu x) m reg = banked_slot cpu m reg := rfl

/-- In a valid mode SP and LR are read from the slot of that mode. -/
theorem cpu_read_register_banked (cpu : cpu_t) (m : Nat) (reg : armReg_t)
    (hm : valid_mode m) (hcur : cpsr_m cpu = m) (hreg : reg.val = 13 ∨ reg.val = 14) :
    cpu_read_register cpu reg = some (banked_slot cpu m reg.val).val := by
  unfold cpu_read_register banked_slot
  rw [hcur]
  rcases hm with h | h | h | h | h | h | h <;> subst h <;>
    rcases hreg with h | h <;> simp [h]

/-- A write of SP or LR lands in the slot of the current mode. -/
theorem banked_slot_write_same (cpu : cpu_t) (m : Nat) (reg : armReg_t) (v : Nat)
    (hm : valid_mode m) (hcur : cpsr_m cpu = m) (hreg : reg.val = 13 ∨ reg.val = 14) :
    banked_slot (cpu_write_register cpu reg v) m reg.val = u32 v := by
  unfold cpu_write_register banked_slot
  rw [hcur]
  rcases hm with h | h | h | h | h | h | h <;> subst h <;>
    rcases hreg with h | h <;> simp [h, upd]

/-- A write of SP or LR in mode `m'` leaves the slots of a mode with another bank
untouched. -/
theorem banked_slot_write_other (cpu : cpu_t) (m m' : Nat) (reg : armReg_t) (r v : Nat)
    (hm : valid_mode m) (hm' : valid_mode m') (hcur : cpsr_m cpu = m')
    (hreg : reg.val = 13 ∨ reg.val = 14) (hr : r = 13 ∨ r = 14)
    (hne : m ≠ m') (hbank : ¬ ((m = MODE_USR ∨ m = MODE_SYS) ∧ (m' = MODE_USR ∨ m' = MODE_SYS))) :
    banked_slot (cpu_write_register cpu reg v) m r = banked_slot cpu m r := by
  unfold cpu_write_register banked_slot
  rw [hcur]
  rcases hm with h | h | h | h | h | h | h <;> subst h <;>
    rcases hm' with h | h | h | h | h | h | h <;> subst h <;>
    rcases hreg with h | h <;> rcases hr with h' | h' <;> subst h' <;>
    first
      | (exfalso; exact hne rfl)
      | (exfalso; exact hbank (by decide))
      | simp [h, upd]

/-- C4: in each of the seven modes SP reads back the value just written, and in a
mode other than USR/SYS it still does after the mode was switched to another valid
mode, SP and LR were written there, and the mode was switched back. -/
theorem sp_write_read_banked (cpu : cpu_t) (M v : Nat) (hM : valid_mode M)
    (hcur : cpsr_m cpu = M) (hv : v < 4294967296) :
    cpu_read_register (cpu_write_register cpu SP v) SP = some v ∧
    ∀ M' w1 w2 : Nat, M ≠ MODE_USR → M ≠ MODE_SYS → valid_mode M' → M' ≠ M →
      ∃ c2 c4, change_mode (cpu_write_register cpu SP v) M' = some c2 ∧
        change_mode (cpu_write_register (cpu_write_register c2 SP w1) LR w2) M = some c4 ∧
        cpsr_m c4 = M ∧ cpu_read_register c4 SP = some v := by
  have hv' : v % 4294967296 = v := Nat.mod_eq_of_lt hv
  have hMr : MODE_USR ≤ M ∧ M ≤ MODE_SYS := by
    rcases hM with h | h | h | h | h | h | h <;> subst h <;> decide
  have hMlt : M % 32 = M := by
    rcases hM with h | h | h | h | h | h | h <;> subst h <;> decide
  have hslot : banked_slot (cpu_write_register cpu SP v) M 13 = u32 v :=
    banked_slot_write_same cpu M SP v hM hcur (Or.inl rfl)
  constructor
  · rw [cpu_read_register_banked _ M SP hM (by rw [cpsr_m_cpu_write_register]; exact hcur)
      (Or.inl rfl), SP_val, hslot, u32_val, hv']
  · intro M' w1 w2 hu hs hM' hne
    have hM'r : MODE_USR ≤ M' ∧ M' ≤ MODE_SYS := by
      rcases hM' with h | h | h | h | h | h | h <;> subst h <;> decide
    have hM'lt : M' % 32 = M' := by
      rcases hM' with h | h | h | h | h | h | h <;> subst h <;> decide
    have hbank : ¬ ((M = MODE_USR ∨ M = MODE_SYS) ∧ (M' = MODE_USR ∨ M' = MODE_SYS)) :=
      fun h => h.1.elim hu hs
    have m2 : cpsr_m (set_cpsr_m (cpu_write_register cpu SP v) M') = M' := by
      rw [cpsr_m_set_cpsr_m]; exact hM'lt
    have m3 : cpsr_m (cpu_write_register (set_cpsr_m (cpu_write_register cpu SP v) M') SP w1)
        = M' := by
      rw [cpsr_m_cpu_write_register]; exact m2
    have m4 : cpsr_m (set_cpsr_m (cpu_write_register (cpu_write_register
        (set_cpsr_m (cpu_write_register cpu SP v) M') SP w1) LR w2) M) = M := by
      rw [cpsr_m_set_cpsr_m]; exact hMlt
    refine ⟨set_cpsr_m (cpu_write_register cpu SP v) M',
      set_cpsr_m (cpu_write_register (cpu_write_register
        (set_cpsr_m (cpu_write_register cpu SP v) M') SP w1) LR w2) M, ?_, ?_, m4, ?_⟩
    · simp [change_mode, hM'r]
    · simp [change_mode, hMr]
    · rw [cpu_read_register_banked _ M SP hM m4 (Or.inl rfl), SP_val, banked_slot_set_cpsr_m,
        banked_slot_write_other _ M M' LR 13 w2 hM hM' m3 (Or.inr rfl) (Or.inl rfl)
          (Ne.symm hne) hbank,
        banked_slot_write_other _ M M' SP 13 w1 hM hM' m2 (Or.inl rfl) (Or.inl rfl)
          (Ne.symm hne) hbank,
        banked_slot_set_cpsr_m, hslot, u32_val, hv']

/-- C4, witness: the start-up state is in mode SVC; SP survives a round trip
through mode IRQ. -/
theorem sp_write_read_banked_witness :
    cpu_read_register (cpu_write_register
      (emulator_init 0x10000 0 false false false 0).cpu SP 0x8000) SP = some 0x8000 ∧
    ∃ c2 c4, change_mode (cpu_write_register
        (emulator_init 0x10000 0 false false false 0).cpu SP 0x8000) MODE_IRQ = some c2 ∧
      change_mode (cpu_write_register (cpu_write_register c2 SP 1) LR 2) MODE_SVC = some c4 ∧
      cpsr_m c4 = MODE_SVC ∧ cpu_read_register c4 SP = some 0x8000 :=
  have h := sp_write_read_banked (emulator_init 0x10000 0 false false false 0).cpu
    MODE_SVC 0x8000 (by decide) (by decide) (by decide)
  ⟨h.1, h.2 MODE_IRQ 1 2 (by decide) (by decide) (by decide) (by decide)⟩

theorem flag_bit_cases (cpu : cpu_t) :
    (cpsr_n cpu = 0 ∨ cpsr_n cpu = 1) ∧ (cpsr_z cpu = 0 ∨ cpsr_z cpu = 1) ∧
    (cpsr_c cpu = 0 ∨ cpsr_c cpu = 1) ∧ (cpsr_v cpu = 0 ∨ cpsr_v cpu = 1) := by
  unfold cpsr_n cpsr_z cpsr_c cpsr_v bitfield_get
  omega

/-- C5: `check_cond` is the ARM condition table over the flags N, Z, C, V; code 0xE
always passes, code 0xF never does, and the codes 2k and 2k+1 (k = 0..6) are
complementary. -/
theorem check_cond_table (cpu : cpu_t) :
    (check_cond cpu 0x0 = true ↔ cpsr_z cpu = 1) ∧
    (check_cond cpu 0x1 = true ↔ ¬ cpsr_z cpu = 1) ∧
    (check_cond cpu 0x2 = true ↔ cpsr_c cpu = 1) ∧
    (check_cond cpu 0x3 = true ↔ ¬ cpsr_c cpu = 1) ∧
    (check_cond cpu 0x4 = true ↔ cpsr_n cpu = 1) ∧
    (check_cond cpu 0x5 = true ↔ ¬ cpsr_n cpu = 1) ∧
    (check_cond cpu 0x6 = true ↔ cpsr_v cpu = 1) ∧
    (check_cond cpu 0x7 = true ↔ ¬ cpsr_v cpu = 1) ∧
    (check_cond cpu 0x8 = true ↔ (cpsr_c cpu = 1 ∧ ¬ cpsr_z cpu = 1)) ∧
    (check_cond cpu 0x9 = true ↔ (¬ cpsr_c cpu = 1 ∨ cpsr_z cpu = 1)) ∧
    (check_cond cpu 0xa = true ↔ cpsr_n cpu = cpsr_v cpu) ∧
    (check_cond cpu 0xb = true ↔ cpsr_n cpu ≠ cpsr_v cpu) ∧
    (check_cond cpu 0xc = true ↔ (¬ cpsr_z cpu = 1 ∧ cpsr_n cpu = cpsr_v cpu)) ∧
    (check_cond cpu 0xd = true ↔ (cpsr_z cpu = 1 ∨ cpsr_n cpu ≠ cpsr_v cpu)) ∧
    check_cond cpu 0xe = true ∧
    check_cond cpu 0xf = false ∧
    (∀ k, k < 7 → check_cond cpu (2 * k + 1) = !check_cond cpu (2 * k)) := by
  obtain ⟨hn, hz, hc, hv⟩ := flag_bit_cases cpu
  refine ⟨?_, ?_, ?_, ?_, ?_, ?_, ?_, ?_, ?_, ?_, ?_, ?_, ?_, ?_, ?_, ?_, ?_⟩
  case refine_17 =>
    intro k hk
    have : k = 0 ∨ k = 1 ∨ k = 2 ∨ k = 3 ∨ k = 4 ∨ k = 5 ∨ k = 6 := by omega
    rcases this with h | h | h | h | h | h | h <;> subst h <;>
      rcases hn with hn | hn <;> rcases hz with hz | hz <;> rcases hc with hc | hc <;>
      rcases hv with hv | hv <;> simp [check_cond, hn, hz, hc, hv]
  all_goals
    rcases hn with hn | hn <;> rcases hz with hz | hz <;> rcases hc with hc | hc <;>
      rcases hv with hv | hv <;> simp [check_cond, hn, hz, hc, hv]

/-! ## CPU: an instruction whose condition fails (C6) -/

/-- C6: when the word fetched at PC is neither 0 nor the PLD word 0xF5D1F100 and its
condition field fails under the current flags, `cpu_tick` returns the state with
the stored PC advanced by 4 (mod 2^32) and everything else as it was. -/
theorem cpu_tick_condition_false (host : host_t) (emu : emulator_t)
    (h0 : memory_read_dword_le emu (emu.cpu.r_usr 15).val ≠ 0x00000000)
    (hpld : memory_read_dword_le emu (emu.cpu.r_usr 15).val ≠ 0xF5D1F100)
    (hcond : check_cond emu.cpu (memory_read_dword_le emu (emu.cpu.r_usr 15).val >>> 28) = false) :
    cpu_tick host emu = some { emu with cpu := { emu.cpu with
      r_usr := upd emu.cpu.r_usr 15 (u32 ((emu.cpu.r_usr 15).val + 4)) } } := by
  unfold cpu_tick
  simp only [if_neg h0, if_neg hpld]
  have hc : check_cond { emu.cpu with
      r_usr := upd emu.cpu.r_usr 15 (u32 ((emu.cpu.r_usr 15).val + 4)) }
      (memory_read_dword_le emu (emu.cpu.r_usr 15).val >>> 28) = false := hcond
  simp [hc]

/-- C6, witness: `BEQ` (0x0A000000) at address 0 of the start-up state, whose Z flag
is clear. -/
theorem cpu_tick_condition_false_witness :
    cpu_tick host_zero { emulator_init 0x10000 0 false false false 0 with
        data := upd (fun _ => u8 0) 3 (u8 0x0A) }
      = some { emulator_init 0x10000 0 false false false 0 with
          data := upd (fun _ => u8 0) 3 (u8 0x0A)
          cpu := { (emulator_init 0x10000 0 false false false 0).cpu with
            r_usr := upd (emulator_init 0x10000 0 false false false 0).cpu.r_usr 15
              (u32 (((emulator_init 0x10000 0 false false false 0).cpu.r_usr 15).val + 4)) } } :=
  cpu_tick_condition_false host_zero { emulator_init 0x10000 0 false false false 0 with
      data := upd (fun _ => u8 0) 3 (u8 0x0A) } (by decide) (by decide) (by decide)

/-! ## CPU: flags of ADD/SUB and the rotate of the shifter (C7, C8, C9, C10) -/

/-- C7, the code at a failing input: `ADDS R2, R0, R1` (0xE0902001) with
R0 = 0xFFFFFFFF and R1 = 1 gives R2 = 0 and Z = 1, N = 0, but C = 0 although the
unsigned sum is 2^32. -/
theorem adds_carry_failing_input :
    (instr_single_data_processing
        (cpu_write_register (cpu_write_register
          (emulator_init 0x10000 0 false false false 0).cpu 0 0xFFFFFFFF) 1 1) 0xE0902001).map
      (fun c => ((c.r_usr 2).val, cpsr_z c, cpsr_n c, cpsr_c c)) = some (0, 1, 0, 0) ∧
    (0xFFFFFFFF : Nat) + 1 ≥ 2 ^ 32 := by
  decide

/-- C8, the code at a failing input: `ADDS R2, R0, R1` with R0 = R1 = 0x80000000
(both -2^31, signed sum -2^32) leaves V = 0; at R0 = 0x7FFFFFFF, R1 = 1 it gives
R2 = 0x80000000, N = 1, Z = 0, C = 0, V = 1. -/
theorem adds_overflow_failing_input :
    (instr_single_data_processing
        (cpu_write_register (cpu_write_register
          (emulator_init 0x10000 0 false false false 0).cpu 0 0x80000000) 1 0x80000000)
        0xE0902001).map
      (fun c => ((c.r_usr 2).val, cpsr_v c)) = some (0, 0) ∧
    ts32 0x80000000 + ts32 0x80000000 < -2 ^ 31 ∧
    (instr_single_data_processing
        (cpu_write_register (cpu_write_register
          (emulator_init 0x10000 0 false false false 0).cpu 0 0x7FFFFFFF) 1 1) 0xE0902001).map
      (fun c => ((c.r_usr 2).val, cpsr_n c, cpsr_z c, cpsr_c c, cpsr_v c))
        = some (0x80000000, 1, 0, 0, 1) := by
  decide

/-- C9, the code at a failing input: `SUBS R2, R0, R1` (0xE0502001) with
R0 = 0xFFFFFFFF and R1 = 0 gives R2 = 0xFFFFFFFF, N = 1, Z = 0, but C = 0 although
R0 >= R1 as unsigned numbers (no borrow). -/
theorem subs_carry_failing_input :
    (instr_single_data_processing
        (cpu_write_register (cpu_write_register
          (emulator_init 0x10000 0 false false false 0).cpu 0 0xFFFFFFFF) 1 0) 0xE0502001).map
      (fun c => ((c.r_usr 2).val, cpsr_z c, cpsr_n c, cpsr_c c))
        = some (0xFFFFFFFF, 0, 1, 0) ∧
    (0xFFFFFFFF : Nat) ≥ 0 := by
  decide

/-- C10, the code at a failing input: with R0 = 0x80000000 the operand
`R0, LSR #1` is 0x40000000 and `R0, LSL #31` is 0, but `R0, ROR #1` is 0xC0000000. -/
theorem ror_failing_input :
    (compute_offset_operand2 (cpu_write_register
        (emulator_init 0x10000 0 false false false 0).cpu 0 0x80000000) 0x0A0 0).map (·.1)
      = some 0x40000000 ∧
    (compute_offset_operand2 (cpu_write_register
        (emulator_init 0x10000 0 false false false 0).cpu 0 0x80000000) 0xF80 0).map (·.1)
      = some 0 ∧
    (compute_offset_operand2 (cpu_write_register
        (emulator_init 0x10000 0 false false false 0).cpu 0 0x80000000) 0x0E0 0).map (·.1)
      = some 0xC0000000 ∧
    (0x40000000 ||| 0 : Nat) ≠ 0xC0000000 := by
  decide

/-! ## Framebuffer request: the unrolling depth is enough -/

theorem foldl_invariant {α β : Type} (P : β → Prop) (f : β → α → β) (l : List α) (init : β)
    (h0 : P init) (hstep : ∀ b a, P b → P (f b a)) : P (l.foldl f init) := by
  induction l generalizing init with
  | nil => exact h0
  | cons a l ih => exact ih (f init a) (hstep init a h0)

theorem foldlM_option_congr {α β : Type} (P : β → Prop) (f g : β → α → Option β) (l : List α)
    (init : β) (h0 : P init)
    (hfg : ∀ b a, a ∈ l → P b → f b a = g b a)
    (hP : ∀ b a b', a ∈ l → P b → g b a = some b' → P b') :
    l.foldlM f init = l.foldlM g init := by
  induction l generalizing init with
  | nil => rfl
  | cons a l ih =>
    simp only [List.foldlM_cons]
    rw [hfg init a (List.mem_cons_self a l) h0]
    cases hg : g init a with
    | none => rfl
    | some b' =>
      simp only [Option.bind_eq_bind, Option.some_bind]
      exact ih b' (hP init a b' (List.mem_cons_self a l) h0 hg)
        (fun b x hx hb => hfg b x (List.mem_cons_of_mem a hx) hb)
        (fun b x b'' hx hb => hP b x b'' (List.mem_cons_of_mem a hx) hb)

theorem nes_gpio_write_mem_size (emu : emulator_t) (port value : Nat) :
    (nes_gpio_write emu port value).mem_size = emu.mem_size := by
  unfold nes_gpio_write nes_write_button gpio_set_state
  split_ifs <;> rfl

theorem gpio_write_states_mem_size (emu : emulator_t) (offset val level : Nat) :
    (gpio_write_states emu offset val level).mem_size = emu.mem_size := by
  unfold gpio_write_states
  apply foldl_invariant (fun (acc : emulator_t × Nat) => acc.1.mem_size = emu.mem_size)
  · rfl
  · intro b a hb
    dsimp only
    split_ifs
    · rw [nes_gpio_write_mem_size]; exact hb
    · exact hb
    · exact hb

theorem gpio_write_port_mem_size (emu : emulator_t) (address val : Nat) :
    (gpio_write_port emu address val).mem_size = emu.mem_size := by
  unfold gpio_write_port
  dsimp only
  split_ifs
  · apply foldl_invariant (fun (acc : emulator_t × Nat) => acc.1.mem_size = emu.mem_size)
    · rfl
    · intro b a hb; exact hb
  all_goals first | exact gpio_write_states_mem_size _ _ _ _ | rfl

theorem and_FFFFFFF0 (x : Nat) : x &&& 0xFFFFFFF0 = x % 4294967296 - x % 16 := by
  have h := and_shifted_mask x 4 28
  have e : (2 ^ 28 - 1) <<< 4 = 0xFFFFFFF0 := by decide
  rw [e] at h
  rw [h, Nat.shiftLeft_eq, Nat.shiftRight_eq_div_pow]
  omega

theorem shiftLeft_two (x : Nat) : x <<< 2 = x * 4 := by
  rw [Nat.shiftLeft_eq]

theorem and_F (x : Nat) : x &&& 0xF = x % 16 := Nat.and_pow_two_sub_one_eq_mod x 4

/-- The two early exits of `fb_request` (no graphics, address below 0x40000000)
return the same state, so below 0x40000000 the result does not depend on the word
store passed in. -/
theorem fb_request_with_low (w : emulator_t → Nat → Nat → Option emulator_t)
    (emu : emulator_t) (addr : Nat) (h : addr < 0x40000000) :
    fb_request_with w emu addr = some { emu with fb := { emu.fb with error := true } } := by
  unfold fb_request_with
  cases hg : emu.graphics <;> simp [hg, h]

/-- The word store depends on the `fb_request` passed in only at a write to `MBOX_WRITE`
outside SDRAM on channel 1. -/
theorem memory_write_dword_le_with_congr (f g : emulator_t → Nat → Option emulator_t)
    (e : emulator_t) (a v : Nat)
    (h : ¬ ((a &&& 0x3FFFFFFF) + 3 < e.mem_size) →
      (a &&& 0x3FFFFFFF) &&& 0xFFFFFFFC = MBOX_WRITE →
      ((v % 4294967296) &&& 0xF) % 256 = 1 →
      ∀ e', f e' ((v % 4294967296) &&& 0xFFFFFFF0) = g e' ((v % 4294967296) &&& 0xFFFFFFF0)) :
    memory_write_dword_le_with f e a v = memory_write_dword_le_with g e a v := by
  unfold memory_write_dword_le_with mbox_write_with
  dsimp only
  split_ifs with h1 h2 h3 h4 h5
  all_goals first | rfl | exact h h1 h4 h5 _

theorem memory_write_dword_le_with_mem_size (f : emulator_t → Nat → Option emulator_t)
    (hf : ∀ e d e', f e d = some e' → e'.mem_size = e.mem_size)
    (e : emulator_t) (a v : Nat) (e' : emulator_t)
    (h : memory_write_dword_le_with f e a v = some e') : e'.mem_size = e.mem_size := by
  unfold memory_write_dword_le_with mbox_write_with at h
  dsimp only at h
  split_ifs at h
  all_goals first
    | (cases h; rfl)
    | (cases h; exact gpio_write_port_mem_size _ _ _)
    | (have h' := hf _ _ _ h; exact h')
    | (unfold fb_write_dword at h
       cases hb : e.fb.framebuffer with
       | none => simp [hb] at h
       | some buf => simp [hb] at h; cases h; rfl)

/-- A word read at `MBOX_WRITE` outside SDRAM returns 0. -/
theorem memory_read_dword_le_mbox_write (e : emulator_t) (a : Nat)
    (hm : a &&& 0x3FFFFFFF = 0x2000b8a0) (hs : ¬ (0x2000b8a0 + 3 < e.mem_size)) :
    memory_read_dword_le e a = 0 := by
  unfold memory_read_dword_le
  simp only [hm, if_neg hs]
  have h1 : ¬ ((0x2000b8a0 : Nat) = 0x20003004) := by decide
  have h2 : ¬ ((0x2000b8a0 : Nat) = 0x20003008) := by decide
  have h3 : gpio_is_port 0x2000b8a0 = false := by decide
  have h4 : mbox_is_port 0x2000b8a0 = true := by decide
  simp only [if_neg h1, if_neg h2, h3, h4]
  unfold mbox_read
  have h5 : (0x2000b8a0 : Nat) &&& 0xFFFFFFFC = 0x2000b8a0 := by decide
  simp only [h5]
  simp

/-- The write-back loop of a request at a 16-byte aligned descriptor address `A`
calls a nested request only below 0x40000000. -/
theorem fb_request_write_back_congr (f : emulator_t → Nat → Option emulator_t)
    (hf : ∀ e d, d < 0x40000000 → f e d = some { e with fb := { e.fb with error := true } })
    (emu0 : emulator_t) (A pitch size : Nat) (hA : A % 16 = 0) (hp : pitch % 4 = 0)
    (e : emulator_t) (hP : e.mem_size = emu0.mem_size) (i : Nat) (hi10 : i < 10) :
    memory_write_dword_le_with f e ((A + (i <<< 2)) % 4294967296)
        (if i = 4 then pitch else if i = 9 then size
          else if i = 8 then emu0.mem_size % 4294967296
          else memory_read_dword_le emu0 ((A + (i <<< 2)) % 4294967296)) =
      memory_write_dword_le_with (fun e _ => some { e with fb := { e.fb with error := true } }) e
        ((A + (i <<< 2)) % 4294967296)
        (if i = 4 then pitch else if i = 9 then size
          else if i = 8 then emu0.mem_size % 4294967296
          else memory_read_dword_le emu0 ((A + (i <<< 2)) % 4294967296)) := by
  apply memory_write_dword_le_with_congr
  intro h1 h4 h5 e'
  rw [hf]
  simp only [and_3FFFFFFF, and_FFFFFFFC, and_F, and_FFFFFFF0, shiftLeft_two] at h1 h4 h5 ⊢
  rw [hP] at h1
  replace h4 : (A + i * 4) % 4294967296 % 1073741824 % 4294967296
      - (A + i * 4) % 4294967296 % 1073741824 % 4 = 0x2000b8a0 := h4
  have hi3 : i = 0 ∨ i = 4 ∨ i = 8 := by omega
  rcases hi3 with h | h | h
  · subst h
    exfalso
    have hr : memory_read_dword_le emu0 ((A + (0 <<< 2)) % 4294967296) = 0 := by
      apply memory_read_dword_le_mbox_write
      · rw [and_3FFFFFFF, shiftLeft_two]; omega
      · omega
    simp only [shiftLeft_two] at hr
    simp only [if_neg (show ¬ ((0 : Nat) = 4) by decide),
      if_neg (show ¬ ((0 : Nat) = 9) by decide),
      if_neg (show ¬ ((0 : Nat) = 8) by decide), hr] at h5
    omega
  · subst h
    exfalso
    simp only [↓reduceIte] at h5
    omega
  · subst h
    simp only [if_neg (show ¬ ((8 : Nat) = 4) by decide),
      if_neg (show ¬ ((8 : Nat) = 9) by decide), ↓reduceIte]
    omega

/-- A request whose address is a multiple of 16 (as every request that arrives
through the mailbox is) never reaches a nested request above 0x40000000. -/
theorem fb_request_with_aligned (f : emulator_t → Nat → Option emulator_t)
    (hf : ∀ e d, d < 0x40000000 → f e d = some { e with fb := { e.fb with error := true } })
    (emu : emulator_t) (addr : Nat) (h16 : addr % 16 = 0) :
    fb_request_with (memory_write_dword_le_with f) emu addr =
      fb_request_with (memory_write_dword_le_with
        (fun e _ => some { e with fb := { e.fb with error := true } })) emu addr := by
  unfold fb_request_with
  dsimp only
  split_ifs
  all_goals first
    | rfl
    | (apply foldlM_option_congr (fun e => e.mem_size = emu.mem_size)
       · rfl
       · intro e i hi hP
         exact fb_request_write_back_congr f hf
           { emu with fb := { emu.fb with error := false } }
           ((addr - 0x40000000) % 4294967296) _ _ (by omega) (by omega) e hP i
           (List.mem_range.mp hi)
       · intro e i e' hi hP hw
         rw [memory_write_dword_le_with_mem_size _ (by intro e d e' h; cases h; rfl) _ _ _ _ hw]
         exact hP)

theorem fb_request_depth_low (n : Nat) (e : emulator_t) (d : Nat) (h : d < 0x40000000) :
    fb_request_depth (n + 1) e d = some { e with fb := { e.fb with error := true } } :=
  fb_request_with_low _ e d h

theorem fb_request_depth_aligned (n : Nat) (e : emulator_t) (d : Nat) (h16 : d % 16 = 0) :
    fb_request_depth (n + 2) e d = fb_request_depth 2 e d := by
  show fb_request_with (memory_write_dword_le_with (fb_request_depth (n + 1))) e d
    = fb_request_with (memory_write_dword_le_with (fb_request_depth 1)) e d
  rw [fb_request_with_aligned _ (fb_request_depth_low n) e d h16,
    fb_request_with_aligned _ (fb_request_depth_low 0) e d h16]

theorem memory_write_dword_le_with_depth (n : Nat) (e : emulator_t) (a v : Nat) :
    memory_write_dword_le_with (fb_request_depth (n + 2)) e a v
      = memory_write_dword_le_with (fb_request_depth 2) e a v := by
  apply memory_write_dword_le_with_congr
  intro _ _ _ e'
  apply fb_request_depth_aligned
  rw [and_FFFFFFF0]; omega

/-- The unrolling depth of `fb_request` is enough: every deeper unrolling returns
the same result on every state and address. -/
theorem fb_request_depth_stable (n : Nat) (emu : emulator_t) (addr : Nat) :
    fb_request_depth (n + 3) emu addr = fb_request emu addr := by
  show fb_request_with (memory_write_dword_le_with (fb_request_depth (n + 2))) emu addr
    = fb_request_with (memory_write_dword_le_with (fb_request_depth 2)) emu addr
  have : memory_write_dword_le_with (fb_request_depth (n + 2))
      = memory_write_dword_le_with (fb_request_depth 2) := by
    funext e a v
    exact memory_write_dword_le_with_depth n e a v
  rw [this]

/-! ## What ADDS and SUBS compute on every operand pair -/

theorem cpu_read_register_low (cpu : cpu_t) (reg : armReg_t) (h : reg.val ≤ 7) :
    cpu_read_register cpu reg = some (cpu.r_usr reg.val).val := by
  unfold cpu_read_register
  rw [if_pos h]

theorem cpu_write_register_low (cpu : cpu_t) (reg : armReg_t) (v : Nat) (h : reg.val ≤ 7) :
    cpu_write_register cpu reg v = { cpu with r_usr := upd cpu.r_usr reg.val (u32 v) } := by
  unfold cpu_write_register
  rw [if_pos h]

/-- Operand 2 `R1` without shift (encoding 0x001) is the value of R1. -/
theorem compute_offset_operand2_r1 (cpu : cpu_t) (s : Nat) :
    compute_offset_operand2 cpu 0x001 s = some ((cpu.r_usr 1).val, cpu) := by
  unfold compute_offset_operand2
  have h1 : cpu_read_register cpu ⟨(0x001 &&& 0x0000000F) % 16, Nat.mod_lt _ (by decide)⟩
      = some (cpu.r_usr 1).val := cpu_read_register_low cpu _ (by decide)
  rw [h1]
  rfl

/-- The steps of `ADDS R2, R0, R1` (0xE0902001). -/
theorem adds_r2_r0_r1_steps (cpu : cpu_t) :
    instr_single_data_processing cpu 0xE0902001 = some
      (cpu_write_register
        (set_v_add (set_cpsr_v (set_cpsr_c
            (set_zn cpu (tu32 (ts32 (cpu.r_usr 0).val + ts32 (cpu.r_usr 1).val)))
            (b2n ((ts32 (cpu.r_usr 0).val + ts32 (cpu.r_usr 1).val) / 4294967296 ≠ 0))) 0)
          (cpu.r_usr 0).val (cpu.r_usr 1).val
          (tu32 (ts32 (cpu.r_usr 0).val + ts32 (cpu.r_usr 1).val)))
        2 (tu32 (ts32 (cpu.r_usr 0).val + ts32 (cpu.r_usr 1).val))) := by
  unfold instr_single_data_processing
  have hn : cpu_read_register cpu (op_Rn 0xE0902001) = some (cpu.r_usr 0).val :=
    cpu_read_register_low cpu _ (by decide)
  have hi : op_bit 0xE0902001 25 = 0 := by decide
  have hs : op_bit 0xE0902001 20 = 1 := by decide
  have himm : (0xE0902001 % 4096) &&& 0x00000FFF = 0x001 := by decide
  have hop : (0xE0902001 >>> 21) % 16 = 0x4 := by decide
  have hrd : op_Rd 0xE0902001 = 2 := by decide
  simp only [hn, hi, hs, himm, hop, hrd, compute_offset_operand2_r1]
  rfl

theorem tu32_ts32_add (a b : Nat) :
    tu32 (ts32 a + ts32 b) = (a + b) % 4294967296 := by
  unfold tu32 ts32
  split_ifs <;> omega

theorem tu32_ts32_sub (a b : Nat) :
    tu32 (ts32 a - ts32 b) = (a % 4294967296 + 4294967296 - b % 4294967296) % 4294967296 := by
  unfold tu32 ts32
  split_ifs <;> omega

theorem cpsr_cpu_write_register (cpu : cpu_t) (reg : armReg_t) (v : Nat) :
    (cpu_write_register cpu reg v).cpsr = cpu.cpsr := by
  unfold cpu_write_register
  repeat' split
  all_goals rfl

theorem cpsr_n_set_cpsr_n (cpu : cpu_t) (x : Nat) :
    cpsr_n (set_cpsr_n cpu x) = x % 2 := by
  have hw := cpu.cpsr.isLt
  unfold cpsr_n set_cpsr_n bitfield_get bitfield_set
  simp only [u32_val]
  norm_num
  omega

theorem cpsr_n_set_cpsr_z (cpu : cpu_t) (x : Nat) :
    cpsr_n (set_cpsr_z cpu x) = cpsr_n cpu := by
  have hw := cpu.cpsr.isLt
  unfold cpsr_n set_cpsr_z bitfield_get bitfield_set
  simp only [u32_val]
  norm_num
  omega

theorem cpsr_n_set_cpsr_c (cpu : cpu_t) (x : Nat) :
    cpsr_n (set_cpsr_c cpu x) = cpsr_n cpu := by
  have hw := cpu.cpsr.isLt
  unfold cpsr_n set_cpsr_c bitfield_get bitfield_set
  simp only [u32_val]
  norm_num
  omega

theorem cpsr_n_set_cpsr_v (cpu : cpu_t) (x : Nat) :
    cpsr_n (set_cpsr_v cpu x) = cpsr_n cpu := by
  have hw := cpu.cpsr.isLt
  unfold cpsr_n set_cpsr_v bitfield_get bitfield_set
  simp only [u32_val]
  norm_num
  omega

theorem cpsr_z_set_cpsr_n (cpu : cpu_t) (x : Nat) :
    cpsr_z (set_cpsr_n cpu x) = cpsr_z cpu := by
  have hw := cpu.cpsr.isLt
  unfold cpsr_z set_cpsr_n bitfield_get bitfield_set
  simp only [u32_val]
  norm_num
  omega

theorem cpsr_z_set_cpsr_z (cpu : cpu_t) (x : Nat) :
    cpsr_z (set_cpsr_z cpu x) = x % 2 := by
  have hw := cpu.cpsr.isLt
  unfold cpsr_z set_cpsr_z bitfield_get bitfield_set
  simp only [u32_val]
  norm_num
  omega

theorem cpsr_z_set_cpsr_c (cpu : cpu_t) (x : Nat) :
    cpsr_z (set_cpsr_c cpu x) = cpsr_z cpu := by
  have hw := cpu.cpsr.isLt
  unfold cpsr_z set_cpsr_c bitfield_get bitfield_set
  simp only [u32_val]
  norm_num
  omega

theorem cpsr_z_set_cpsr_v (cpu : cpu_t) (x : Nat) :
    cpsr_z (set_cpsr_v cpu x) = cpsr_z cpu := by
  have hw := cpu.cpsr.isLt
  unfold cpsr_z set_cpsr_v bitfield_get bitfield_set
  simp only [u32_val]
  norm_num
  omega

theorem cpsr_c_set_cpsr_n (cpu : cpu_t) (x : Nat) :
    cpsr_c (set_cpsr_n cpu x) = cpsr_c cpu := by
  have hw := cpu.cpsr.isLt
  unfold cpsr_c set_cpsr_n bitfield_get bitfield_set
  simp only [u32_val]
  norm_num
  omega

theorem cpsr_c_set_cpsr_z (cpu : cpu_t) (x : Nat) :
    cpsr_c (set_cpsr_z cpu x) = cpsr_c cpu := by
  have hw := cpu.cpsr.isLt
  unfold cpsr_c set_cpsr_z bitfield_get bitfield_set
  simp only [u32_val]
  norm_num
  omega

theorem cpsr_c_set_cpsr_c (cpu : cpu_t) (x : Nat) :
    cpsr_c (set_cpsr_c cpu x) = x % 2 := by
  have hw := cpu.cpsr.isLt
  unfold cpsr_c set_cpsr_c bitfield_get bitfield_set
  simp only [u32_val]
  norm_num
  omega

theorem cpsr_c_set_cpsr_v (cpu : cpu_t) (x : Nat) :
    cpsr_c (set_cpsr_v cpu x) = cpsr_c cpu := by
  have hw := cpu.cpsr.isLt
  unfold cpsr_c set_cpsr_v bitfield_get bitfield_set
  simp only [u32_val]
  norm_num
  omega

theorem cpsr_v_set_cpsr_n (cpu : cpu_t) (x : Nat) :
    cpsr_v (set_cpsr_n cpu x) = cpsr_v cpu := by
  have hw := cpu.cpsr.isLt
  unfold cpsr_v set_cpsr_n bitfield_get bitfield_set
  simp only [u32_val]
  norm_num
  omega

theorem cpsr_v_set_cpsr_z (cpu : cpu_t) (x : Nat) :
    cpsr_v (set_cpsr_z cpu x) = cpsr_v cpu := by
  have hw := cpu.cpsr.isLt
  unfold cpsr_v set_cpsr_z bitfield_get bitfield_set
  simp only [u32_val]
  norm_num
  omega

theorem cpsr_v_set_cpsr_c (cpu : cpu_t) (x : Nat) :
    cpsr_v (set_cpsr_c cpu x) = cpsr_v cpu := by
  have hw := cpu.cpsr.isLt
  unfold cpsr_v set_cpsr_c bitfield_get bitfield_set
  simp only [u32_val]
  norm_num
  omega

theorem cpsr_v_set_cpsr_v (cpu : cpu_t) (x : Nat) :
    cpsr_v (set_cpsr_v cpu x) = x % 2 := by
  have hw := cpu.cpsr.isLt
  unfold cpsr_v set_cpsr_v bitfield_get bitfield_set
  simp only [u32_val]
  norm_num
  omega

theorem b2n_mod_two (b : Bool) : b2n b % 2 = b2n b := by
  cases b <;> rfl

/-- The flags left by the ADD/CMN flag update, as the code computes them. -/
theorem add_flags (cpu : cpu_t) (a b res : Nat) (cb : Bool) (hres : res < 4294967296) :
    cpsr_z (set_v_add (set_cpsr_v (set_cpsr_c (set_zn cpu res) (b2n cb)) 0) a b res)
      = b2n (res = 0) ∧
    cpsr_n (set_v_add (set_cpsr_v (set_cpsr_c (set_zn cpu res) (b2n cb)) 0) a b res)
      = res / 2147483648 ∧
    cpsr_c (set_v_add (set_cpsr_v (set_cpsr_c (set_zn cpu res) (b2n cb)) 0) a b res)
      = b2n cb ∧
    cpsr_v (set_v_add (set_cpsr_v (set_cpsr_c (set_zn cpu res) (b2n cb)) 0) a b res)
      = b2n ((ts32 a < 0 ∧ ts32 b < 0 ∧ ts32 res > 0) ∨ (ts32 a > 0 ∧ ts32 b > 0 ∧ ts32 res < 0)) := by
  have hn : (res >>> 31) % 2 = res / 2147483648 := by
    rw [Nat.shiftRight_eq_div_pow]; omega
  unfold set_v_add set_zn
  dsimp only
  split_ifs with h1 h2 h2
  all_goals
    simp only [cpsr_z_set_cpsr_v, cpsr_z_set_cpsr_c, cpsr_z_set_cpsr_n, cpsr_z_set_cpsr_z,
      cpsr_n_set_cpsr_v, cpsr_n_set_cpsr_c, cpsr_n_set_cpsr_n,
      cpsr_c_set_cpsr_v, cpsr_c_set_cpsr_c,
      cpsr_v_set_cpsr_v, b2n_mod_two, hn]
    refine ⟨trivial, trivial, trivial, ?_⟩
    simp [b2n, h1, h2]

theorem cpsr_flags_cpu_write_register (cpu : cpu_t) (reg : armReg_t) (v : Nat) :
    cpsr_z (cpu_write_register cpu reg v) = cpsr_z cpu ∧
    cpsr_n (cpu_write_register cpu reg v) = cpsr_n cpu ∧
    cpsr_c (cpu_write_register cpu reg v) = cpsr_c cpu ∧
    cpsr_v (cpu_write_register cpu reg v) = cpsr_v cpu := by
  unfold cpsr_z cpsr_n cpsr_c cpsr_v
  rw [cpsr_cpu_write_register]
  exact ⟨rfl, rfl, rfl, rfl⟩

theorem b2n_eq_one (b : Bool) : b2n b = 1 ↔ b = true := by
  cases b <;> simp [b2n]

theorem ts32_cases (a : Nat) (ha : a < 4294967296) :
    (a < 2147483648 ∧ ts32 a = a) ∨ (2147483648 ≤ a ∧ ts32 a = (a : Int) - 4294967296) := by
  unfold ts32
  rw [Nat.mod_eq_of_lt ha]
  split_ifs with h
  · exact Or.inl ⟨h, rfl⟩
  · exact Or.inr ⟨by omega, rfl⟩

/-- What `ADDS R2, R0, R1` computes for every pair of operands: the result and the
flags Z and N are those of the 32-bit sum; C is set exactly when the sum of the
operands read as signed numbers is negative; V is set exactly on a signed overflow
other than 0x80000000 + 0x80000000. -/
theorem adds_r2_r0_r1 (cpu : cpu_t) :
    ∃ c, instr_single_data_processing cpu 0xE0902001 = some c ∧
      (c.r_usr 2).val = ((cpu.r_usr 0).val + (cpu.r_usr 1).val) % 4294967296 ∧
      cpsr_z c = b2n (((cpu.r_usr 0).val + (cpu.r_usr 1).val) % 4294967296 = 0) ∧
      cpsr_n c = ((cpu.r_usr 0).val + (cpu.r_usr 1).val) % 4294967296 / 2147483648 ∧
      (cpsr_c c = 1 ↔ ts32 (cpu.r_usr 0).val + ts32 (cpu.r_usr 1).val < 0) ∧
      (cpsr_v c = 1 ↔
        ((ts32 (cpu.r_usr 0).val + ts32 (cpu.r_usr 1).val < -2147483648 ∨
          ts32 (cpu.r_usr 0).val + ts32 (cpu.r_usr 1).val > 2147483647) ∧
         ¬ ((cpu.r_usr 0).val = 0x80000000 ∧ (cpu.r_usr 1).val = 0x80000000))) := by
  refine ⟨_, adds_r2_r0_r1_steps cpu, ?_⟩
  have ha := (cpu.r_usr 0).isLt
  have hb := (cpu.r_usr 1).isLt
  have hres := tu32_ts32_add (cpu.r_usr 0).val (cpu.r_usr 1).val
  have hlt : tu32 (ts32 (cpu.r_usr 0).val + ts32 (cpu.r_usr 1).val) < 4294967296 := by
    rw [hres]; omega
  obtain ⟨fz, fn, fc, fv⟩ := add_flags cpu (cpu.r_usr 0).val (cpu.r_usr 1).val _
    (decide ((ts32 (cpu.r_usr 0).val + ts32 (cpu.r_usr 1).val) / 4294967296 ≠ 0)) hlt
  obtain ⟨wz, wn, wc, wv⟩ := cpsr_flags_cpu_write_register
    (set_v_add (set_cpsr_v (set_cpsr_c
        (set_zn cpu (tu32 (ts32 (cpu.r_usr 0).val + ts32 (cpu.r_usr 1).val)))
        (b2n (decide ((ts32 (cpu.r_usr 0).val + ts32 (cpu.r_usr 1).val) / 4294967296 ≠ 0)))) 0)
      (cpu.r_usr 0).val (cpu.r_usr 1).val
      (tu32 (ts32 (cpu.r_usr 0).val + ts32 (cpu.r_usr 1).val)))
    2 (tu32 (ts32 (cpu.r_usr 0).val + ts32 (cpu.r_usr 1).val))
  rw [wz, wn, wc, wv, fz, fn, fc, fv, hres]
  have hr : ((cpu.r_usr 0).val + (cpu.r_usr 1).val) % 4294967296 < 4294967296 :=
    Nat.mod_lt _ (by decide)
  refine ⟨?_, rfl, rfl, ?_, ?_⟩
  · rw [cpu_write_register_low _ _ _ (by decide)]
    simp [upd, hres]
  · rw [b2n_eq_one, decide_eq_true_iff]
    rcases ts32_cases _ ha with ⟨h1, e1⟩ | ⟨h1, e1⟩ <;>
      rcases ts32_cases _ hb with ⟨h2, e2⟩ | ⟨h2, e2⟩ <;>
      rw [e1, e2] <;> omega
  · rw [b2n_eq_one, decide_eq_true_iff]
    rcases ts32_cases _ ha with ⟨h1, e1⟩ | ⟨h1, e1⟩ <;>
      rcases ts32_cases _ hb with ⟨h2, e2⟩ | ⟨h2, e2⟩ <;>
      rcases ts32_cases _ hr with ⟨h3, e3⟩ | ⟨h3, e3⟩ <;>
      rw [e1, e2, e3] <;> omega

/-- The steps of `SUBS R2, R0, R1` (0xE0502001). -/
theorem subs_r2_r0_r1_steps (cpu : cpu_t) :
    instr_single_data_processing cpu 0xE0502001 = some
      (cpu_write_register
        (set_v_sub (set_cpsr_c
            (set_zn cpu (tu32 (ts32 (cpu.r_usr 0).val - ts32 (cpu.r_usr 1).val)))
            (b2n ((ts32 (cpu.r_usr 0).val - ts32 (cpu.r_usr 1).val) / 4294967296 % 2 = 0)))
          (cpu.r_usr 0).val (cpu.r_usr 1).val
          (tu32 (ts32 (cpu.r_usr 0).val - ts32 (cpu.r_usr 1).val)))
        2 (tu32 (ts32 (cpu.r_usr 0).val - ts32 (cpu.r_usr 1).val))) := by
  unfold instr_single_data_processing
  have hn : cpu_read_register cpu (op_Rn 0xE0502001) = some (cpu.r_usr 0).val :=
    cpu_read_register_low cpu _ (by decide)
  have hi : op_bit 0xE0502001 25 = 0 := by decide
  have hs : op_bit 0xE0502001 20 = 1 := by decide
  have himm : (0xE0502001 % 4096) &&& 0x00000FFF = 0x001 := by decide
  have hop : (0xE0502001 >>> 21) % 16 = 0x2 := by decide
  have hrd : op_Rd 0xE0502001 = 2 := by decide
  simp only [hn, hi, hs, himm, hop, hrd, compute_offset_operand2_r1]
  rfl

/-- The flags Z, N, C left by the SUB/CMP/RSB flag update, as the code computes them. -/
theorem sub_flags (cpu : cpu_t) (a b res : Nat) (cb : Bool) :
    cpsr_z (set_v_sub (set_cpsr_c (set_zn cpu res) (b2n cb)) a b res) = b2n (res = 0) ∧
    cpsr_n (set_v_sub (set_cpsr_c (set_zn cpu res) (b2n cb)) a b res) = (res >>> 31) % 2 ∧
    cpsr_c (set_v_sub (set_cpsr_c (set_zn cpu res) (b2n cb)) a b res) = b2n cb := by
  unfold set_v_sub set_zn
  dsimp only
  split_ifs
  all_goals
    simp only [cpsr_z_set_cpsr_v, cpsr_z_set_cpsr_c, cpsr_z_set_cpsr_n, cpsr_z_set_cpsr_z,
      cpsr_n_set_cpsr_v, cpsr_n_set_cpsr_c, cpsr_n_set_cpsr_n,
      cpsr_c_set_cpsr_v, cpsr_c_set_cpsr_c, b2n_mod_two]
    exact ⟨trivial, trivial, trivial⟩

/-- What `SUBS R2, R0, R1` computes for every pair of operands: the result and the
flags Z and N are those of the 32-bit difference; C is set exactly when R0 >= R1 as
signed numbers. -/
theorem subs_r2_r0_r1 (cpu : cpu_t) :
    ∃ c, instr_single_data_processing cpu 0xE0502001 = some c ∧
      (c.r_usr 2).val = ((cpu.r_usr 0).val + 4294967296 - (cpu.r_usr 1).val) % 4294967296 ∧
      cpsr_z c =
        b2n (((cpu.r_usr 0).val + 4294967296 - (cpu.r_usr 1).val) % 4294967296 = 0) ∧
      cpsr_n c =
        ((cpu.r_usr 0).val + 4294967296 - (cpu.r_usr 1).val) % 4294967296 / 2147483648 ∧
      (cpsr_c c = 1 ↔ ts32 (cpu.r_usr 0).val ≥ ts32 (cpu.r_usr 1).val) := by
  refine ⟨_, subs_r2_r0_r1_steps cpu, ?_⟩
  have ha := (cpu.r_usr 0).isLt
  have hb := (cpu.r_usr 1).isLt
  have hres : tu32 (ts32 (cpu.r_usr 0).val - ts32 (cpu.r_usr 1).val)
      = ((cpu.r_usr 0).val + 4294967296 - (cpu.r_usr 1).val) % 4294967296 := by
    rw [tu32_ts32_sub, Nat.mod_eq_of_lt ha, Nat.mod_eq_of_lt hb]
  obtain ⟨fz, fn, fc⟩ := sub_flags cpu (cpu.r_usr 0).val (cpu.r_usr 1).val
    (tu32 (ts32 (cpu.r_usr 0).val - ts32 (cpu.r_usr 1).val))
    (decide ((ts32 (cpu.r_usr 0).val - ts32 (cpu.r_usr 1).val) / 4294967296 % 2 = 0))
  obtain ⟨wz, wn, wc, _⟩ := cpsr_flags_cpu_write_register
    (set_v_sub (set_cpsr_c
        (set_zn cpu (tu32 (ts32 (cpu.r_usr 0).val - ts32 (cpu.r_usr 1).val)))
        (b2n (decide ((ts32 (cpu.r_usr 0).val - ts32 (cpu.r_usr 1).val) / 4294967296 % 2 = 0))))
      (cpu.r_usr 0).val (cpu.r_usr 1).val
      (tu32 (ts32 (cpu.r_usr 0).val - ts32 (cpu.r_usr 1).val)))
    2 (tu32 (ts32 (cpu.r_usr 0).val - ts32 (cpu.r_usr 1).val))
  rw [wz, wn, wc, fz, fn, fc, hres]
  refine ⟨?_, rfl, ?_, ?_⟩
  · rw [cpu_write_register_low _ _ _ (by decide)]
    simp [upd, hres]
  · rw [Nat.shiftRight_eq_div_pow]; omega
  · rw [b2n_eq_one, decide_eq_true_iff]
    rcases ts32_cases _ ha with ⟨h1, e1⟩ | ⟨h1, e1⟩ <;>
      rcases ts32_cases _ hb with ⟨h2, e2⟩ | ⟨h2, e2⟩ <;>
      rw [e1, e2] <;> omega

/-! ## The shifter with an immediate amount, and the rotation identity -/

theorem and_1F (x : Nat) : x &&& 0x1F = x % 32 := Nat.and_pow_two_sub_one_eq_mod x 5

/-- Operand 2 `R0, <shift> #s` with an immediate amount `1 <= s <= 31`: the value for
each shift type (0 LSL, 1 LSR, 3 ROR); without `S` the CPU is unchanged. -/
theorem compute_offset_operand2_r0_imm (cpu : cpu_t) (s : Nat) (h1 : 1 ≤ s) (h31 : s ≤ 31) :
    compute_offset_operand2 cpu (s * 128 + 0 * 32) 0
      = some (((cpu.r_usr 0).val <<< s) % 4294967296, cpu) ∧
    compute_offset_operand2 cpu (s * 128 + 1 * 32) 0 = some ((cpu.r_usr 0).val >>> s, cpu) ∧
    compute_offset_operand2 cpu (s * 128 + 3 * 32) 0
      = some (rotate_right (cpu.r_usr 0).val s, cpu) := by
  have hrm : ∀ t, t < 4 → cpu_read_register cpu
      ⟨((s * 128 + t * 32) &&& 0x0000000F) % 16, Nat.mod_lt _ (by decide)⟩
      = some (cpu.r_usr 0).val := by
    intro t ht
    have e : ((s * 128 + t * 32) &&& 0x0000000F) % 16 = 0 := by rw [and_F]; omega
    rw [cpu_read_register_low cpu _ (by show _ ≤ 7; simp only [e]; decide)]
    simp only [e]
  have hty : ∀ t, t < 4 → ((s * 128 + t * 32) >>> 5) &&& 0x00000003 = t := by
    intro t ht
    rw [and_3, Nat.shiftRight_eq_div_pow]; omega
  have hb4 : ∀ t, t < 4 → ((s * 128 + t * 32) >>> 4) &&& 0x00000001 = 0 := by
    intro t ht
    rw [and_1, Nat.shiftRight_eq_div_pow]; omega
  have ham : ∀ t, t < 4 → ((s * 128 + t * 32) >>> 7) &&& 0x0000001F = s := by
    intro t ht
    rw [and_1F, Nat.shiftRight_eq_div_pow]; omega
  have hs0 : ¬ s = 0 := by omega
  have hs32 : ¬ s ≥ 32 := by omega
  have hs32' : ¬ s > 32 := by omega
  have hs32'' : ¬ s = 32 := by omega
  refine ⟨?_, ?_, ?_⟩
  · unfold compute_offset_operand2
    simp only [hrm 0 (by decide), hty 0 (by decide), hb4 0 (by decide), ham 0 (by decide)]
    simp [hs0, hs32]
  · unfold compute_offset_operand2
    simp only [hrm 1 (by decide), hty 1 (by decide), hb4 1 (by decide), ham 1 (by decide)]
    simp [hs0, hs32]
  · unfold compute_offset_operand2
    simp only [hrm 3 (by decide), hty 3 (by decide), hb4 3 (by decide), ham 3 (by decide)]
    simp [hs0, hs32', hs32'']

/-- On a value with bit 31 clear the arithmetic shift is the logical one. -/
theorem asr32_of_lt (x s : Nat) (hx : x < 2147483648) : asr32 x s = x >>> s := by
  unfold asr32 ts32 tu32
  have h1 : x % 4294967296 = x := Nat.mod_eq_of_lt (by omega)
  rw [h1, if_pos hx]
  have h2 : ((x : Int) / 2 ^ s) = ((x / 2 ^ s : Nat) : Int) := by norm_cast
  rw [h2, Nat.shiftRight_eq_div_pow]
  have hlt : x / 2 ^ s < 4294967296 := lt_of_le_of_lt (Nat.div_le_self _ _) (by omega)
  generalize x / 2 ^ s = q at hlt ⊢
  omega

/-- The rotation identity `LSR(x, s) | LSL(x, 32 - s) = ROR(x, s)` holds in the
shifter for every `1 <= s <= 31` when bit 31 of `x` (held in R0) is clear. -/
theorem shifter_rotate_identity_of_bit31_clear (cpu : cpu_t) (s : Nat) (h1 : 1 ≤ s)
    (h31 : s ≤ 31) (hx : (cpu.r_usr 0).val < 2147483648) :
    ∃ lsr lsl ror,
      compute_offset_operand2 cpu (s * 128 + 1 * 32) 0 = some (lsr, cpu) ∧
      compute_offset_operand2 cpu ((32 - s) * 128 + 0 * 32) 0 = some (lsl, cpu) ∧
      compute_offset_operand2 cpu (s * 128 + 3 * 32) 0 = some (ror, cpu) ∧
      lsr ||| lsl = ror := by
  obtain ⟨_, hlsr, hror⟩ := compute_offset_operand2_r0_imm cpu s h1 h31
  obtain ⟨hlsl, _, _⟩ := compute_offset_operand2_r0_imm cpu (32 - s) (by omega) (by omega)
  refine ⟨_, _, _, hlsr, hlsl, hror, ?_⟩
  unfold rotate_right
  have hs : (s % 256) &&& 0x1F = s := by rw [and_1F]; omega
  have hm : (cpu.r_usr 0).val % 4294967296 = (cpu.r_usr 0).val := Nat.mod_eq_of_lt (by omega)
  simp only [hs, hm, asr32_of_lt _ _ hx]

/-! ## The shifter with a register-specified amount (C11) -/

theorem cpu_read_register_lt (cpu : cpu_t) (reg : armReg_t) (x : Nat)
    (h : cpu_read_register cpu reg = some x) : x < 4294967296 := by
  unfold cpu_read_register at h
  split_ifs at h
  all_goals first
    | (cases h; exact Fin.isLt _)
    | (cases h; exact Nat.mod_lt _ (by decide))

/-- C11: a register-specified LSL of `x` (in Rm) by `n` (the low byte of Rs) returns
`(x << n) mod 2^32` for `n < 32` and 0 for `n >= 32`; with `s` set the carry flag
becomes bit `32 - n` of `x` for `1 <= n <= 32` and 0 for `n > 32`, nothing else
changes; for `n = 0` or `s` clear the CPU state is unchanged. -/
theorem lsl_by_register (cpu : cpu_t) (imm s x y : Nat)
    (hreg : (imm >>> 4) &&& 0x00000001 ≠ 0) (hty : (imm >>> 5) &&& 0x00000003 = 0)
    (hrs : (imm >>> 8) &&& 0x0000000F ≠ 15)
    (hx : cpu_read_register cpu ⟨(imm &&& 0x0000000F) % 16, Nat.mod_lt _ (by decide)⟩ = some x)
    (hy : cpu_read_register cpu
      ⟨((imm >>> 8) &&& 0x0000000F) % 16, Nat.mod_lt _ (by decide)⟩ = some y) :
    ∃ res cpu', compute_offset_operand2 cpu imm s = some (res, cpu') ∧
      res = (if y % 256 < 32 then (x <<< (y % 256)) % 4294967296 else 0) ∧
      (y % 256 = 0 → res = x) ∧
      (y % 256 = 0 ∨ s = 0 → cpu' = cpu) ∧
      (s ≠ 0 → 1 ≤ y % 256 →
        cpu' = set_cpsr_c cpu (if y % 256 ≤ 32 then x / 2 ^ (32 - y % 256) % 2 else 0) ∧
        cpsr_c cpu' = (if y % 256 ≤ 32 then x / 2 ^ (32 - y % 256) % 2 else 0)) := by
  have hxlt := cpu_read_register_lt cpu _ x hx
  unfold compute_offset_operand2
  simp only [hx, hy, hty, if_pos hreg, if_neg hrs, Option.map_some', Option.bind_eq_bind,
    Option.some_bind, and_FF]
  by_cases h0 : y % 256 = 0
  · simp [h0, Nat.mod_eq_of_lt hxlt]
  · by_cases h32 : y % 256 ≥ 32
    · have hlt : ¬ y % 256 < 32 := by omega
      have hbit : b2n (decide (y % 256 = 32 ∧ x &&& 0x1 ≠ 0))
          = (if y % 256 ≤ 32 then x / 2 ^ (32 - y % 256) % 2 else 0) := by
        rw [and_1]
        by_cases e : y % 256 = 32
        · have hx2 : x % 2 = 0 ∨ x % 2 = 1 := by omega
          rcases hx2 with h | h <;> simp [e, h, b2n]
        · have : ¬ y % 256 ≤ 32 := by omega
          simp [e, this, b2n]
      simp only [if_neg h0, if_pos h32, if_neg hlt]
      refine ⟨_, _, rfl, rfl, fun h => absurd h h0, ?_, ?_⟩
      · rintro (h | h)
        · exact absurd h h0
        · simp [h]
      · intro hs _
        rw [if_pos hs, hbit]
        refine ⟨rfl, ?_⟩
        rw [cpsr_c_set_cpsr_c]
        split_ifs <;> omega
    · have hlt : y % 256 < 32 := by omega
      have hle : y % 256 ≤ 32 := by omega
      have hbit : (x >>> (32 - y % 256)) &&& 0x1 = x / 2 ^ (32 - y % 256) % 2 := by
        rw [and_1, Nat.shiftRight_eq_div_pow]
      simp only [if_neg h0, if_neg h32, if_pos hlt, if_pos hle]
      refine ⟨_, _, rfl, rfl, fun h => absurd h h0, ?_, ?_⟩
      · rintro (h | h)
        · exact absurd h h0
        · simp [h]
      · intro hs _
        rw [if_pos hs, hbit]
        refine ⟨rfl, ?_⟩
        rw [cpsr_c_set_cpsr_c]
        omega

/-- C11, witness: `R0, LSL R1` (operand 0x110) with R0 = 0x80000001 and R1 = 1 in the
start-up state. -/
theorem lsl_by_register_witness :
    ∃ res cpu', compute_offset_operand2 (cpu_write_register (cpu_write_register
        (emulator_init 0x10000 0 false false false 0).cpu 0 0x80000001) 1 1) 0x110 1
        = some (res, cpu') ∧
      res = (if 1 % 256 < 32 then (0x80000001 <<< (1 % 256)) % 4294967296 else 0) ∧
      (1 % 256 = 0 → res = 0x80000001) ∧
      (1 % 256 = 0 ∨ 1 = 0 → cpu' = cpu_write_register (cpu_write_register
        (emulator_init 0x10000 0 false false false 0).cpu 0 0x80000001) 1 1) ∧
      (1 ≠ 0 → 1 ≤ 1 % 256 →
        cpu' = set_cpsr_c (cpu_write_register (cpu_write_register
          (emulator_init 0x10000 0 false false false 0).cpu 0 0x80000001) 1 1)
          (if 1 % 256 ≤ 32 then 0x80000001 / 2 ^ (32 - 1 % 256) % 2 else 0) ∧
        cpsr_c cpu' = (if 1 % 256 ≤ 32 then 0x80000001 / 2 ^ (32 - 1 % 256) % 2 else 0)) :=
  lsl_by_register (cpu_write_register (cpu_write_register
    (emulator_init 0x10000 0 false false false 0).cpu 0 0x80000001) 1 1) 0x110 1 0x80000001 1
    (by decide) (by decide) (by decide) (by decide) (by decide)

/-! ## The register file: reads after writes -/

/-- A register that can be read reads back what is written to it (PC apart, which
reads 4 ahead). -/
theorem cpu_read_write_same (cpu : cpu_t) (reg : armReg_t) (x v : Nat)
    (h : cpu_read_register cpu reg = some x) (hpc : reg.val ≠ 15) :
    cpu_read_register (cpu_write_register cpu reg v) reg = some (v % 4294967296) := by
  have hm := cpsr_m_cpu_write_register cpu reg v
  have hr := reg.isLt
  unfold cpu_read_register
  rw [hm]
  clear hm
  unfold cpu_write_register
  by_cases h7 : reg.val ≤ 7
  · simp [h7, upd]
  by_cases h12 : reg.val ≤ 12
  · by_cases m2 : cpsr_m cpu = MODE_FIQ
    · simp [h7, h12, m2, upd]
    · simp [h7, h12, m2, upd]
  have h14 : reg.val ≤ 14 := by omega
  by_cases m1 : cpsr_m cpu = MODE_USR ∨ cpsr_m cpu = MODE_SYS
  · simp [h7, h12, h14, m1, upd]
  by_cases m2 : cpsr_m cpu = MODE_FIQ
  · simp [h7, h12, h14, m1, m2, upd]
  by_cases m3 : cpsr_m cpu = MODE_IRQ
  · simp [h7, h12, h14, m1, m2, m3, upd]
  by_cases m4 : cpsr_m cpu = MODE_SVC
  · simp [h7, h12, h14, m1, m2, m3, m4, upd]
  by_cases m5 : cpsr_m cpu = MODE_ABT
  · simp [h7, h12, h14, m1, m2, m3, m4, m5, upd]
  by_cases m6 : cpsr_m cpu = MODE_UND
  · simp [h7, h12, h14, m1, m2, m3, m4, m5, m6, upd]
  exfalso
  unfold cpu_read_register at h
  simp only [h7, h12, h14, m1, m2, m3, m4, m5, m6, ↓reduceIte] at h
  exact Option.noConfusion h

theorem cpu_write_register_r_usr (cpu : cpu_t) (reg : armReg_t) (v j : Nat)
    (h : j ≠ reg.val) (h15 : reg.val = 15 → j ≠ 15) :
    (cpu_write_register cpu reg v).r_usr j = cpu.r_usr j := by
  unfold cpu_write_register
  split_ifs
  all_goals first
    | rfl
    | (simp only [upd]; rw [if_neg h])
    | (simp only [upd]; rw [if_neg (by omega)])

theorem cpu_write_register_r_fiq (cpu : cpu_t) (reg : armReg_t) (v j : Nat)
    (h : ¬ (8 ≤ reg.val ∧ j = reg.val - 8)) :
    (cpu_write_register cpu reg v).r_fiq j = cpu.r_fiq j := by
  unfold cpu_write_register
  split_ifs
  all_goals first
    | rfl
    | (simp only [upd]; rw [if_neg (by omega)])

theorem cpu_write_register_r_banked (cpu : cpu_t) (reg : armReg_t) (v j : Nat)
    (h : ¬ (13 ≤ reg.val ∧ j = reg.val - 13)) :
    (cpu_write_register cpu reg v).r_irq j = cpu.r_irq j ∧
    (cpu_write_register cpu reg v).r_svc j = cpu.r_svc j ∧
    (cpu_write_register cpu reg v).r_abt j = cpu.r_abt j ∧
    (cpu_write_register cpu reg v).r_und j = cpu.r_und j := by
  unfold cpu_write_register
  split_ifs
  all_goals refine ⟨?_, ?_, ?_, ?_⟩
  all_goals first
    | rfl
    | (simp only [upd]; rw [if_neg (by omega)])

/-- A write to one register leaves the value read from every other register. -/
theorem cpu_read_write_other (cpu : cpu_t) (reg reg' : armReg_t) (v : Nat)
    (hne : reg'.val ≠ reg.val) :
    cpu_read_register (cpu_write_register cpu reg v) reg' = cpu_read_register cpu reg' := by
  have hm := cpsr_m_cpu_write_register cpu reg v
  have hr := reg.isLt
  have hr' := reg'.isLt
  unfold cpu_read_register
  rw [hm]
  clear hm
  by_cases h7 : reg'.val ≤ 7
  · have e1 := cpu_write_register_r_usr cpu reg v reg'.val hne (by omega)
    simp only [h7, ↓reduceIte, e1]
  by_cases h12 : reg'.val ≤ 12
  · have e1 := cpu_write_register_r_usr cpu reg v reg'.val hne (by omega)
    have e2 := cpu_write_register_r_fiq cpu reg v (reg'.val - 8) (by omega)
    simp only [h7, h12, ↓reduceIte, e1, e2]
  by_cases h14 : reg'.val ≤ 14
  · have e1 := cpu_write_register_r_usr cpu reg v reg'.val hne (by omega)
    have e2 := cpu_write_register_r_fiq cpu reg v (reg'.val - 8) (by omega)
    have e3 := cpu_write_register_r_banked cpu reg v (reg'.val - 13) (by omega)
    simp only [h7, h12, h14, ↓reduceIte, e1, e2, e3.1, e3.2.1, e3.2.2.1, e3.2.2.2]
  have e1 := cpu_write_register_r_usr cpu reg v 15 (by omega) (by omega)
  simp only [h7, h12, h14, ↓reduceIte, e1]

/-! ## CPU: SWI and the undefined-instruction trap (C13) -/

/-- C13, the code at a failing input: a SWI (0xEF000000) at address A = 0x20 of the
start-up state leaves mode SVC and the stored PC 0x08, but LR_svc = 0x28 = A + 8, not
A + 4 = 0x24; an undefined instruction (0xE6000010) at the same address leaves mode
UND and the stored PC 0x04, with LR_und = 0x28 as well. -/
theorem swi_lr_failing_input :
    (cpu_tick host_zero { emulator_init 0x10000 0x20 false false false 0 with
        data := upd (fun _ => u8 0) 0x23 (u8 0xEF) }).map
      (fun e => (cpsr_m e.cpu, (e.cpu.r_usr 15).val, (e.cpu.r_svc 1).val))
      = some (MODE_SVC, 0x08, 0x28) ∧
    (cpu_tick host_zero { emulator_init 0x10000 0x20 false false false 0 with
        data := upd (upd (fun _ => u8 0) 0x23 (u8 0xE6)) 0x20 (u8 0x10) }).map
      (fun e => (cpsr_m e.cpu, (e.cpu.r_usr 15).val, (e.cpu.r_und 1).val))
      = some (MODE_UND, 0x04, 0x28) ∧
    (0x28 : Nat) ≠ 0x20 + 4 := by
  decide

/-! ## CPU: branch and exchange (C17) -/

/-- C17, the code at a failing input: `BX R1` (0xE12FFF11) with R1 = 0x8000, whose
bit 0 is clear, is fatal; `BX R0` (0xE12FFF10) with R0 = 0x8001, whose bit 0 is set,
is not fatal and stores 0x8001 in PC. -/
theorem bx_thumb_failing_input :
    (cpu_execute host_zero
      { emulator_init 0x10000 0x20 false false false 0 with
        cpu := cpu_write_register (emulator_init 0x10000 0x20 false false false 0).cpu 1 0x8000 }
      0xE12FFF11).isNone = true ∧
    (cpu_execute host_zero
      { emulator_init 0x10000 0x20 false false false 0 with
        cpu := cpu_write_register (emulator_init 0x10000 0x20 false false false 0).cpu 0 0x8001 }
      0xE12FFF10).map (fun e => (e.cpu.r_usr 15).val) = some 0x8001 ∧
    0x8000 % 2 = 0 ∧ 0x8001 % 2 = 1 := by
  decide

/-! ## CPU: multiply long (C18) -/

/-- C18, the code at a failing input: `SMULL R2, R3, R0, R1` (0xE0C32190) with
R0 = 0xFFFFFFFF (-1) and R1 = 1: the handler `instr_multiply_long` leaves
R3:R2 = 0x00000000:0xFFFFFFFF where the signed product -1 is
0xFFFFFFFF:0xFFFFFFFF, and the decode of `cpu_execute` does not reach that handler
for a word with bit 22 set (it leaves R3:R2 = 0x10:0). -/
theorem smull_failing_input :
    (instr_multiply_long
        (cpu_write_register (cpu_write_register
          (emulator_init 0x10000 0x20 false false false 0).cpu 0 0xFFFFFFFF) 1 1) 0xE0C32190).map
      (fun c => ((c.r_usr 3).val, (c.r_usr 2).val)) = some (0x00000000, 0xFFFFFFFF) ∧
    (cpu_execute host_zero
      { emulator_init 0x10000 0x20 false false false 0 with
        cpu := cpu_write_register (cpu_write_register
          (emulator_init 0x10000 0x20 false false false 0).cpu 0 0xFFFFFFFF) 1 1 }
      0xE0C32190).map
      (fun e => ((e.cpu.r_usr 3).val, (e.cpu.r_usr 2).val)) = some (0x10, 0) ∧
    tu64 (ts32 0xFFFFFFFF * ts32 1) = 0xFFFFFFFF * 4294967296 + 0xFFFFFFFF := by
  decide

/-! ## CPU: MRS (C19) -/

/-- C19, the code at a failing input: `MRS R0, SPSR` (0xE14F0000) is fatal in the
start-up state, whose mode is SVC, and in mode USR it is not fatal and writes 0 to
R0; `MRS R0, CPSR` (0xE10F0000) writes the CPSR (0x13 at start-up). -/
theorem mrs_spsr_failing_input :
    cpsr_m (emulator_init 0x10000 0x20 false false false 0).cpu = MODE_SVC ∧
    (cpu_execute host_zero (emulator_init 0x10000 0x20 false false false 0)
      0xE14F0000).isNone = true ∧
    (cpu_execute host_zero
      { emulator_init 0x10000 0x20 false false false 0 with
        cpu := set_cpsr_m (emulator_init 0x10000 0x20 false false false 0).cpu MODE_USR }
      0xE14F0000).map (fun e => (e.cpu.r_usr 0).val) = some 0 ∧
    (cpu_execute host_zero (emulator_init 0x10000 0x20 false false false 0) 0xE10F0000).map
      (fun e => (e.cpu.r_usr 0).val) = some 0x13 := by
  decide

/-! ## CPU: MSR of the flags with an immediate (C20) -/

/-- C20, the code at a failing input: `MSR CPSR_f, #0xF0000000` (0xE328F20F: imm8 =
0x0F, rotate field 2) in the start-up state leaves the CPSR at 0x00000013, flags
0000 instead of 1111; and `MSR CPSR_f, #0` (0xE328F000) with R0 = 0xF0000000 sets
the CPSR to 0xF0000013, so the flags follow register R0. -/
theorem msr_flags_immediate_failing_input :
    (cpu_execute host_zero (emulator_init 0x10000 0x20 false false false 0) 0xE328F20F).map
      (fun e => e.cpu.cpsr.val) = some 0x00000013 ∧
    (cpu_execute host_zero
      { emulator_init 0x10000 0x20 false false false 0 with
        cpu := cpu_write_register (emulator_init 0x10000 0x20 false false false 0).cpu 0
          0xF0000000 }
      0xE328F000).map (fun e => e.cpu.cpsr.val) = some 0xF0000013 ∧
    (cpu_execute host_zero (emulator_init 0x10000 0x20 false false false 0) 0xE328F000).map
      (fun e => e.cpu.cpsr.val) = some 0x00000013 := by
  decide

/-! ## CPU: branches (C16) -/

/-- The offset computed by `instr_branch` is the sign-extended field times 4. -/
theorem branch_offset_sext (instr : Nat) :
    (if ((instr % 16777216) <<< 2) % 4294967296 &&& (1 <<< 25) ≠ 0 then
        ((instr % 16777216) <<< 2) % 4294967296 ||| 0xFC000000
      else ((instr % 16777216) <<< 2) % 4294967296)
      = tu32 (4 * sext24 (instr % 16777216)) := by
  have ho : instr % 16777216 < 16777216 := Nat.mod_lt _ (by decide)
  generalize instr % 16777216 = o at ho
  have e1 : (o <<< 2) % 4294967296 = o * 4 := by
    rw [shiftLeft_two]
    omega
  rw [e1]
  have e2 : o * 4 &&& (1 <<< 25) = ((o * 4) >>> 25 % 2 ^ 1) <<< 25 :=
    and_shifted_mask (o * 4) 25 1
  rw [e2, Nat.shiftRight_eq_div_pow, Nat.shiftLeft_eq]
  have e3 : o * 4 ||| 0xFC000000 = 0xFC000000 + o * 4 := by
    have := Nat.mul_add_lt_is_or (i := 26) (b := o * 4) (by norm_num; omega) 63
    rw [Nat.or_comm]
    norm_num at this ⊢
    omega
  rw [e3]
  unfold tu32 sext24
  have e4 : o % 16777216 = o := Nat.mod_eq_of_lt ho
  rw [e4]
  norm_num
  split_ifs <;> omega

theorem cpu_read_register_PC (cpu : cpu_t) :
    cpu_read_register cpu PC = some (((cpu.r_usr 15).val + 4) % 4294967296) := by
  unfold cpu_read_register
  simp [PC_val]

/-- The handler `instr_branch` in closed form: the stored PC `s` becomes
`s + 4 + 4 * sext24 offset`, and with the link bit LR becomes `s`. -/
theorem instr_branch_eq (cpu : cpu_t) (instr : Nat) :
    instr_branch cpu instr = some
      (if op_bit instr 24 ≠ 0 then
        cpu_write_register
          (cpu_write_register cpu PC
            (tu32 (((cpu.r_usr 15).val : Int) + 4 + 4 * sext24 (instr % 16777216))))
          LR (cpu.r_usr 15).val
      else
        cpu_write_register cpu PC
          (tu32 (((cpu.r_usr 15).val : Int) + 4 + 4 * sext24 (instr % 16777216)))) := by
  unfold instr_branch
  rw [cpu_read_register_PC]
  simp only [Option.bind_eq_bind, Option.some_bind, branch_offset_sext]
  have hs := (cpu.r_usr 15).isLt
  have e1 : (((cpu.r_usr 15).val + 4) % 4294967296 + tu32 (4 * sext24 (instr % 16777216)))
      % 4294967296 = tu32 (((cpu.r_usr 15).val : Int) + 4 + 4 * sext24 (instr % 16777216)) := by
    generalize sext24 (instr % 16777216) = k
    generalize (cpu.r_usr 15).val = s at hs
    unfold tu32
    omega
  have e2 : (((cpu.r_usr 15).val + 4) % 4294967296 + 4294967296 - 4) % 4294967296
      = (cpu.r_usr 15).val := by
    omega
  rw [e1, e2]

/-- A bit that is set in the mask and clear in the pattern is clear in every word
that matches the pattern under the mask. -/
theorem and_testBit_false (x m c i : Nat) (h : x &&& m = c) (hm : m.testBit i = true)
    (hc : c.testBit i = false) : x / 2 ^ i % 2 = 0 := by
  have h1 := congrArg (fun y => y.testBit i) h
  simp only [Nat.testBit_and, hm, hc, Bool.and_true] at h1
  rw [Nat.testBit_to_div_mod] at h1
  have h2 : ¬ (x / 2 ^ i % 2 = 1) := by simpa using h1
  omega

theorem wfi_primary (instr : Nat) (h : instr &&& 0x0fff00ff = 0x03200003) :
    (instr >>> 24) &&& 0xF < 8 := by
  have h1 := and_testBit_false instr 0x0fff00ff 0x03200003 27 h (by decide) (by decide)
  rw [and_F, Nat.shiftRight_eq_div_pow]
  norm_num at h1 ⊢
  omega

theorem upd_upd_same {α : Type} (a : Nat → α) (i : Nat) (v w : α) :
    upd (upd a i v) i w = upd a i w := by
  funext j
  unfold upd
  split_ifs <;> rfl

theorem tu32_lt (i : Int) : tu32 i < 4294967296 := by
  unfold tu32
  omega

theorem cpu_write_register_PC (cpu : cpu_t) (v : Nat) :
    cpu_write_register cpu PC v = { cpu with r_usr := upd cpu.r_usr 15 (u32 v) } := by
  unfold cpu_write_register
  simp [PC_val]

/-- The decode of `cpu_execute` sends the primary values 0xA and 0xB to
`instr_branch`. -/
theorem cpu_execute_branch (host : host_t) (emu : emulator_t) (instr : Nat)
    (h : (instr >>> 24) &&& 0xF = 0xA ∨ (instr >>> 24) &&& 0xF = 0xB) :
    cpu_execute host emu instr = on_cpu emu (instr_branch emu.cpu instr) := by
  unfold cpu_execute
  rcases h with h | h <;> simp [h]

/-- Outside the three early exits and the WFI break, `cpu_tick` is `cpu_execute` on
the state with the stored PC advanced by 4. -/
theorem cpu_tick_execute (host : host_t) (emu : emulator_t)
    (h0 : memory_read_dword_le emu (emu.cpu.r_usr 15).val ≠ 0x0)
    (hpld : memory_read_dword_le emu (emu.cpu.r_usr 15).val ≠ 0xf5d1f100)
    (hcond : check_cond emu.cpu (memory_read_dword_le emu (emu.cpu.r_usr 15).val >>> 28) = true)
    (hwfi : memory_read_dword_le emu (emu.cpu.r_usr 15).val &&& 0x0fff00ff ≠ 0x03200003) :
    cpu_tick host emu = cpu_execute host
      { emu with cpu := { emu.cpu with
        r_usr := upd emu.cpu.r_usr 15 (u32 ((emu.cpu.r_usr 15).val + 4)) } }
      (memory_read_dword_le emu (emu.cpu.r_usr 15).val) := by
  unfold cpu_tick
  have hc : check_cond { emu.cpu with
      r_usr := upd emu.cpu.r_usr 15 (u32 ((emu.cpu.r_usr 15).val + 4)) }
      (memory_read_dword_le emu (emu.cpu.r_usr 15).val >>> 28) = true := hcond
  simp only [if_neg h0, if_neg hpld, hc, if_neg hwfi, Bool.not_true, Bool.false_eq_true,
    if_false]

/-- C16: a condition-passing B or BL (primary bits 0xA or 0xB) fetched at address
`A` with offset field `o` leaves the stored PC at `(A + 8 + 4 * sext24 o) mod 2^32`.
For B nothing else changes (LR in particular); for BL in a valid mode the mode is
kept and LR of that mode reads `(A + 4) mod 2^32`. -/
theorem cpu_tick_branch (host : host_t) (emu : emulator_t)
    (hprim : (memory_read_dword_le emu (emu.cpu.r_usr 15).val >>> 24) &&& 0xF = 0xA ∨
      (memory_read_dword_le emu (emu.cpu.r_usr 15).val >>> 24) &&& 0xF = 0xB)
    (hcond : check_cond emu.cpu
      (memory_read_dword_le emu (emu.cpu.r_usr 15).val >>> 28) = true) :
    ∃ emu', cpu_tick host emu = some emu' ∧
      (emu'.cpu.r_usr 15).val = tu32 (((emu.cpu.r_usr 15).val : Int) + 8 +
        4 * sext24 (memory_read_dword_le emu (emu.cpu.r_usr 15).val % 16777216)) ∧
      ((memory_read_dword_le emu (emu.cpu.r_usr 15).val >>> 24) &&& 0xF = 0xA →
        emu' = { emu with cpu := { emu.cpu with r_usr := (upd emu.cpu.r_usr 15
          (u32 (tu32 (((emu.cpu.r_usr 15).val : Int) + 8 +
            4 * sext24 (memory_read_dword_le emu (emu.cpu.r_usr 15).val % 16777216))))) } } ∧
        cpu_read_register emu'.cpu LR = cpu_read_register emu.cpu LR) ∧
      ((memory_read_dword_le emu (emu.cpu.r_usr 15).val >>> 24) &&& 0xF = 0xB →
        valid_mode (cpsr_m emu.cpu) →
        cpsr_m emu'.cpu = cpsr_m emu.cpu ∧
        cpu_read_register emu'.cpu LR = some (((emu.cpu.r_usr 15).val + 4) % 4294967296)) := by
  have h0 : memory_read_dword_le emu (emu.cpu.r_usr 15).val ≠ 0x0 := by
    intro h
    rw [h] at hprim
    revert hprim
    decide
  have hpld : memory_read_dword_le emu (emu.cpu.r_usr 15).val ≠ 0xf5d1f100 := by
    intro h
    rw [h] at hprim
    revert hprim
    decide
  have hwfi : memory_read_dword_le emu (emu.cpu.r_usr 15).val &&& 0x0fff00ff ≠ 0x03200003 := by
    intro h
    have := wfi_primary _ h
    omega
  rw [cpu_tick_execute host emu h0 hpld hcond hwfi, cpu_execute_branch _ _ _ hprim,
    instr_branch_eq]
  generalize memory_read_dword_le emu (emu.cpu.r_usr 15).val = I at hprim
  have hA := (emu.cpu.r_usr 15).isLt
  have hbit : op_bit I 24 = (I >>> 24 &&& 0xF) % 2 := by
    unfold op_bit
    rw [and_F]
    omega
  have ht : tu32 ((((u32 ((emu.cpu.r_usr 15).val + 4)).val : Nat) : Int) + 4 +
      4 * sext24 (I % 16777216))
      = tu32 (((emu.cpu.r_usr 15).val : Int) + 8 + 4 * sext24 (I % 16777216)) := by
    rw [u32_val]
    generalize sext24 (I % 16777216) = k
    unfold tu32
    omega
  have hlt := tu32_lt (((emu.cpu.r_usr 15).val : Int) + 8 + 4 * sext24 (I % 16777216))
  unfold on_cpu
  simp only [Option.map_some']
  refine ⟨_, rfl, ?_, ?_, ?_⟩
  · dsimp only
    simp only [upd_same]
    rw [ht]
    split_ifs
    · rw [cpu_write_register_r_usr _ LR _ 15 (by decide) (by decide), cpu_write_register_PC]
      simp only [upd_same, u32_val]
      exact Nat.mod_eq_of_lt hlt
    · rw [cpu_write_register_PC]
      simp only [upd_same, u32_val]
      exact Nat.mod_eq_of_lt hlt
  · intro hb
    have hb0 : op_bit I 24 = 0 := by rw [hbit, hb]
    dsimp only
    simp only [upd_same]
    rw [ht]
    simp only [hb0, ne_eq, not_true_eq_false, if_false, cpu_write_register_PC, upd_upd_same]
    refine ⟨trivial, ?_⟩
    rw [← cpu_write_register_PC emu.cpu
      (tu32 (((emu.cpu.r_usr 15).val : Int) + 8 + 4 * sext24 (I % 16777216)))]
    exact cpu_read_write_other emu.cpu PC LR _ (by decide)
  · intro hb hv
    have hb1 : op_bit I 24 ≠ 0 := by rw [hbit, hb]; decide
    dsimp only
    simp only [upd_same]
    simp only [hb1, ne_eq, not_false_eq_true, if_true]
    refine ⟨?_, ?_⟩
    · rw [cpsr_m_cpu_write_register, cpsr_m_cpu_write_register]
      rfl
    · obtain ⟨x, hx⟩ : ∃ x, cpu_read_register (cpu_write_register
          { emu.cpu with r_usr := upd emu.cpu.r_usr 15 (u32 ((emu.cpu.r_usr 15).val + 4)) } PC
          (tu32 ((((u32 ((emu.cpu.r_usr 15).val + 4)).val : Nat) : Int) + 4 +
            4 * sext24 (I % 16777216)))) LR = some x := by
        rw [cpu_read_write_other _ PC LR _ (by decide)]
        exact ⟨_, cpu_read_register_banked _ _ LR hv rfl (Or.inr rfl)⟩
      rw [cpu_read_write_same _ LR x _ hx (by decide), u32_val]
      congr 1
      omega

/-- C16, witness: `BL` with offset field 0xFFFFFE (-2) at address 0x20 of the start-up
state (word 0xEBFFFFFE): the stored PC becomes 0x20 + 8 - 8 = 0x20 and LR_svc = 0x24. -/
theorem cpu_tick_branch_witness :
    ∃ emu', cpu_tick host_zero { emulator_init 0x10000 0x20 false false false 0 with
        data := upd (upd (upd (upd (fun _ => u8 0) 0x20 (u8 0xFE)) 0x21 (u8 0xFF))
          0x22 (u8 0xFF)) 0x23 (u8 0xEB) } = some emu' ∧
      (emu'.cpu.r_usr 15).val = 0x20 ∧ cpu_read_register emu'.cpu LR = some 0x24 := by
  obtain ⟨e, h1, h2, _, h4⟩ := cpu_tick_branch host_zero
    { emulator_init 0x10000 0x20 false false false 0 with
      data := upd (upd (upd (upd (fun _ => u8 0) 0x20 (u8 0xFE)) 0x21 (u8 0xFF))
        0x22 (u8 0xFF)) 0x23 (u8 0xEB) } (Or.inr (by decide)) (by decide)
  exact ⟨e, h1, h2.trans (by decide), (h4 (by decide) (by decide)).2.trans (by decide)⟩

/-! ## The four-word image `MOV R1,#1; MOV R2,#2; ADD R0,R1,R2; SWI` (C12) -/

/-- An aligned fetch inside SDRAM assembles the four bytes stored at the address. -/
theorem fetch_word (emu : emulator_t) (a b0 b1 b2 b3 : Nat) (ha : a % 4 = 0)
    (hl : a + 3 < emu.mem_size) (hlo : a < 1073741824)
    (h0 : emu.data a = u8 b0) (h1 : emu.data (a + 1) = u8 b1)
    (h2 : emu.data (a + 2) = u8 b2) (h3 : emu.data (a + 3) = u8 b3) :
    memory_read_dword_le emu a
      = b0 % 256 + b1 % 256 * 256 + b2 % 256 * 65536 + b3 % 256 * 16777216 := by
  rw [memory_read_dword_le_sdram emu a (by omega)]
  have e0 : a % 1073741824 - a % 4 + (a % 4 + 0) % 4 = a := by omega
  have e1 : a % 1073741824 - a % 4 + (a % 4 + 1) % 4 = a + 1 := by omega
  have e2 : a % 1073741824 - a % 4 + (a % 4 + 2) % 4 = a + 2 := by omega
  have e3 : a % 1073741824 - a % 4 + (a % 4 + 3) % 4 = a + 3 := by omega
  rw [e0, e1, e2, e3, h0, h1, h2, h3]
  simp only [u8_val]

/-- Operand 2 `R2` without shift (encoding 0x002) is the value of R2. -/
theorem compute_offset_operand2_r2 (cpu : cpu_t) (s : Nat) :
    compute_offset_operand2 cpu 0x002 s = some ((cpu.r_usr 2).val, cpu) := by
  unfold compute_offset_operand2
  have h1 : cpu_read_register cpu ⟨(0x002 &&& 0x0000000F) % 16, Nat.mod_lt _ (by decide)⟩
      = some (cpu.r_usr 2).val := cpu_read_register_low cpu _ (by decide)
  rw [h1]
  rfl

/-- The steps of `MOV R1, #1` (0xE3A01001). -/
theorem mov_r1_1_steps (cpu : cpu_t) :
    instr_single_data_processing cpu 0xE3A01001 = some (cpu_write_register cpu 1 1) := by
  unfold instr_single_data_processing
  have hn : cpu_read_register cpu (op_Rn 0xE3A01001) = some (cpu.r_usr 0).val :=
    cpu_read_register_low cpu _ (by decide)
  have hi : op_bit 0xE3A01001 25 = 1 := by decide
  have hs : op_bit 0xE3A01001 20 = 0 := by decide
  have himm : rotate_right ((0xE3A01001 % 4096) &&& 0xFF)
      ((((0xE3A01001 % 4096) >>> 8) &&& 0xF) * 2) = 1 := by decide
  have hop : (0xE3A01001 >>> 21) % 16 = 0xD := by decide
  have hrd : op_Rd 0xE3A01001 = 1 := by decide
  simp only [hn, hi, hs, himm, hop, hrd]
  rfl

/-- The steps of `MOV R2, #2` (0xE3A02002). -/
theorem mov_r2_2_steps (cpu : cpu_t) :
    instr_single_data_processing cpu 0xE3A02002 = some (cpu_write_register cpu 2 2) := by
  unfold instr_single_data_processing
  have hn : cpu_read_register cpu (op_Rn 0xE3A02002) = some (cpu.r_usr 0).val :=
    cpu_read_register_low cpu _ (by decide)
  have hi : op_bit 0xE3A02002 25 = 1 := by decide
  have hs : op_bit 0xE3A02002 20 = 0 := by decide
  have himm : rotate_right ((0xE3A02002 % 4096) &&& 0xFF)
      ((((0xE3A02002 % 4096) >>> 8) &&& 0xF) * 2) = 2 := by decide
  have hop : (0xE3A02002 >>> 21) % 16 = 0xD := by decide
  have hrd : op_Rd 0xE3A02002 = 2 := by decide
  simp only [hn, hi, hs, himm, hop, hrd]
  rfl

/-- The steps of the word 0xE0810002, which is `ADD R0, R1, R2`: the destination field
(bits 15..12) is 0 and the first operand field (bits 19..16) is 1. -/
theorem add_r0_r1_r2_steps (cpu : cpu_t) :
    instr_single_data_processing cpu 0xE0810002 = some
      (cpu_write_register cpu 0 (((cpu.r_usr 1).val + (cpu.r_usr 2).val) % 4294967296)) := by
  unfold instr_single_data_processing
  have hn : cpu_read_register cpu (op_Rn 0xE0810002) = some (cpu.r_usr 1).val :=
    cpu_read_register_low cpu _ (by decide)
  have hi : op_bit 0xE0810002 25 = 0 := by decide
  have hs : op_bit 0xE0810002 20 = 0 := by decide
  have himm : (0xE0810002 % 4096) &&& 0x00000FFF = 0x002 := by decide
  have hop : (0xE0810002 >>> 21) % 16 = 0x4 := by decide
  have hrd : op_Rd 0xE0810002 = 0 := by decide
  simp only [hn, hi, hs, himm, hop, hrd, compute_offset_operand2_r2]
  rw [← tu32_ts32_add]
  rfl

theorem u32_of_val (x : uint32_t) : u32 x.val = x :=
  Fin.ext (Nat.mod_eq_of_lt x.isLt)

/-- The handler `instr_swi` in closed form: mode SVC, LR_svc = stored PC + 4,
stored PC = 0x08, SPSR_svc = the CPSR after the mode change. -/
theorem instr_swi_eq (cpu : cpu_t) :
    instr_swi cpu = some { set_cpsr_m cpu MODE_SVC with
      r_usr := upd cpu.r_usr 15 (u32 0x08)
      r_svc := upd cpu.r_svc 1 (u32 (((cpu.r_usr 15).val + 4) % 4294967296))
      spsr_svc := (set_cpsr_m cpu MODE_SVC).cpsr } := by
  have hm : cpsr_m (set_cpsr_m cpu MODE_SVC) = MODE_SVC := cpsr_m_set_cpsr_m cpu MODE_SVC
  unfold instr_swi change_mode
  rw [if_pos (by decide)]
  simp only [Option.bind_eq_bind, Option.some_bind, cpu_read_register_PC]
  have hw : cpu_write_register (set_cpsr_m cpu MODE_SVC) LR
      (((cpu.r_usr 15).val + 4) % 4294967296)
      = { set_cpsr_m cpu MODE_SVC with
          r_svc := upd cpu.r_svc 1 (u32 (((cpu.r_usr 15).val + 4) % 4294967296)) } := by
    unfold cpu_write_register
    rw [hm]
    simp [LR_val]
    rfl
  have e : ((set_cpsr_m cpu MODE_SVC).r_usr 15).val = (cpu.r_usr 15).val := rfl
  rw [e, hw, cpu_write_register_PC]
  unfold write_spsr
  have hm2 : cpsr_m { ({ set_cpsr_m cpu MODE_SVC with
      r_svc := upd cpu.r_svc 1 (u32 (((cpu.r_usr 15).val + 4) % 4294967296)) } : cpu_t) with
      r_usr := upd (set_cpsr_m cpu MODE_SVC).r_usr 15 (u32 0x08) } = MODE_SVC := hm
  simp only [hm2, if_true]
  rw [u32_of_val]
  rfl

/-- A tick on a fetched word `W` that passes the early exits is `cpu_execute` on
the state with the stored PC advanced. -/
theorem cpu_tick_word (host : host_t) (emu : emulator_t) (W : Nat)
    (hW : memory_read_dword_le emu (emu.cpu.r_usr 15).val = W)
    (h0 : W ≠ 0x0) (hpld : W ≠ 0xf5d1f100) (hcond : check_cond emu.cpu (W >>> 28) = true)
    (hwfi : W &&& 0x0fff00ff ≠ 0x03200003) :
    cpu_tick host emu = cpu_execute host
      { emu with cpu := { emu.cpu with
        r_usr := upd emu.cpu.r_usr 15 (u32 ((emu.cpu.r_usr 15).val + 4)) } } W := by
  subst hW
  exact cpu_tick_execute host emu h0 hpld hcond hwfi

/-- A tick on `MOV R1, #1`. -/
theorem cpu_tick_mov_r1_1 (host : host_t) (emu : emulator_t)
    (hW : memory_read_dword_le emu (emu.cpu.r_usr 15).val = 0xE3A01001) :
    cpu_tick host emu = some { emu with cpu := { emu.cpu with
      r_usr := upd (upd emu.cpu.r_usr 15 (u32 ((emu.cpu.r_usr 15).val + 4))) 1 (u32 1) } } := by
  rw [cpu_tick_word host emu _ hW (by decide) (by decide) rfl (by decide)]
  have hd : ∀ e : emulator_t, cpu_execute host e 0xE3A01001
      = on_cpu e (instr_single_data_processing e.cpu 0xE3A01001) := by
    intro e
    rfl
  rw [hd, mov_r1_1_steps, cpu_write_register_low _ _ _ (by decide)]
  rfl

/-- A tick on `MOV R2, #2`. -/
theorem cpu_tick_mov_r2_2 (host : host_t) (emu : emulator_t)
    (hW : memory_read_dword_le emu (emu.cpu.r_usr 15).val = 0xE3A02002) :
    cpu_tick host emu = some { emu with cpu := { emu.cpu with
      r_usr := upd (upd emu.cpu.r_usr 15 (u32 ((emu.cpu.r_usr 15).val + 4))) 2 (u32 2) } } := by
  rw [cpu_tick_word host emu _ hW (by decide) (by decide) rfl (by decide)]
  have hd : ∀ e : emulator_t, cpu_execute host e 0xE3A02002
      = on_cpu e (instr_single_data_processing e.cpu 0xE3A02002) := by
    intro e
    rfl
  rw [hd, mov_r2_2_steps, cpu_write_register_low _ _ _ (by decide)]
  rfl

/-- A tick on the word 0xE0810002 (`ADD R0, R1, R2`). -/
theorem cpu_tick_add_r0_r1_r2 (host : host_t) (emu : emulator_t)
    (hW : memory_read_dword_le emu (emu.cpu.r_usr 15).val = 0xE0810002) :
    cpu_tick host emu = some { emu with cpu := { emu.cpu with
      r_usr := upd (upd emu.cpu.r_usr 15 (u32 ((emu.cpu.r_usr 15).val + 4))) 0
        (u32 (((emu.cpu.r_usr 1).val + (emu.cpu.r_usr 2).val) % 4294967296)) } } := by
  rw [cpu_tick_word host emu _ hW (by decide) (by decide) rfl (by decide)]
  have hd : ∀ e : emulator_t, cpu_execute host e 0xE0810002
      = on_cpu e (instr_single_data_processing e.cpu 0xE0810002) := by
    intro e
    rfl
  rw [hd, add_r0_r1_r2_steps, cpu_write_register_low _ _ _ (by decide)]
  rfl

/-- A tick on `SWI` (0xEF000000): mode SVC, stored PC 0x08, LR_svc = address of the
SWI + 8. -/
theorem cpu_tick_swi (host : host_t) (emu : emulator_t)
    (hW : memory_read_dword_le emu (emu.cpu.r_usr 15).val = 0xEF000000) :
    cpu_tick host emu = some { emu with cpu := { set_cpsr_m emu.cpu MODE_SVC with
      r_usr := upd emu.cpu.r_usr 15 (u32 0x08)
      r_svc := upd emu.cpu.r_svc 1
        (u32 (((u32 ((emu.cpu.r_usr 15).val + 4)).val + 4) % 4294967296))
      spsr_svc := (set_cpsr_m emu.cpu MODE_SVC).cpsr } } := by
  rw [cpu_tick_word host emu _ hW (by decide) (by decide) rfl (by decide)]
  have hd : ∀ e : emulator_t, cpu_execute host e 0xEF000000 = on_cpu e (instr_swi e.cpu) := by
    intro e
    rfl
  rw [hd, instr_swi_eq]
  unfold on_cpu
  simp only [Option.map_some', upd_same, upd_upd_same]
  rfl

/-- A tick on the word 0 sets the terminated flag. -/
theorem cpu_tick_zero (host : host_t) (emu : emulator_t)
    (hW : memory_read_dword_le emu (emu.cpu.r_usr 15).val = 0x0) :
    ∃ emu', cpu_tick host emu = some emu' ∧ emu'.terminated = true := by
  unfold cpu_tick
  simp only [hW, if_true]
  exact ⟨_, rfl, rfl⟩

/-- The image `E3A01001 E3A02002 E0810002 EF000000` loaded at a word-aligned
`start_addr = A ≥ 12` inside SDRAM: the load succeeds, four ticks succeed, and then
R0 = 3, R1 = 1, R2 = 2, R3 = 0, the mode is SVC, the stored PC is 0x08, LR_svc is
`A + 0x14`, the word at 0x08 is zero and a fifth tick sets the terminated flag. -/
theorem image_run_steps (host : host_t) (mem_size A : Nat) (g q n : Bool) (t : Nat)
    (hal : A % 4 = 0) (h12 : 12 ≤ A) (hfit : A + 16 ≤ mem_size)
    (hlow : A + 16 ≤ 1073741824) :
    ∃ e0 e1 e2 e3 e4 e5,
      emulator_load (emulator_init mem_size A g q n t)
        (words_le [0xE3A01001, 0xE3A02002, 0xE0810002, 0xEF000000]) = some e0 ∧
      cpu_tick host e0 = some e1 ∧ cpu_tick host e1 = some e2 ∧
      cpu_tick host e2 = some e3 ∧ cpu_tick host e3 = some e4 ∧
      (e4.cpu.r_usr 0).val = 3 ∧ (e4.cpu.r_usr 1).val = 1 ∧ (e4.cpu.r_usr 2).val = 2 ∧
      (e4.cpu.r_usr 3).val = 0 ∧ cpsr_m e4.cpu = MODE_SVC ∧ (e4.cpu.r_usr 15).val = 0x08 ∧
      (e4.cpu.r_svc 1).val = A + 0x14 ∧ e4.terminated = false ∧
      memory_read_dword_le e4 0x08 = 0 ∧
      cpu_tick host e4 = some e5 ∧ e5.terminated = true := by
  have hsa : (u32 A).val = A := by
    rw [u32_val]
    omega
  have hload : emulator_load (emulator_init mem_size A g q n t)
      (words_le [0xE3A01001, 0xE3A02002, 0xE0810002, 0xEF000000])
      = some { emulator_init mem_size A g q n t with data := (fun a =>
          if A ≤ a ∧ a < A + 16 then
            u8 ((words_le [0xE3A01001, 0xE3A02002, 0xE0810002, 0xEF000000]).getD (a - A) 0)
          else u8 0) } := by
    unfold emulator_load
    have hl : (words_le [0xE3A01001, 0xE3A02002, 0xE0810002, 0xEF000000]).length = 16 := rfl
    have hs : (emulator_init mem_size A g q n t).start_addr.val = A := hsa
    have hms : (emulator_init mem_size A g q n t).mem_size = mem_size := rfl
    rw [hl, hs, hms, if_neg (by omega)]
    rfl
  generalize he0 : ({ emulator_init mem_size A g q n t with data := (fun a =>
          if A ≤ a ∧ a < A + 16 then
            u8 ((words_le [0xE3A01001, 0xE3A02002, 0xE0810002, 0xEF000000]).getD (a - A) 0)
          else u8 0) } : emulator_t) = e0 at hload
  have hdata : ∀ k, k < 16 → e0.data (A + k)
      = u8 ((words_le [0xE3A01001, 0xE3A02002, 0xE0810002, 0xEF000000]).getD k 0) := by
    intro k hk
    subst he0
    have hc : A ≤ A + k ∧ A + k < A + 16 := ⟨by omega, by omega⟩
    show (if A ≤ A + k ∧ A + k < A + 16 then _ else _) = _
    rw [if_pos hc, Nat.add_sub_cancel_left]
  have hzero : ∀ a, a < 12 → e0.data a = u8 0 := by
    intro a ha
    subst he0
    show (if A ≤ a ∧ a < A + 16 then _ else _) = _
    rw [if_neg (by omega)]
  have hms : e0.mem_size = mem_size := by
    subst he0
    rfl
  have hpc0 : (e0.cpu.r_usr 15).val = A := by
    subst he0
    exact hsa
  have hr0 : ∀ j, j ≠ 15 → e0.cpu.r_usr j = u32 0 := by
    intro j hj
    subst he0
    show upd (fun _ => u32 0) 15 (u32 A) j = u32 0
    rw [upd_other _ _ _ _ hj]
  have hcpsr : e0.cpu.cpsr = u32 0x13 := by
    subst he0
    rfl
  have hterm : e0.terminated = false := by
    subst he0
    rfl
  have hfetch : ∀ (c : cpu_t) (k w : Nat), k < 4 →
      w = [0xE3A01001, 0xE3A02002, 0xE0810002, 0xEF000000].getD k 0 →
      memory_read_dword_le { e0 with cpu := c } (A + 4 * k) = w := by
    intro c k w hk hw
    have h0 := hdata (4 * k) (by omega)
    have h1 := hdata (4 * k + 1) (by omega)
    have h2 := hdata (4 * k + 2) (by omega)
    have h3 := hdata (4 * k + 3) (by omega)
    rw [fetch_word { e0 with cpu := c } (A + 4 * k) _ _ _ _ (by omega)
      (by show A + 4 * k + 3 < e0.mem_size; rw [hms]; omega) (by omega) h0 h1 h2 h3, hw]
    have hk4 : k = 0 ∨ k = 1 ∨ k = 2 ∨ k = 3 := by omega
    rcases hk4 with h | h | h | h <;> subst h <;> rfl
  have hfetch8 : ∀ c : cpu_t, memory_read_dword_le { e0 with cpu := c } 0x08 = 0 := by
    intro c
    rw [fetch_word { e0 with cpu := c } 0x08 0 0 0 0 (by decide)
      (by show 8 + 3 < e0.mem_size; rw [hms]; omega) (by decide) (hzero 8 (by decide))
      (hzero 9 (by decide)) (hzero 10 (by decide)) (hzero 11 (by decide))]
  -- first tick
  have hW0 : memory_read_dword_le e0 (e0.cpu.r_usr 15).val = 0xE3A01001 := by
    rw [hpc0]
    exact hfetch e0.cpu 0 _ (by decide) rfl
  have T0 := cpu_tick_mov_r1_1 host e0 hW0
  rw [hpc0] at T0
  obtain ⟨c1, hc1⟩ : ∃ c : cpu_t, c = { e0.cpu with
      r_usr := upd (upd e0.cpu.r_usr 15 (u32 (A + 4))) 1 (u32 1) } := ⟨_, rfl⟩
  rw [← hc1] at T0
  have c1_pc : (c1.r_usr 15).val = A + 4 := by
    rw [hc1]
    show (upd (upd e0.cpu.r_usr 15 (u32 (A + 4))) 1 (u32 1) 15).val = A + 4
    rw [upd_other _ _ _ _ (by decide), upd_same, u32_val]
    omega
  have c1_r1 : c1.r_usr 1 = u32 1 := by
    rw [hc1]
    show upd (upd e0.cpu.r_usr 15 (u32 (A + 4))) 1 (u32 1) 1 = u32 1
    exact upd_same _ _ _
  have c1_r : ∀ j, j ≠ 15 → j ≠ 1 → c1.r_usr j = u32 0 := by
    intro j h15 h1
    rw [hc1]
    show upd (upd e0.cpu.r_usr 15 (u32 (A + 4))) 1 (u32 1) j = u32 0
    rw [upd_other _ _ _ _ h1, upd_other _ _ _ _ h15, hr0 j h15]
  have c1_cpsr : c1.cpsr = u32 0x13 := by
    rw [hc1]
    exact hcpsr
  -- second tick
  have hW1 : memory_read_dword_le { e0 with cpu := c1 }
      (({ e0 with cpu := c1 } : emulator_t).cpu.r_usr 15).val = 0xE3A02002 := by
    show memory_read_dword_le { e0 with cpu := c1 } (c1.r_usr 15).val = 0xE3A02002
    rw [c1_pc]
    exact hfetch c1 1 _ (by decide) rfl
  have T1 := cpu_tick_mov_r2_2 host { e0 with cpu := c1 } hW1
  obtain ⟨c2, hc2⟩ : ∃ c : cpu_t, c = { c1 with
      r_usr := upd (upd c1.r_usr 15 (u32 ((c1.r_usr 15).val + 4))) 2 (u32 2) } := ⟨_, rfl⟩
  have T1b : cpu_tick host { e0 with cpu := c1 } = some { e0 with cpu := c2 } := by
    rw [T1, hc2]
  have c2_pc : (c2.r_usr 15).val = A + 8 := by
    rw [hc2]
    show (upd (upd c1.r_usr 15 (u32 ((c1.r_usr 15).val + 4))) 2 (u32 2) 15).val = A + 8
    rw [upd_other _ _ _ _ (by decide), upd_same, u32_val, c1_pc]
    omega
  have c2_r1 : c2.r_usr 1 = u32 1 := by
    rw [hc2]
    show upd (upd c1.r_usr 15 (u32 ((c1.r_usr 15).val + 4))) 2 (u32 2) 1 = u32 1
    rw [upd_other _ _ _ _ (by decide), upd_other _ _ _ _ (by decide), c1_r1]
  have c2_r2 : c2.r_usr 2 = u32 2 := by
    rw [hc2]
    show upd (upd c1.r_usr 15 (u32 ((c1.r_usr 15).val + 4))) 2 (u32 2) 2 = u32 2
    exact upd_same _ _ _
  have c2_r : ∀ j, j ≠ 15 → j ≠ 1 → j ≠ 2 → c2.r_usr j = u32 0 := by
    intro j h15 h1 h2
    rw [hc2]
    show upd (upd c1.r_usr 15 (u32 ((c1.r_usr 15).val + 4))) 2 (u32 2) j = u32 0
    rw [upd_other _ _ _ _ h2, upd_other _ _ _ _ h15, c1_r j h15 h1]
  have c2_cpsr : c2.cpsr = u32 0x13 := by
    rw [hc2]
    exact c1_cpsr
  -- third tick
  have hW2 : memory_read_dword_le { e0 with cpu := c2 }
      (({ e0 with cpu := c2 } : emulator_t).cpu.r_usr 15).val = 0xE0810002 := by
    show memory_read_dword_le { e0 with cpu := c2 } (c2.r_usr 15).val = 0xE0810002
    rw [c2_pc]
    exact hfetch c2 2 _ (by decide) rfl
  have T2 := cpu_tick_add_r0_r1_r2 host { e0 with cpu := c2 } hW2
  obtain ⟨c3, hc3⟩ : ∃ c : cpu_t, c = { c2 with
      r_usr := upd (upd c2.r_usr 15 (u32 ((c2.r_usr 15).val + 4))) 0
        (u32 (((c2.r_usr 1).val + (c2.r_usr 2).val) % 4294967296)) } := ⟨_, rfl⟩
  have T2b : cpu_tick host { e0 with cpu := c2 } = some { e0 with cpu := c3 } := by
    rw [T2, hc3]
  have c3_pc : (c3.r_usr 15).val = A + 12 := by
    rw [hc3]
    show (upd (upd c2.r_usr 15 (u32 ((c2.r_usr 15).val + 4))) 0
      (u32 (((c2.r_usr 1).val + (c2.r_usr 2).val) % 4294967296)) 15).val = A + 12
    rw [upd_other _ _ _ _ (by decide), upd_same, u32_val, c2_pc]
    omega
  have c3_r0 : c3.r_usr 0 = u32 3 := by
    rw [hc3]
    show upd (upd c2.r_usr 15 (u32 ((c2.r_usr 15).val + 4))) 0
      (u32 (((c2.r_usr 1).val + (c2.r_usr 2).val) % 4294967296)) 0 = u32 3
    rw [upd_same, c2_r1, c2_r2]
    rfl
  have c3_r1 : c3.r_usr 1 = u32 1 := by
    rw [hc3]
    show upd (upd c2.r_usr 15 (u32 ((c2.r_usr 15).val + 4))) 0
      (u32 (((c2.r_usr 1).val + (c2.r_usr 2).val) % 4294967296)) 1 = u32 1
    rw [upd_other _ _ _ _ (by decide), upd_other _ _ _ _ (by decide), c2_r1]
  have c3_r2 : c3.r_usr 2 = u32 2 := by
    rw [hc3]
    show upd (upd c2.r_usr 15 (u32 ((c2.r_usr 15).val + 4))) 0
      (u32 (((c2.r_usr 1).val + (c2.r_usr 2).val) % 4294967296)) 2 = u32 2
    rw [upd_other _ _ _ _ (by decide), upd_other _ _ _ _ (by decide), c2_r2]
  have c3_r3 : c3.r_usr 3 = u32 0 := by
    rw [hc3]
    show upd (upd c2.r_usr 15 (u32 ((c2.r_usr 15).val + 4))) 0
      (u32 (((c2.r_usr 1).val + (c2.r_usr 2).val) % 4294967296)) 3 = u32 0
    rw [upd_other _ _ _ _ (by decide), upd_other _ _ _ _ (by decide),
      c2_r 3 (by decide) (by decide) (by decide)]
  -- fourth tick
  have hW3 : memory_read_dword_le { e0 with cpu := c3 }
      (({ e0 with cpu := c3 } : emulator_t).cpu.r_usr 15).val = 0xEF000000 := by
    show memory_read_dword_le { e0 with cpu := c3 } (c3.r_usr 15).val = 0xEF000000
    rw [c3_pc]
    exact hfetch c3 3 _ (by decide) rfl
  have T3 := cpu_tick_swi host { e0 with cpu := c3 } hW3
  obtain ⟨c4, hc4⟩ : ∃ c : cpu_t, c = { set_cpsr_m c3 MODE_SVC with
      r_usr := upd c3.r_usr 15 (u32 0x08)
      r_svc := upd c3.r_svc 1 (u32 (((u32 ((c3.r_usr 15).val + 4)).val + 4) % 4294967296))
      spsr_svc := (set_cpsr_m c3 MODE_SVC).cpsr } := ⟨_, rfl⟩
  have T3b : cpu_tick host { e0 with cpu := c3 } = some { e0 with cpu := c4 } := by
    rw [T3, hc4]
  have c4_m : cpsr_m c4 = MODE_SVC := by
    rw [hc4]
    exact cpsr_m_set_cpsr_m c3 MODE_SVC
  have c4_pc : (c4.r_usr 15).val = 0x08 := by
    rw [hc4]
    show (upd c3.r_usr 15 (u32 0x08) 15).val = 0x08
    rw [upd_same]
    rfl
  have c4_r : ∀ j, j ≠ 15 → c4.r_usr j = c3.r_usr j := by
    intro j hj
    rw [hc4]
    exact upd_other _ _ _ _ hj
  have c4_lr : (c4.r_svc 1).val = A + 0x14 := by
    rw [hc4]
    show (upd c3.r_svc 1
      (u32 (((u32 ((c3.r_usr 15).val + 4)).val + 4) % 4294967296)) 1).val = A + 0x14
    simp only [upd_same, u32_val, c3_pc]
    omega
  -- fifth tick
  have hW4 : memory_read_dword_le { e0 with cpu := c4 }
      (({ e0 with cpu := c4 } : emulator_t).cpu.r_usr 15).val = 0x0 := by
    show memory_read_dword_le { e0 with cpu := c4 } (c4.r_usr 15).val = 0x0
    rw [c4_pc]
    exact hfetch8 c4
  obtain ⟨e5, T4, h5⟩ := cpu_tick_zero host { e0 with cpu := c4 } hW4
  refine ⟨e0, { e0 with cpu := c1 }, { e0 with cpu := c2 }, { e0 with cpu := c3 },
    { e0 with cpu := c4 }, e5, hload, T0, T1b, T2b, T3b, ?_, ?_, ?_, ?_, c4_m, c4_pc, c4_lr,
    hterm, ?_, T4, h5⟩
  · show (c4.r_usr 0).val = 3
    rw [c4_r 0 (by decide), c3_r0]
    rfl
  · show (c4.r_usr 1).val = 1
    rw [c4_r 1 (by decide), c3_r1]
    rfl
  · show (c4.r_usr 2).val = 2
    rw [c4_r 2 (by decide), c3_r2]
    rfl
  · show (c4.r_usr 3).val = 0
    rw [c4_r 3 (by decide), c3_r3]
    rfl
  · rw [← c4_pc]
    exact hW4
/-- C12 (amended): with the image `E3A01001 E3A02002 E0810002 EF000000` loaded at a
word-aligned `start_addr = A ≥ 12` inside SDRAM (so that the word at 0x08 stays
zero), the load and four ticks succeed from the start-up state; then R1 = 1, R2 = 2,
R0 = 3 (the destination of the third word is R0), the mode is SVC and the stored PC is
0x08; the next tick fetches zero at 0x08 and sets the terminated flag. -/
theorem image_run (host : host_t) (mem_size A : Nat) (g q n : Bool) (t : Nat)
    (hal : A % 4 = 0) (h12 : 12 ≤ A) (hfit : A + 16 ≤ mem_size)
    (hlow : A + 16 ≤ 1073741824) :
    ∃ e0 e1 e2 e3 e4 e5,
      emulator_load (emulator_init mem_size A g q n t)
        (words_le [0xE3A01001, 0xE3A02002, 0xE0810002, 0xEF000000]) = some e0 ∧
      cpu_tick host e0 = some e1 ∧ cpu_tick host e1 = some e2 ∧
      cpu_tick host e2 = some e3 ∧ cpu_tick host e3 = some e4 ∧
      cpu_read_register e4.cpu 1 = some 1 ∧ cpu_read_register e4.cpu 2 = some 2 ∧
      cpu_read_register e4.cpu 0 = some 3 ∧
      cpsr_m e4.cpu = MODE_SVC ∧ (e4.cpu.r_usr 15).val = 0x08 ∧ e4.terminated = false ∧
      memory_read_dword_le e4 0x08 = 0 ∧
      cpu_tick host e4 = some e5 ∧ e5.terminated = true := by
  obtain ⟨e0, e1, e2, e3, e4, e5, h0, h1, h2, h3, h4, r0, r1, r2, _, hm, hpc, _, ht, hz, h5, ht5⟩ :=
    image_run_steps host mem_size A g q n t hal h12 hfit hlow
  refine ⟨e0, e1, e2, e3, e4, e5, h0, h1, h2, h3, h4, ?_, ?_, ?_, hm, hpc, ht, hz, h5, ht5⟩
  · rw [cpu_read_register_low _ _ (by decide)]
    exact congrArg some r1
  · rw [cpu_read_register_low _ _ (by decide)]
    exact congrArg some r2
  · rw [cpu_read_register_low _ _ (by decide)]
    exact congrArg some r0

/-- C12, witness: the image at `start_addr = 0x8000` in 64 KiB of memory. -/
theorem image_run_witness :
    ∃ e0 e1 e2 e3 e4 e5,
      emulator_load (emulator_init 0x10000 0x8000 false false false 0)
        (words_le [0xE3A01001, 0xE3A02002, 0xE0810002, 0xEF000000]) = some e0 ∧
      cpu_tick host_zero e0 = some e1 ∧ cpu_tick host_zero e1 = some e2 ∧
      cpu_tick host_zero e2 = some e3 ∧ cpu_tick host_zero e3 = some e4 ∧
      cpu_read_register e4.cpu 1 = some 1 ∧ cpu_read_register e4.cpu 2 = some 2 ∧
      cpu_read_register e4.cpu 0 = some 3 ∧
      cpsr_m e4.cpu = MODE_SVC ∧ (e4.cpu.r_usr 15).val = 0x08 ∧ e4.terminated = false ∧
      memory_read_dword_le e4 0x08 = 0 ∧
      cpu_tick host_zero e4 = some e5 ∧ e5.terminated = true :=
  image_run host_zero 0x10000 0x8000 false false false 0 (by decide) (by decide) (by decide)
    (by decide)

/-- C12, counterexample: with the image at `start_addr = 0x8000` in 64 KiB of memory,
after the four ticks R3 = 0 (not 3; the sum is in R0) and LR_svc = 0x8014 (the word
following the SWI is at 0x8010). -/
theorem image_run_r3_fails :
    (((((emulator_load (emulator_init 0x10000 0x8000 false false false 0)
        (words_le [0xE3A01001, 0xE3A02002, 0xE0810002, 0xEF000000])).bind
      (cpu_tick host_zero)).bind (cpu_tick host_zero)).bind (cpu_tick host_zero)).bind
      (cpu_tick host_zero)).map
      (fun e => ((e.cpu.r_usr 3).val, (e.cpu.r_usr 0).val, (e.cpu.r_svc 1).val))
      = some (0, 3, 0x8014) ∧
    (0 : Nat) ≠ 3 ∧ (0x8014 : Nat) ≠ 0x8000 + 16 := by
  decide

/-! ## CPU: single data transfer with an immediate offset (C15) -/

theorem and_FFF (x : Nat) : x &&& 0x00000FFF = x % 4096 :=
  Nat.and_pow_two_sub_one_eq_mod x 12

theorem spec_moved_base_lt (instr r : Nat) : spec_moved_base instr r < 4294967296 := by
  unfold spec_moved_base
  split_ifs <;> exact Nat.mod_lt _ (by decide)

/-- Loads of `instr_single_data_trans` with an immediate offset. -/
theorem single_data_trans_load (emu : emulator_t) (instr r x : Nat)
    (hi : op_bit instr 25 = 0) (hl : op_bit instr 20 ≠ 0)
    (hrn : (op_Rn instr).val ≠ 15) (hne : (op_Rd instr).val ≠ (op_Rn instr).val)
    (hr : cpu_read_register emu.cpu (op_Rn instr) = some r)
    (hx : cpu_read_register emu.cpu (op_Rd instr) = some x) :
    ∃ emu', instr_single_data_trans emu instr = some emu' ∧
      emu'.data = emu.data ∧
      cpu_read_register emu'.cpu (op_Rn instr) = some
        (if op_bit instr 21 ≠ 0 ∨ op_bit instr 24 = 0 then spec_moved_base instr r else r) ∧
      ((op_Rd instr).val ≠ 15 → cpu_read_register emu'.cpu (op_Rd instr) = some
        ((if op_bit instr 22 ≠ 0 then memory_read_byte emu (spec_transfer_address instr r)
          else memory_read_dword_le emu (spec_transfer_address instr r)) % 4294967296)) := by
  have hrlt := cpu_read_register_lt _ _ _ hr
  have hmlt := spec_moved_base_lt instr r
  unfold instr_single_data_trans
  rw [hr]
  simp only [Option.bind_eq_bind, Option.some_bind]
  rw [if_neg (by rw [hi]; decide), if_pos hl]
  have ea : (if op_bit instr 24 ≠ 0 then
      if op_bit instr 23 ≠ 0 then (r + (instr % 4096 &&& 0x00000FFF)) % 4294967296
      else (r + 4294967296 - (instr % 4096 &&& 0x00000FFF)) % 4294967296
    else r) = spec_transfer_address instr r := by
    unfold spec_transfer_address spec_moved_base
    rw [and_FFF, Nat.mod_mod]
  have em : (if op_bit instr 23 ≠ 0 then (r + (instr % 4096 &&& 0x00000FFF)) % 4294967296
      else (r + 4294967296 - (instr % 4096 &&& 0x00000FFF)) % 4294967296)
      = spec_moved_base instr r := by
    unfold spec_moved_base
    rw [and_FFF, Nat.mod_mod]
  rw [ea, em]
  have hother : ∀ v, cpu_read_register (cpu_write_register emu.cpu (op_Rd instr) v) (op_Rn instr)
      = some r := by
    intro v
    rw [cpu_read_write_other _ _ _ _ (Ne.symm hne), hr]
  by_cases hb : op_bit instr 22 ≠ 0
  · rw [if_pos hb, if_pos hb]
    by_cases hw : op_bit instr 21 ≠ 0 ∨ op_bit instr 24 = 0
    · rw [if_pos hw, if_neg hrn, if_pos hw]
      refine ⟨_, rfl, rfl, ?_, ?_⟩
      · show cpu_read_register (cpu_write_register (cpu_write_register emu.cpu (op_Rd instr) _)
          (op_Rn instr) _) (op_Rn instr) = _
        rw [cpu_read_write_same _ _ r _ (hother _) hrn, Nat.mod_eq_of_lt hmlt]
      · intro hd
        show cpu_read_register (cpu_write_register (cpu_write_register emu.cpu (op_Rd instr) _)
          (op_Rn instr) _) (op_Rd instr) = _
        rw [cpu_read_write_other _ _ _ _ hne, cpu_read_write_same _ _ x _ hx hd]
    · rw [if_neg hw, if_neg hw]
      refine ⟨_, rfl, rfl, ?_, ?_⟩
      · exact hother _
      · intro hd
        show cpu_read_register (cpu_write_register emu.cpu (op_Rd instr) _) (op_Rd instr) = _
        rw [cpu_read_write_same _ _ x _ hx hd]
  · rw [if_neg hb, if_neg hb]
    by_cases hw : op_bit instr 21 ≠ 0 ∨ op_bit instr 24 = 0
    · rw [if_pos hw, if_neg hrn, if_pos hw]
      refine ⟨_, rfl, rfl, ?_, ?_⟩
      · show cpu_read_register (cpu_write_register (cpu_write_register emu.cpu (op_Rd instr) _)
          (op_Rn instr) _) (op_Rn instr) = _
        rw [cpu_read_write_same _ _ r _ (hother _) hrn, Nat.mod_eq_of_lt hmlt]
      · intro hd
        show cpu_read_register (cpu_write_register (cpu_write_register emu.cpu (op_Rd instr) _)
          (op_Rn instr) _) (op_Rd instr) = _
        rw [cpu_read_write_other _ _ _ _ hne, cpu_read_write_same _ _ x _ hx hd]
    · rw [if_neg hw, if_neg hw]
      refine ⟨_, rfl, rfl, ?_, ?_⟩
      · exact hother _
      · intro hd
        show cpu_read_register (cpu_write_register emu.cpu (op_Rd instr) _) (op_Rd instr) = _
        rw [cpu_read_write_same _ _ x _ hx hd]

/-- Stores of `instr_single_data_trans` with an immediate offset: the state after the
memory write `w` (word or byte), followed by the write-back. -/
theorem single_data_trans_store (emu : emulator_t) (instr r v : Nat)
    (hi : op_bit instr 25 = 0) (hs : op_bit instr 20 = 0)
    (hrn : (op_Rn instr).val ≠ 15)
    (hr : cpu_read_register emu.cpu (op_Rn instr) = some r)
    (hv : cpu_read_register emu.cpu (op_Rd instr) = some v)
    (emu1 : emulator_t) (hc : emu1.cpu = emu.cpu)
    (hw : (if op_bit instr 22 ≠ 0 then
        some (memory_write_byte emu (spec_transfer_address instr r) v)
      else memory_write_dword_le emu (spec_transfer_address instr r) v) = some emu1) :
    ∃ emu', instr_single_data_trans emu instr = some emu' ∧
      emu'.data = emu1.data ∧
      cpu_read_register emu'.cpu (op_Rn instr) = some
        (if op_bit instr 21 ≠ 0 ∨ op_bit instr 24 = 0 then spec_moved_base instr r else r) := by
  have hmlt := spec_moved_base_lt instr r
  unfold instr_single_data_trans
  rw [hr]
  simp only [Option.bind_eq_bind, Option.some_bind]
  rw [if_neg (by rw [hi]; decide), if_neg (by rw [hs]; decide), hv]
  simp only [Option.some_bind]
  have ea : (if op_bit instr 24 ≠ 0 then
      if op_bit instr 23 ≠ 0 then (r + (instr % 4096 &&& 0x00000FFF)) % 4294967296
      else (r + 4294967296 - (instr % 4096 &&& 0x00000FFF)) % 4294967296
    else r) = spec_transfer_address instr r := by
    unfold spec_transfer_address spec_moved_base
    rw [and_FFF, Nat.mod_mod]
  have em : (if op_bit instr 23 ≠ 0 then (r + (instr % 4096 &&& 0x00000FFF)) % 4294967296
      else (r + 4294967296 - (instr % 4096 &&& 0x00000FFF)) % 4294967296)
      = spec_moved_base instr r := by
    unfold spec_moved_base
    rw [and_FFF, Nat.mod_mod]
  rw [ea, em]
  have hr1 : cpu_read_register emu1.cpu (op_Rn instr) = some r := by rw [hc, hr]
  by_cases hb : op_bit instr 22 ≠ 0
  · rw [if_pos hb] at hw ⊢
    have h1 := Option.some.inj hw
    by_cases hwb : op_bit instr 21 ≠ 0 ∨ op_bit instr 24 = 0
    · rw [if_pos hwb, if_neg hrn, if_pos hwb, h1]
      refine ⟨_, rfl, rfl, ?_⟩
      show cpu_read_register (cpu_write_register emu1.cpu (op_Rn instr) _) (op_Rn instr) = _
      rw [cpu_read_write_same _ _ r _ hr1 hrn, Nat.mod_eq_of_lt hmlt]
    · rw [if_neg hwb, if_neg hwb, h1]
      exact ⟨_, rfl, rfl, hr1⟩
  · rw [if_neg hb] at hw ⊢
    have e : ({ emu with cpu := emu.cpu } : emulator_t) = emu := rfl
    rw [e, hw]
    simp only [Option.some_bind]
    by_cases hwb : op_bit instr 21 ≠ 0 ∨ op_bit instr 24 = 0
    · rw [if_pos hwb, if_neg hrn, if_pos hwb]
      refine ⟨_, rfl, rfl, ?_⟩
      show cpu_read_register (cpu_write_register emu1.cpu (op_Rn instr) _) (op_Rn instr) = _
      rw [cpu_read_write_same _ _ r _ hr1 hrn, Nat.mod_eq_of_lt hmlt]
    · rw [if_neg hwb, if_neg hwb]
      exact ⟨_, rfl, rfl, hr1⟩

/-- C15: an LDR/STR with a 12-bit immediate offset (I clear), base `Rn ≠ PC` holding
`r`, `Rd ≠ Rn`, both registers readable.  The transfer address is
`spec_transfer_address` (`r ± off` pre-indexed, `r` post-indexed) and afterwards Rn
reads `r ± off` if W is set or P is clear and `r` otherwise.  A load puts the byte or
word read at the transfer address in Rd; a word store inside SDRAM writes the four
bytes of Rd little-endian at the (masked) transfer address and a byte store writes the
low byte of Rd there, and no other byte changes. -/
theorem single_data_trans_immediate (emu : emulator_t) (instr r x : Nat)
    (hi : op_bit instr 25 = 0)
    (hrn : (op_Rn instr).val ≠ 15) (hne : (op_Rd instr).val ≠ (op_Rn instr).val)
    (hr : cpu_read_register emu.cpu (op_Rn instr) = some r)
    (hx : cpu_read_register emu.cpu (op_Rd instr) = some x) :
    (op_bit instr 20 ≠ 0 →
      ∃ emu', instr_single_data_trans emu instr = some emu' ∧
        emu'.data = emu.data ∧
        cpu_read_register emu'.cpu (op_Rn instr) = some
          (if op_bit instr 21 ≠ 0 ∨ op_bit instr 24 = 0 then spec_moved_base instr r else r) ∧
        ((op_Rd instr).val ≠ 15 → cpu_read_register emu'.cpu (op_Rd instr) = some
          ((if op_bit instr 22 ≠ 0 then memory_read_byte emu (spec_transfer_address instr r)
            else memory_read_dword_le emu (spec_transfer_address instr r)) % 4294967296))) ∧
    (op_bit instr 20 = 0 → op_bit instr 22 = 0 →
      spec_transfer_address instr r % 1073741824 + 3 < emu.mem_size →
      ∃ emu', instr_single_data_trans emu instr = some emu' ∧
        emu'.data = upd (upd (upd (upd emu.data
          (spec_transfer_address instr r % 1073741824 + 0) (u8 (x % 256)))
          (spec_transfer_address instr r % 1073741824 + 1) (u8 (x / 256 % 256)))
          (spec_transfer_address instr r % 1073741824 + 2) (u8 (x / 65536 % 256)))
          (spec_transfer_address instr r % 1073741824 + 3) (u8 (x / 16777216 % 256)) ∧
        cpu_read_register emu'.cpu (op_Rn instr) = some
          (if op_bit instr 21 ≠ 0 ∨ op_bit instr 24 = 0 then spec_moved_base instr r else r)) ∧
    (op_bit instr 20 = 0 → op_bit instr 22 ≠ 0 →
      spec_transfer_address instr r % 1073741824 < emu.mem_size →
      ∃ emu', instr_single_data_trans emu instr = some emu' ∧
        emu'.data = upd emu.data (spec_transfer_address instr r % 1073741824) (u8 (x % 256)) ∧
        cpu_read_register emu'.cpu (op_Rn instr) = some
          (if op_bit instr 21 ≠ 0 ∨ op_bit instr 24 = 0 then spec_moved_base instr r else r)) := by
  have hxlt := cpu_read_register_lt _ _ _ hx
  refine ⟨fun hl => single_data_trans_load emu instr r x hi hl hrn hne hr hx, ?_, ?_⟩
  · intro hs hb hin
    have hw := memory_write_dword_le_sdram emu (spec_transfer_address instr r) x hin
    rw [Nat.mod_eq_of_lt hxlt] at hw
    exact single_data_trans_store emu instr r x hi hs hrn hr hx
      { emu with data := (upd (upd (upd (upd emu.data
          (spec_transfer_address instr r % 1073741824 + 0) (u8 (x % 256)))
          (spec_transfer_address instr r % 1073741824 + 1) (u8 (x / 256 % 256)))
          (spec_transfer_address instr r % 1073741824 + 2) (u8 (x / 65536 % 256)))
          (spec_transfer_address instr r % 1073741824 + 3) (u8 (x / 16777216 % 256))) } rfl
      (by rw [if_neg (by rw [hb]; decide)]; exact hw)
  · intro hs hb hin
    have hw : memory_write_byte emu (spec_transfer_address instr r) x
        = { emu with data := (upd emu.data (spec_transfer_address instr r % 1073741824)
            (u8 (x % 256))) } := by
      unfold memory_write_byte
      simp only [and_3FFFFFFF]
      rw [if_pos hin]
      have e : u8 x = u8 (x % 256) := by
        apply Fin.ext
        simp only [u8_val, Nat.mod_mod]
      rw [e]
    exact single_data_trans_store emu instr r x hi hs hrn hr hx
      { emu with data := (upd emu.data (spec_transfer_address instr r % 1073741824)
        (u8 (x % 256))) } rfl
      (by rw [if_pos hb, hw])

/-- C15, witness: `STR R1, [R0, #4]!` (0xE5A01004) with R0 = 0x100 and
R1 = 0xDEADBEEF in the start-up state: the bytes EF BE AD DE go to 0x104..0x107 and
R0 becomes 0x104. -/
theorem single_data_trans_immediate_witness :
    ∃ emu', instr_single_data_trans
        { emulator_init 0x10000 0 false false false 0 with
          cpu := cpu_write_register (cpu_write_register
            (emulator_init 0x10000 0 false false false 0).cpu 0 0x100) 1 0xDEADBEEF }
        0xE5A01004 = some emu' ∧
      emu'.data = upd (upd (upd (upd (fun _ => u8 0) 0x104 (u8 0xEF)) 0x105 (u8 0xBE))
        0x106 (u8 0xAD)) 0x107 (u8 0xDE) ∧
      cpu_read_register emu'.cpu 0 = some 0x104 :=
  (single_data_trans_immediate
    { emulator_init 0x10000 0 false false false 0 with
      cpu := cpu_write_register (cpu_write_register
        (emulator_init 0x10000 0 false false false 0).cpu 0 0x100) 1 0xDEADBEEF }
    0xE5A01004 0x100 0xDEADBEEF (by decide) (by decide) (by decide) (by decide)
    (by decide)).2.1 (by decide) (by decide) (by decide)

/-! ## Halfword store of PC (C23) -/

/-- C23, the code at a failing input: `STRH PC, [R0]` (0xE1C0F0B0) at address
A = 0x20 with R0 = 0x100 in the start-up state.  The bytes at 0x100 and 0x101 stay 0
(the claim wants 0x2C and 0x00, the low half of A + 12); the code stores the low half
of A + 8 = 0x28 at 0x10C, twelve bytes after the transfer address. -/
theorem strh_pc_failing_input :
    (cpu_tick host_zero { emulator_init 0x10000 0x20 false false false 0 with
        cpu := cpu_write_register (emulator_init 0x10000 0x20 false false false 0).cpu 0 0x100
        data := upd (upd (upd (upd (fun _ => u8 0) 0x20 (u8 0xB0)) 0x21 (u8 0xF0))
          0x22 (u8 0xC0)) 0x23 (u8 0xE1) }).map
      (fun e => ((e.data 0x100).val, (e.data 0x101).val, (e.data 0x10C).val, (e.data 0x10D).val))
      = some (0, 0, 0x28, 0) ∧
    (0x20 + 12) % 256 = 0x2C := by
  decide

/-! ## Framebuffer: size, pitch and bounds (C29, C31, C38) -/

/-- C29, the code at a failing input: a request for virtual size 3 x 2 at depth 8
(descriptor at 0x40000100, graphics enabled).  The pitch field written back is 4
(3 rounded up), but the size field and `fb_size` are 6 = 3 * 2, not 4 * 2. -/
theorem fb_request_size_failing_input :
    (fb_request { emulator_init 0x10000 0 true false false 0 with
        data := upd (upd (upd (fun _ => u8 0) 0x108 (u8 3)) 0x10C (u8 2)) 0x114 (u8 8) }
      0x40000100).map
      (fun e => (memory_read_dword_le e 0x110, memory_read_dword_le e 0x124, e.fb.fb_size.val))
      = some (4, 6, 6) ∧
    (4 : Nat) * 2 ≠ 6 := by
  decide

/-- C31, the code at a failing input: after a depth-16 request for virtual size
3 x 2 the pitch field written back is P = 8; a halfword write of 0xFFFF to
`fb_address + 1 * P + 2 * 0` is routed to the framebuffer, and `fb_get_pixel 0 1`
still decodes (0, 0, 0) instead of (255, 255, 255): it reads row 1 at offset 6. -/
theorem fb_get_pixel_failing_input :
    ((fb_request { emulator_init 0x10000 0 true false false 0 with
        data := upd (upd (upd (fun _ => u8 0) 0x108 (u8 3)) 0x10C (u8 2)) 0x114 (u8 16) }
      0x40000100).bind
      (fun e => (memory_write_word_le e
          (e.fb.fb_address.val + 1 * memory_read_dword_le e 0x110 + 2 * 0) 0xFFFF).map
        (fun e1 => (memory_read_dword_le e 0x110,
          fb_is_buffer e (e.fb.fb_address.val + 1 * memory_read_dword_le e 0x110 + 2 * 0),
          fb_get_pixel e1.fb 0 1))))
      = some (8, true, fb_colour.rgb 0 0 0) ∧
    fb_colour.rgb (((0xFFFF &&& 0x1F) * 255) / 31) ((((0xFFFF >>> 5) &&& 0x3F) * 255) / 63)
      ((((0xFFFF >>> 11) &&& 0x1F) * 255) / 31) = fb_colour.rgb 255 255 255 := by
  decide

/-- C38, the code at a failing input: after a depth-32 request for virtual size
1 x 1 (`fb_size` = 4), the address `fb_address + 3` passes `fb_is_buffer` and a word
write of 0xAABBCCDD there changes the buffer bytes at offsets 4, 5 and 6, outside
`[0, fb_size)`. -/
theorem fb_write_dword_failing_input :
    ((fb_request { emulator_init 0x10000 0 true false false 0 with
        data := upd (upd (upd (fun _ => u8 0) 0x108 (u8 1)) 0x10C (u8 1)) 0x114 (u8 32) }
      0x40000100).bind
      (fun e => (memory_write_dword_le e (e.fb.fb_address.val + 3) 0xAABBCCDD).map
        (fun e1 => (e.fb.fb_size.val, fb_is_buffer e (e.fb.fb_address.val + 3),
          e1.fb.framebuffer.map (fun b => ((b 4).val, (b 5).val, (b 6).val))))))
      = some (4, true, some (0xCC, 0xBB, 0xAA)) := by
  decide

/-! ## SPSR on exception entry (C35) -/

/-- C35, the code at a failing input: a SWI executed in mode USR (CPSR = 0x10) leaves
SPSR_svc = 0x13, the CPSR after the mode change, not 0x10; the undefined-instruction
trap leaves SPSR_und = 0x1B. -/
theorem swi_spsr_failing_input :
    (set_cpsr_m (emulator_init 0x10000 0x20 false false false 0).cpu MODE_USR).cpsr.val = 0x10 ∧
    (instr_swi (set_cpsr_m (emulator_init 0x10000 0x20 false false false 0).cpu MODE_USR)).map
      (fun c => c.spsr_svc.val) = some 0x13 ∧
    (instr_undefined
      (set_cpsr_m (emulator_init 0x10000 0x20 false false false 0).cpu MODE_USR)).map
      (fun c => c.spsr_und.val) = some 0x1B := by
  decide

/-! ## Decoding of MRS (C36) -/

/-- C36, the code at a failing input: the word 0xE28F0000 (`ADD R0, PC, #0`, bits
27..23 = 00101) is routed by `cpu_execute` to the MRS handler: R0 receives the CPSR
(0x13) where the data-processing handler gives PC + 4 = 0x24. -/
theorem mrs_decode_failing_input :
    (cpu_execute host_zero (emulator_init 0x10000 0x20 false false false 0) 0xE28F0000).map
      (fun e => (e.cpu.r_usr 0).val) = some 0x13 ∧
    (instr_single_data_processing (emulator_init 0x10000 0x20 false false false 0).cpu
      0xE28F0000).map (fun c => (c.r_usr 0).val) = some 0x24 ∧
    (0xE28F0000 >>> 23) % 32 = 0x05 := by
  decide

/-! ## Array bounds of the GPIO ports and the VFP registers (C37, C39) -/

/-- C37, the code at a failing input: a write of 0x00400000 to `GPIO_SET1` sets the
state of port 32 + 22 = 54, and a write of 7 << 12 to `GPIO_FSEL5` sets the function
of port 50 + 4 = 54, one past the 54 allocated ports. -/
theorem gpio_index_failing_input :
    ((gpio_write_port (emulator_init 0x10000 0x20 false false false 0) GPIO_SET1
      0x00400000).gpio.ports 54).state.val = 1 ∧
    ((gpio_write_port (emulator_init 0x10000 0x20 false false false 0) GPIO_FSEL5
      (7 <<< 12)).gpio.ports 54).func.val = 7 ∧
    gpio_is_port GPIO_SET1 = true ∧ gpio_is_port GPIO_FSEL5 = true := by
  decide

/-- C39, the code at a failing input: `FLDMIAS R0, {S31, S32}` (0xECD0FA02: opcode
[p,u,w] = 2, Fd = 31, count 2) with memory filled with 0x11 writes 0x11111111 to the
register index 32, one past the 32 VFP registers. -/
theorem vfp_index_failing_input :
    (cpu_execute host_zero { emulator_init 0x10000 0x20 false false false 0 with
        data := (fun _ => u8 0x11) } 0xECD0FA02).map
      (fun e => ((e.vfp.s 31).val, (e.vfp.s 32).val)) = some (0x11111111, 0x11111111) ∧
    (((0xECD0FA02 >>> 12) % 16) <<< 1) ||| op_bit 0xECD0FA02 22 = 31 ∧
    0xECD0FA02 % 256 = 2 := by
  decide

/-! ## MSR of the whole PSR (C21) -/

theorem and_F0000000 (x : Nat) : x &&& 0xF0000000 = (x / 268435456 % 16) * 268435456 := by
  have h := and_shifted_mask x 28 4
  have e : (2 ^ 4 - 1) <<< 28 = 0xF0000000 := by decide
  rw [e] at h
  rw [h, Nat.shiftLeft_eq, Nat.shiftRight_eq_div_pow]
  norm_num

theorem and_0FFFFFFF (x : Nat) : x &&& 0x0FFFFFFF = x % 268435456 :=
  Nat.and_pow_two_sub_one_eq_mod x 28

theorem or_top_nibble (a b : Nat) (hb : b < 268435456) :
    a * 268435456 ||| b = a * 268435456 + b := by
  have := Nat.mul_add_lt_is_or (i := 28) (b := b) (by norm_num; omega) a
  norm_num at this
  rw [Nat.mul_comm]
  omega

/-- C21: `MSR CPSR, Rm` (Pd clear) with Rm holding `v`.  In mode USR only bits 31..28
of the CPSR change, to bits 31..28 of `v`, so the mode field and the I, F, T bits
stay; in any other mode the whole CPSR becomes `v`.  Nothing else changes. -/
theorem msr_cpsr (cpu : cpu_t) (instr v : Nat) (hpd : op_bit instr 22 = 0)
    (hv : cpu_read_register cpu (op_Rm instr) = some v) :
    (cpsr_m cpu = MODE_USR →
      instr_msr_psr cpu instr = some { cpu with
        cpsr := u32 ((v / 268435456 % 16) * 268435456 + cpu.cpsr.val % 268435456) } ∧
      (u32 ((v / 268435456 % 16) * 268435456 + cpu.cpsr.val % 268435456)).val / 268435456
        = v / 268435456 ∧
      (u32 ((v / 268435456 % 16) * 268435456 + cpu.cpsr.val % 268435456)).val % 268435456
        = cpu.cpsr.val % 268435456) ∧
    (cpsr_m cpu ≠ MODE_USR →
      instr_msr_psr cpu instr = some { cpu with cpsr := u32 v } ∧ (u32 v).val = v) := by
  have hvlt := cpu_read_register_lt _ _ _ hv
  unfold instr_msr_psr
  rw [hv, hpd]
  simp only [Option.bind_eq_bind, Option.some_bind]
  unfold write_psr
  refine ⟨fun hm => ?_, fun hm => ?_⟩
  · have hc : (0 ≠ 0 ∨ cpsr_m cpu = MODE_USR) := Or.inr hm
    rw [if_pos hc, if_pos rfl]
    have hn : not32 0xF0000000 = 0x0FFFFFFF := by decide
    simp only [hn, and_F0000000, and_0FFFFFFF]
    rw [or_top_nibble _ _ (Nat.mod_lt _ (by decide))]
    refine ⟨rfl, ?_, ?_⟩
    · rw [u32_val]
      omega
    · rw [u32_val]
      omega
  · have hc : ¬ (0 ≠ 0 ∨ cpsr_m cpu = MODE_USR) := by
      intro h
      rcases h with h | h
      · exact h rfl
      · exact hm h
    rw [if_neg hc, if_pos rfl]
    refine ⟨rfl, ?_⟩
    rw [u32_val]
    omega

/-- C21, witness: `MSR CPSR, R0` (0xE129F000) with R0 = 0xF00000DF in the start-up
state (mode SVC): the CPSR becomes 0xF00000DF. -/
theorem msr_cpsr_witness :
    instr_msr_psr (cpu_write_register (emulator_init 0x10000 0 false false false 0).cpu 0
        0xF00000DF) 0xE129F000
      = some { cpu_write_register (emulator_init 0x10000 0 false false false 0).cpu 0
          0xF00000DF with cpsr := u32 0xF00000DF } ∧ (u32 0xF00000DF).val = 0xF00000DF :=
  (msr_cpsr (cpu_write_register (emulator_init 0x10000 0 false false false 0).cpu 0 0xF00000DF)
    0xE129F000 0xF00000DF (by decide) (by decide)).2 (by decide)

/-! ## The program counter (C24) -/

/-- C24: in every mode a read of PC returns the stored program counter plus 4; after
a write of `v` to PC the read returns `v + 4`, the stored value is `v`, and the next
`cpu_tick` fetches at `v` (it terminates exactly on the word 0 there, and otherwise
decodes that word); the slot does not depend on the mode field. -/
theorem pc_read_write (host : host_t) (emu : emulator_t) (v m : Nat) :
    cpu_read_register emu.cpu PC = some (((emu.cpu.r_usr 15).val + 4) % 4294967296) ∧
    cpu_read_register (cpu_write_register emu.cpu PC v) PC
      = some ((v % 4294967296 + 4) % 4294967296) ∧
    ((cpu_write_register emu.cpu PC v).r_usr 15).val = v % 4294967296 ∧
    cpu_read_register (set_cpsr_m emu.cpu m) PC = cpu_read_register emu.cpu PC ∧
    (cpu_write_register (set_cpsr_m emu.cpu m) PC v).r_usr 15
      = (cpu_write_register emu.cpu PC v).r_usr 15 ∧
    (memory_read_dword_le emu (v % 4294967296) = 0 →
      ∃ emu', cpu_tick host { emu with cpu := cpu_write_register emu.cpu PC v } = some emu' ∧
        emu'.terminated = true) ∧
    (memory_read_dword_le emu (v % 4294967296) ≠ 0 →
      memory_read_dword_le emu (v % 4294967296) ≠ 0xf5d1f100 →
      check_cond emu.cpu (memory_read_dword_le emu (v % 4294967296) >>> 28) = true →
      memory_read_dword_le emu (v % 4294967296) &&& 0x0fff00ff ≠ 0x03200003 →
      cpu_tick host { emu with cpu := cpu_write_register emu.cpu PC v } =
        cpu_execute host { emu with cpu := (cpu_write_register
          (cpu_write_register emu.cpu PC v) PC (v % 4294967296 + 4)) }
          (memory_read_dword_le emu (v % 4294967296))) := by
  have hs : ((cpu_write_register emu.cpu PC v).r_usr 15).val = v % 4294967296 := by
    rw [cpu_write_register_PC]
    show (upd emu.cpu.r_usr 15 (u32 v) 15).val = _
    rw [upd_same, u32_val]
  have hf : memory_read_dword_le ({ emu with cpu := cpu_write_register emu.cpu PC v } : emulator_t)
      (({ emu with cpu := cpu_write_register emu.cpu PC v } : emulator_t).cpu.r_usr 15).val
      = memory_read_dword_le emu (v % 4294967296) := by
    show memory_read_dword_le { emu with cpu := cpu_write_register emu.cpu PC v }
      ((cpu_write_register emu.cpu PC v).r_usr 15).val = _
    rw [hs]
    rfl
  refine ⟨cpu_read_register_PC _, ?_, hs, ?_, ?_, ?_, ?_⟩
  · rw [cpu_read_register_PC, hs]
  · rw [cpu_read_register_PC, cpu_read_register_PC]
    rfl
  · rw [cpu_write_register_PC, cpu_write_register_PC]
    rfl
  · intro h0
    exact cpu_tick_zero host _ (hf.trans h0)
  · intro h0 hpld hc hw
    rw [cpu_tick_word host _ _ hf h0 hpld
      (by rw [← hc]; unfold check_cond cpsr_z cpsr_c cpsr_n cpsr_v
          rw [cpsr_cpu_write_register]) hw]
    rw [cpu_write_register_PC (cpu_write_register emu.cpu PC v)]
    show cpu_execute host { emu with cpu := { cpu_write_register emu.cpu PC v with
      r_usr := (upd (cpu_write_register emu.cpu PC v).r_usr 15
        (u32 (((cpu_write_register emu.cpu PC v).r_usr 15).val + 4))) } } _ = _
    rw [hs]

/-! ## Memory: aliased regions and out-of-bounds accesses (C25, C26) -/

theorem alias_mask (a k : Nat) :
    ((a + k * 0x40000000) % 4294967296) &&& 0x3FFFFFFF = a &&& 0x3FFFFFFF := by
  rw [and_3FFFFFFF, and_3FFFFFFF]
  omega

/-- C25: each of the six accessors gives the same value or resulting state at
`(a + k * 0x40000000) mod 2^32` as at `a` (for every `k`, in particular 1, 2, 3). -/
theorem memory_alias (emu : emulator_t) (a k v : Nat) :
    memory_read_byte emu ((a + k * 0x40000000) % 4294967296) = memory_read_byte emu a ∧
    memory_read_word_le emu ((a + k * 0x40000000) % 4294967296) = memory_read_word_le emu a ∧
    memory_read_dword_le emu ((a + k * 0x40000000) % 4294967296) = memory_read_dword_le emu a ∧
    memory_write_byte emu ((a + k * 0x40000000) % 4294967296) v = memory_write_byte emu a v ∧
    memory_write_word_le emu ((a + k * 0x40000000) % 4294967296) v
      = memory_write_word_le emu a v ∧
    memory_write_dword_le emu ((a + k * 0x40000000) % 4294967296) v
      = memory_write_dword_le emu a v := by
  have h := alias_mask a k
  refine ⟨?_, ?_, ?_, ?_, ?_, ?_⟩
  · unfold memory_read_byte
    rw [h]
  · unfold memory_read_word_le
    rw [h]
  · unfold memory_read_dword_le
    rw [h]
  · unfold memory_write_byte
    rw [h]
  · unfold memory_write_word_le
    rw [h]
  · unfold memory_write_dword_le memory_write_dword_le_with
    rw [h]

/-- C40: inside SDRAM `memory_write_dword_be` changes exactly the two bytes at the
(masked) address `a` and at `a + 1`: `data[a]` becomes bits 15..8 of `v` and
`data[a + 1]` bits 7..0; bytes `a + 2`, `a + 3` and the upper half of `v` are left
out. -/
theorem memory_write_dword_be_bytes (emu : emulator_t) (a v : Nat)
    (h : a % 1073741824 + 1 < emu.mem_size) :
    memory_write_dword_be emu a v = some { emu with data :=
      (upd (upd emu.data (a % 1073741824) (u8 (v / 256 % 256)))
        (a % 1073741824 + 1) (u8 (v % 256))) } := by
  unfold memory_write_dword_be
  rw [memory_write_word_le_sdram emu a _ h]
  have hlo : v % 4294967296 % 65536 % 256 = v % 256 := by omega
  have hhi : v % 4294967296 % 65536 / 256 = v / 256 % 256 := by omega
  have hl : v % 256 < 256 := Nat.mod_lt _ (by decide)
  have hh : v / 256 % 256 < 256 := Nat.mod_lt _ (by decide)
  have e1 : bswap16 (v % 4294967296) % 65536 % 256 = v / 256 % 256 := by
    unfold bswap16
    rw [hlo, hhi]
    generalize v % 256 = lo at hl
    generalize v / 256 % 256 = hi at hh
    omega
  have e2 : bswap16 (v % 4294967296) % 65536 / 256 % 256 = v % 256 := by
    unfold bswap16
    rw [hlo, hhi]
    generalize v % 256 = lo at hl
    generalize v / 256 % 256 = hi at hh
    omega
  rw [e1, e2]
  rfl

/-- C40, witness: the value 0x11223344 at address 0x100 of the start-up state puts
0x33 at 0x100 and 0x44 at 0x101. -/
theorem memory_write_dword_be_bytes_witness :
    memory_write_dword_be (emulator_init 0x10000 0 false false false 0) 0x100 0x11223344
      = some { emulator_init 0x10000 0 false false false 0 with data :=
        (upd (upd (emulator_init 0x10000 0 false false false 0).data (0x100 % 1073741824)
          (u8 (0x11223344 / 256 % 256))) (0x100 % 1073741824 + 1) (u8 (0x11223344 % 256))) } ∧
    (u8 (0x11223344 / 256 % 256)).val = 0x33 ∧ (u8 (0x11223344 % 256)).val = 0x44 :=
  ⟨memory_write_dword_be_bytes (emulator_init 0x10000 0 false false false 0) 0x100 0x11223344
    (by decide), by decide, by decide⟩

/-! ## AUX registers (C33) -/

/-- C33 (amended): `AUX_MU_LSR_REG` reads 0x60 in every state; a write to
`AUX_MU_LCR_REG` stores bit 0 as the number of data bits (8 or 7) and a write to
`AUX_MU_BAUD_REG` stores the low byte as the baud-rate counter, and a read of either
register returns 0. -/
theorem pr_read_after_write (pr : peripheral_t) (v : Nat) :
    pr_read pr AUX_MU_LSR_REG = 0x60 ∧
    (pr_write pr AUX_MU_LCR_REG v).uart_bits = (if v % 2 = 1 then 8 else 7) ∧
    pr_read (pr_write pr AUX_MU_LCR_REG v) AUX_MU_LCR_REG = 0 ∧
    (pr_write pr AUX_MU_BAUD_REG v).uart_baud_rate_counter = v % 256 ∧
    pr_read (pr_write pr AUX_MU_BAUD_REG v) AUX_MU_BAUD_REG = 0 := by
  refine ⟨rfl, ?_, rfl, ?_, rfl⟩
  · show (if (v % 256) &&& 0x1 ≠ 0 then 8 else 7) = _
    rw [and_1]
    have : v % 256 % 2 = v % 2 := by omega
    rw [this]
    split_ifs <;> omega
  · show (v % 256) &&& 0xFF = _
    rw [and_FF]
    omega

/-- C33, counterexample: after a write of 0x03 to `AUX_MU_LCR_REG`, and after a write
of 0x55 to `AUX_MU_BAUD_REG`, the read of the register returns 0. -/
theorem pr_read_after_write_fails :
    pr_read (pr_write (emulator_init 0x10000 0 false false false 0).pr AUX_MU_LCR_REG 0x03)
      AUX_MU_LCR_REG = 0 ∧
    pr_read (pr_write (emulator_init 0x10000 0 false false false 0).pr AUX_MU_BAUD_REG 0x55)
      AUX_MU_BAUD_REG = 0 ∧
    (0 : Nat) ≠ 0x03 ∧ (0 : Nat) ≠ 0x55 := by
  decide

/-! ## Halfword and signed loads (C22) -/

/-- C34: the VFP register transfer with opcode 7, load direction and destination
register R15.  When the system register is FPSCR (`Fn = 2`, FMSTAT) the CPSR gets bits
31..28 of FPSCR and keeps its bits 27..0, and nothing else changes (integer registers,
PC, VFP registers, FPSCR); for every other system register number it is fatal. -/
theorem fmstat (emu : emulator_t) (instr : Nat)
    (hop : (instr >>> 21) % 8 = 7) (hl : op_bit instr 20 ≠ 0)
    (hrd : (op_Rd instr).val = 15) :
    ((((instr >>> 16) % 16) <<< 1) ||| ((((instr >>> 5) % 8) >>> 2) &&& 0x1) = 2 →
      vfp_reg_transfer emu instr = some { emu with cpu := { emu.cpu with
        cpsr := u32 ((emu.vfp.fpscr.val / 268435456 % 16) * 268435456
          + emu.cpu.cpsr.val % 268435456) } }) ∧
    ((((instr >>> 16) % 16) <<< 1) ||| ((((instr >>> 5) % 8) >>> 2) &&& 0x1) ≠ 2 →
      vfp_reg_transfer emu instr = none) := by
  unfold vfp_reg_transfer
  rw [hop]
  simp only []
  generalize (((instr >>> 16) % 16) <<< 1) ||| ((((instr >>> 5) % 8) >>> 2) &&& 0x1) = Fn
  unfold rt_status_reg_transfer
  rw [if_pos hl]
  refine ⟨?_, ?_⟩
  · intro h
    subst h
    simp only [Option.bind_eq_bind, Option.some_bind, hrd, if_true, and_F0000000,
      and_0FFFFFFF]
    rw [Nat.or_comm, or_top_nibble _ _ (Nat.mod_lt _ (by decide))]
  · intro h
    simp only [Option.bind_eq_bind, hrd, if_true, if_neg h]
    split <;> rfl

/-- C34, witness: FMSTAT (0xEEF1FA10) in the start-up state with FPSCR = 0x60000000
sets the CPSR to 0x60000013. -/
theorem fmstat_witness :
    vfp_reg_transfer { emulator_init 0x10000 0 false false false 0 with
        vfp := { (emulator_init 0x10000 0 false false false 0).vfp with
          fpscr := u32 0x60000000 } } 0xEEF1FA10
      = some { emulator_init 0x10000 0 false false false 0 with
        vfp := { (emulator_init 0x10000 0 false false false 0).vfp with
          fpscr := u32 0x60000000 }
        cpu := { (emulator_init 0x10000 0 false false false 0).cpu with
          cpsr := u32 0x60000013 } } :=
  (fmstat { emulator_init 0x10000 0 false false false 0 with
      vfp := { (emulator_init 0x10000 0 false false false 0).vfp with
        fpscr := u32 0x60000000 } } 0xEEF1FA10 (by decide) (by decide) (by decide)).1
    (by decide)

/-! ## Framebuffer request with the descriptor in SDRAM (C30, C28) -/

/-- Bits of an OR-fold over `0 .. n-1`. -/
theorem foldl_or_testBit (g : Nat → Nat) (n b : Nat) :
    ((List.range n).foldl (fun reg i => reg ||| g i) 0).testBit b = true ↔
      ∃ i, i < n ∧ (g i).testBit b = true := by
  induction n with
  | zero => simp
  | succ n ih =>
    rw [List.range_succ, List.foldl_append]
    simp only [List.foldl_cons, List.foldl_nil, Nat.testBit_or, Bool.or_eq_true, ih]
    constructor
    · rintro (⟨i, hi, h⟩ | h)
      · exact ⟨i, by omega, h⟩
      · exact ⟨n, by omega, h⟩
    · rintro ⟨i, hi, h⟩
      by_cases hin : i = n
      · subst hin
        exact Or.inr h
      · exact Or.inl ⟨i, by omega, h⟩

theorem shiftRight_mod_two_eq_one (x b : Nat) : (x >>> b) % 2 = 1 ↔ x.testBit b = true := by
  rw [Nat.testBit_to_div_mod, Nat.shiftRight_eq_div_pow]
  simp

theorem testBit_le_one (s k : Nat) (hs : s ≤ 1) : s.testBit k = true ↔ s = 1 ∧ k = 0 := by
  have h : s = 0 ∨ s = 1 := by omega
  rcases h with h | h
  · subst h
    simp
  · subst h
    rw [Nat.testBit_to_div_mod]
    by_cases hk : k = 0
    · subst hk
      simp
    · have : 1 / 2 ^ k = 0 := Nat.div_eq_of_lt (Nat.one_lt_two_pow hk)
      simp [this, hk]

/-- The level register has bit `b` set when port `b + offset` has state 1. -/
theorem gpio_read_states_bit_one (gpio : gpio_t) (offset b : Nat) (hb : b < 32)
    (h1 : (gpio.ports (b + offset)).state.val = 1) :
    (gpio_read_states gpio offset >>> b) % 2 = 1 := by
  rw [shiftRight_mod_two_eq_one]
  unfold gpio_read_states
  rw [foldl_or_testBit (fun i => ((gpio.ports (i + offset)).state.val <<< i) % 4294967296)]
  refine ⟨b, hb, ?_⟩
  have e : (4294967296 : Nat) = 2 ^ 32 := by norm_num
  rw [h1, e, Nat.testBit_mod_two_pow, Nat.testBit_shiftLeft]
  simp [hb]

/-- With the states of the ports up to `b + offset` 0 or 1, the level register has bit
`b` clear when port `b + offset` has state 0. -/
theorem gpio_read_states_bit_zero (gpio : gpio_t) (offset b : Nat)
    (hst : ∀ i, i ≤ b → (gpio.ports (i + offset)).state.val ≤ 1)
    (h0 : (gpio.ports (b + offset)).state.val = 0) :
    (gpio_read_states gpio offset >>> b) % 2 = 0 := by
  have hne : ¬ (gpio_read_states gpio offset >>> b) % 2 = 1 := by
    rw [shiftRight_mod_two_eq_one]
    unfold gpio_read_states
    rw [foldl_or_testBit (fun i => ((gpio.ports (i + offset)).state.val <<< i) % 4294967296)]
    rintro ⟨i, _, h⟩
    have e : (4294967296 : Nat) = 2 ^ 32 := by norm_num
    rw [e, Nat.testBit_mod_two_pow, Nat.testBit_shiftLeft] at h
    simp only [Bool.and_eq_true, decide_eq_true_eq] at h
    obtain ⟨_, hge, ht⟩ := h
    rw [testBit_le_one _ _ (hst i hge)] at ht
    have : i = b := by omega
    subst this
    omega
  omega

/-- The loop of `gpio_write_states` after `n` bits, with the NES model disabled: the
ports whose bit is set get the level, nothing else changes. -/
theorem gpio_write_states_fold (emu : emulator_t) (offset val level n : Nat)
    (hnes : emu.nes_enabled = false) :
    (List.range n).foldl
      (fun (acc : emulator_t × Nat) i =>
        let e := acc.1
        let v := acc.2
        let e1 :=
          if v &&& 1 ≠ 0 then
            let e0 := gpio_set_state e (offset + i) level
            if e0.nes_enabled ∧ offset = 0 then nes_gpio_write e0 i level else e0
          else e
        (e1, v >>> 1))
      (emu, val) =
    ({ emu with gpio := { ports := fun j =>
        if offset ≤ j ∧ j < offset + n ∧ (val >>> (j - offset)) &&& 1 ≠ 0 then
          { emu.gpio.ports j with state := u8 level }
        else emu.gpio.ports j } }, val >>> n) := by
  induction n with
  | zero =>
    simp only [List.range_zero, List.foldl_nil, Nat.shiftRight_zero]
    congr 1
    have : (fun j => if offset ≤ j ∧ j < offset + 0 ∧ (val >>> (j - offset)) &&& 1 ≠ 0 then
        ({ emu.gpio.ports j with state := u8 level } : gpio_port_t)
      else emu.gpio.ports j) = emu.gpio.ports := by
      funext j
      rw [if_neg (by omega)]
    rw [this]
  | succ n ih =>
    rw [List.range_succ, List.foldl_append]
    simp only [List.foldl_cons, List.foldl_nil]
    generalize List.foldl _ (emu, val) (List.range n) = F at ih ⊢
    have hF1 : F.1.nes_enabled = false := by rw [ih]; exact hnes
    have hn' : ¬ ((gpio_set_state F.1 (offset + n) level).nes_enabled = true ∧ offset = 0) := by
      intro h
      have h1 := h.1
      change F.1.nes_enabled = true at h1
      rw [hF1] at h1
      exact Bool.noConfusion h1
    rw [if_neg hn']
    subst ih
    dsimp only
    have hsh : val >>> n >>> 1 = val >>> (n + 1) := by
      rw [← Nat.shiftRight_add]
    rw [hsh]
    congr 1
    by_cases hb : (val >>> n) &&& 1 ≠ 0
    · rw [if_pos hb]
      unfold gpio_set_state
      dsimp only
      congr 2
      funext j
      unfold upd
      by_cases hj : j = offset + n
      · subst hj
        have e : offset + n - offset = n := by omega
        rw [if_pos rfl, if_neg (by omega), if_pos ⟨by omega, by omega, by rw [e]; exact hb⟩]
      · rw [if_neg hj]
        dsimp only
        by_cases hc : offset ≤ j ∧ j < offset + n ∧ (val >>> (j - offset)) &&& 1 ≠ 0
        · rw [if_pos hc, if_pos ⟨hc.1, by omega, hc.2.2⟩]
        · rw [if_neg hc, if_neg (by
            intro h
            have hlt : j < offset + n := by omega
            exact hc ⟨h.1, hlt, h.2.2⟩)]
    · rw [if_neg hb]
      congr 2
      funext j
      by_cases hj : j = offset + n
      · subst hj
        have e : offset + n - offset = n := by omega
        rw [if_neg (by omega), if_neg (by
          intro h
          rw [e] at h
          exact hb h.2.2)]
      · by_cases hc : offset ≤ j ∧ j < offset + n ∧ (val >>> (j - offset)) &&& 1 ≠ 0
        · rw [if_pos hc, if_pos ⟨hc.1, by omega, hc.2.2⟩]
        · rw [if_neg hc, if_neg (by
            intro h
            have hlt : j < offset + n := by omega
            exact hc ⟨h.1, hlt, h.2.2⟩)]

/-- The ports after `gpio_write_states`, with the NES model disabled. -/
theorem gpio_write_states_ports (emu : emulator_t) (offset val level : Nat)
    (hnes : emu.nes_enabled = false) (j : Nat) :
    (gpio_write_states emu offset val level).gpio.ports j =
      if offset ≤ j ∧ j < offset + 32 ∧ ((val % 4294967296) >>> (j - offset)) &&& 1 ≠ 0 then
        { emu.gpio.ports j with state := u8 level }
      else emu.gpio.ports j := by
  unfold gpio_write_states
  rw [gpio_write_states_fold emu offset (val % 4294967296) level 32 hnes]

theorem gpio_write_port_SET0 (emu : emulator_t) (m : Nat) :
    gpio_write_port emu (GPIO_SET0 + 4 * 0) m = gpio_write_states emu 0 m 1 := by
  simp [gpio_write_port, GPIO_SET0, GPIO_SET1, GPIO_CLR0, GPIO_CLR1, GPIO_FSEL0, GPIO_FSEL5,
    GPIO_BASE, show 538968092 &&& 4294967292 = 538968092 from by decide]

theorem gpio_write_port_SET1 (emu : emulator_t) (m : Nat) :
    gpio_write_port emu (GPIO_SET0 + 4 * 1) m = gpio_write_states emu 32 m 1 := by
  simp [gpio_write_port, GPIO_SET0, GPIO_SET1, GPIO_CLR0, GPIO_CLR1, GPIO_FSEL0, GPIO_FSEL5,
    GPIO_BASE, show 538968096 &&& 4294967292 = 538968096 from by decide]

theorem gpio_write_port_CLR0 (emu : emulator_t) (m : Nat) :
    gpio_write_port emu (GPIO_CLR0 + 4 * 0) m = gpio_write_states emu 0 m 0 := by
  simp [gpio_write_port, GPIO_SET0, GPIO_SET1, GPIO_CLR0, GPIO_CLR1, GPIO_FSEL0, GPIO_FSEL5,
    GPIO_BASE, show 538968104 &&& 4294967292 = 538968104 from by decide]

theorem gpio_write_port_CLR1 (emu : emulator_t) (m : Nat) :
    gpio_write_port emu (GPIO_CLR0 + 4 * 1) m = gpio_write_states emu 32 m 0 := by
  simp [gpio_write_port, GPIO_SET0, GPIO_SET1, GPIO_CLR0, GPIO_CLR1, GPIO_FSEL0, GPIO_FSEL5,
    GPIO_BASE, show 538968108 &&& 4294967292 = 538968108 from by decide]

theorem gpio_read_port_LEV0 (g : gpio_t) :
    gpio_read_port g (GPIO_LEV0 + 4 * 0) = gpio_read_states g 0 := by
  simp [gpio_read_port, GPIO_SET0, GPIO_SET1, GPIO_CLR0, GPIO_CLR1, GPIO_FSEL0, GPIO_FSEL5,
    GPIO_LEV0, GPIO_LEV1, GPIO_BASE, show 538968116 &&& 4294967292 = 538968116 from by decide]

theorem gpio_read_port_LEV1 (g : gpio_t) :
    gpio_read_port g (GPIO_LEV0 + 4 * 1) = gpio_read_states g 32 := by
  simp [gpio_read_port, GPIO_SET0, GPIO_SET1, GPIO_CLR0, GPIO_CLR1, GPIO_FSEL0, GPIO_FSEL5,
    GPIO_LEV0, GPIO_LEV1, GPIO_BASE, show 538968120 &&& 4294967292 = 538968120 from by decide]

theorem and_one_ne_zero (x : Nat) : x &&& 1 ≠ 0 ↔ x % 2 = 1 := by
  rw [Nat.and_one_is_mod]
  omega

theorem shiftRight_mod32_bit (m b : Nat) (hb : b < 32) :
    ((m % 4294967296) >>> b) % 2 = (m >>> b) % 2 := by
  have h : m % 4294967296 / 2 ^ b % 2 = 1 ↔ m / 2 ^ b % 2 = 1 := by
    have h := Nat.testBit_mod_two_pow m 32 b
    rw [Nat.testBit_to_div_mod, Nat.testBit_to_div_mod] at h
    simpa [hb] using h
  rw [Nat.shiftRight_eq_div_pow, Nat.shiftRight_eq_div_pow]
  generalize m % 4294967296 / 2 ^ b = x at h ⊢
  generalize m / 2 ^ b = y at h ⊢
  omega

/-- The state of port `b + offset` after a write of `m` with bit `b` set. -/
theorem gpio_write_states_hit (emu : emulator_t) (offset m level b : Nat)
    (hnes : emu.nes_enabled = false) (hb : b < 32) (hm : (m >>> b) % 2 = 1) :
    ((gpio_write_states emu offset m level).gpio.ports (b + offset)).state = u8 level := by
  rw [gpio_write_states_ports emu offset m level hnes]
  have e : b + offset - offset = b := by omega
  rw [if_pos ⟨by omega, by omega, by
    rw [e, and_one_ne_zero, shiftRight_mod32_bit m b hb]
    exact hm⟩]

/-- A port outside the bank, or with its bit clear in `m`, is left as it was. -/
theorem gpio_write_states_miss (emu : emulator_t) (offset m level j : Nat)
    (hnes : emu.nes_enabled = false)
    (hj : ¬ (offset ≤ j ∧ j < offset + 32 ∧ (m >>> (j - offset)) % 2 = 1)) :
    (gpio_write_states emu offset m level).gpio.ports j = emu.gpio.ports j := by
  rw [gpio_write_states_ports emu offset m level hnes]
  rw [if_neg]
  rintro ⟨h1, h2, h3⟩
  rw [and_one_ne_zero, shiftRight_mod32_bit m (j - offset) (by omega)] at h3
  exact hj ⟨h1, h2, h3⟩

/-- The state of every port is at most the old bound after a `CLR` write. -/
theorem gpio_write_states_clr_le (emu : emulator_t) (offset m j : Nat)
    (hnes : emu.nes_enabled = false) (hst : (emu.gpio.ports j).state.val ≤ 1) :
    ((gpio_write_states emu offset m 0).gpio.ports j).state.val ≤ 1 := by
  rw [gpio_write_states_ports emu offset m 0 hnes]
  split
  · show (u8 0).val ≤ 1
    decide
  · exact hst

/-- C27: with the NES model disabled, for a port `p` of the 54 (bank `p / 32`, bit
`p % 32`) and a value `m` with that bit set: after a write of `m` to `GPIO_SETn` the
read of `GPIO_LEVn` has the bit 1; after a write of `m` to `GPIO_CLRn` the read of
`GPIO_LEVn` has the bit 0, the states of the 54 ports being 0 or 1 beforehand as in
every state the emulator builds; and both writes leave every port that is outside bank
`n`, or whose bit of `m` is 0, as it was. -/
theorem gpio_set_clr_lev (emu : emulator_t) (p m : Nat)
    (hnes : emu.nes_enabled = false) (hp : p < 54) (hm : (m >>> (p % 32)) % 2 = 1) :
    (gpio_read_port (gpio_write_port emu (GPIO_SET0 + 4 * (p / 32)) m).gpio
        (GPIO_LEV0 + 4 * (p / 32)) >>> (p % 32)) % 2 = 1 ∧
    ((∀ i, i < 54 → (emu.gpio.ports i).state.val ≤ 1) →
      (gpio_read_port (gpio_write_port emu (GPIO_CLR0 + 4 * (p / 32)) m).gpio
        (GPIO_LEV0 + 4 * (p / 32)) >>> (p % 32)) % 2 = 0) ∧
    (∀ j, ¬ (32 * (p / 32) ≤ j ∧ j < 32 * (p / 32) + 32 ∧
          (m >>> (j - 32 * (p / 32))) % 2 = 1) →
      (gpio_write_port emu (GPIO_SET0 + 4 * (p / 32)) m).gpio.ports j = emu.gpio.ports j ∧
      (gpio_write_port emu (GPIO_CLR0 + 4 * (p / 32)) m).gpio.ports j = emu.gpio.ports j) := by
  have hq : p / 32 = 0 ∨ p / 32 = 1 := by omega
  have hb : p % 32 < 32 := Nat.mod_lt _ (by decide)
  rcases hq with hq | hq
  · have hs : gpio_write_port emu (GPIO_SET0 + 4 * (p / 32)) m = gpio_write_states emu 0 m 1 := by
      rw [hq]
      exact gpio_write_port_SET0 emu m
    have hc : gpio_write_port emu (GPIO_CLR0 + 4 * (p / 32)) m = gpio_write_states emu 0 m 0 := by
      rw [hq]
      exact gpio_write_port_CLR0 emu m
    have hr : ∀ g : gpio_t, gpio_read_port g (GPIO_LEV0 + 4 * (p / 32)) = gpio_read_states g 0 := by
      intro g
      rw [hq]
      exact gpio_read_port_LEV0 g
    have hpe : p % 32 + 0 = p := by omega
    rw [hs, hc, hr, hr, hq]
    refine ⟨?_, ?_, ?_⟩
    · apply gpio_read_states_bit_one _ 0 (p % 32) hb
      rw [gpio_write_states_hit emu 0 m 1 (p % 32) hnes hb hm]
      rfl
    · intro hst
      apply gpio_read_states_bit_zero _ 0 (p % 32)
      · intro i hi
        exact gpio_write_states_clr_le emu 0 m (i + 0) hnes (hst (i + 0) (by omega))
      · rw [gpio_write_states_hit emu 0 m 0 (p % 32) hnes hb hm]
        rfl
    · intro j hj
      exact ⟨gpio_write_states_miss emu 0 m 1 j hnes (by simpa using hj),
        gpio_write_states_miss emu 0 m 0 j hnes (by simpa using hj)⟩
  · have hs : gpio_write_port emu (GPIO_SET0 + 4 * (p / 32)) m = gpio_write_states emu 32 m 1 := by
      rw [hq]
      exact gpio_write_port_SET1 emu m
    have hc : gpio_write_port emu (GPIO_CLR0 + 4 * (p / 32)) m = gpio_write_states emu 32 m 0 := by
      rw [hq]
      exact gpio_write_port_CLR1 emu m
    have hr : ∀ g : gpio_t, gpio_read_port g (GPIO_LEV0 + 4 * (p / 32)) = gpio_read_states g 32 := by
      intro g
      rw [hq]
      exact gpio_read_port_LEV1 g
    rw [hs, hc, hr, hr, hq]
    refine ⟨?_, ?_, ?_⟩
    · apply gpio_read_states_bit_one _ 32 (p % 32) hb
      rw [gpio_write_states_hit emu 32 m 1 (p % 32) hnes hb hm]
      rfl
    · intro hst
      apply gpio_read_states_bit_zero _ 32 (p % 32)
      · intro i hi
        exact gpio_write_states_clr_le emu 32 m (i + 32) hnes (hst (i + 32) (by omega))
      · rw [gpio_write_states_hit emu 32 m 0 (p % 32) hnes hb hm]
        rfl
    · intro j hj
      exact ⟨gpio_write_states_miss emu 32 m 1 j hnes hj,
        gpio_write_states_miss emu 32 m 0 j hnes hj⟩

/-- C27 at port 53 (bank 1, bit 21) of the start-up state with the value 1 << 21. -/
theorem gpio_set_clr_lev_witness :
    (emulator_init 0x10000 0x20 false false false 0).nes_enabled = false ∧ 53 < 54 ∧
    ((1 <<< 21) >>> (53 % 32)) % 2 = 1 ∧
    (gpio_read_port (gpio_write_port (emulator_init 0x10000 0x20 false false false 0)
        (GPIO_SET0 + 4 * (53 / 32)) (1 <<< 21)).gpio
        (GPIO_LEV0 + 4 * (53 / 32)) >>> (53 % 32)) % 2 = 1 ∧
    (gpio_read_port (gpio_write_port (emulator_init 0x10000 0x20 false false false 0)
        (GPIO_CLR0 + 4 * (53 / 32)) (1 <<< 21)).gpio
        (GPIO_LEV0 + 4 * (53 / 32)) >>> (53 % 32)) % 2 = 0 :=
  ⟨rfl, by decide, by decide,
    (gpio_set_clr_lev (emulator_init 0x10000 0x20 false false false 0) 53 (1 <<< 21)
      rfl (by decide) (by decide)).1,
    (gpio_set_clr_lev (emulator_init 0x10000 0x20 false false false 0) 53 (1 <<< 21)
      rfl (by decide) (by decide)).2.1 (fun _ _ => Nat.zero_le 1)⟩


/-! ## NES controller shift register (C32) -/

/-- A rising edge on LATCH: the counter becomes 1 and the data line shows button 0. -/
theorem nes_latch_edge (emu : emulator_t) (hl : emu.nes.last_latch.val = 0) :
    (nes_gpio_write emu NES_GPIO_PORT_LATCH 1).nes.counter.val = 1 ∧
    (nes_gpio_write emu NES_GPIO_PORT_LATCH 1).nes.state = emu.nes.state ∧
    ((nes_gpio_write emu NES_GPIO_PORT_LATCH 1).gpio.ports NES_GPIO_PORT_DATA).state.val =
      if (emu.nes.state 0).val ≠ 0 then 0 else 1 := by
  unfold nes_gpio_write
  rw [if_pos rfl, if_pos ⟨hl, rfl⟩]
  refine ⟨rfl, rfl, ?_⟩
  show (upd emu.gpio.ports 4 _ 4).state.val = _
  rw [upd_same]
  show (u8 (if (emu.nes.state 0).val ≠ 0 then 0 else 1)).val = _
  split <;> rfl

/-- A falling and a rising edge on CLOCK: the data line shows the button the counter
names when it is below 8 and is high otherwise, and the counter advances. -/
theorem nes_clock_edge (e : emulator_t) :
    (nes_gpio_write (nes_gpio_write e NES_GPIO_PORT_CLOCK 0) NES_GPIO_PORT_CLOCK 1).nes.counter.val
      = (e.nes.counter.val + 1) % 4294967296 ∧
    (nes_gpio_write (nes_gpio_write e NES_GPIO_PORT_CLOCK 0) NES_GPIO_PORT_CLOCK 1).nes.state
      = e.nes.state ∧
    ((nes_gpio_write (nes_gpio_write e NES_GPIO_PORT_CLOCK 0) NES_GPIO_PORT_CLOCK 1).gpio.ports
        NES_GPIO_PORT_DATA).state.val =
      if e.nes.counter.val < 8 then (if (e.nes.state e.nes.counter.val).val ≠ 0 then 0 else 1)
      else 1 := by
  have h0 : nes_gpio_write e NES_GPIO_PORT_CLOCK 0 =
      { e with nes := { e.nes with last_clock := u32 0 } } := by
    unfold nes_gpio_write
    rw [if_neg (by decide), if_pos rfl, if_neg (by
      intro h
      exact absurd h.1 (by decide))]
  rw [h0]
  unfold nes_gpio_write
  rw [if_neg (by decide), if_pos rfl, if_pos ⟨rfl, rfl⟩]
  by_cases hc : e.nes.counter.val < 8
  · have hc' : ({ e with nes := { e.nes with last_clock := u32 0 } } : emulator_t).nes.counter.val
        < NES_BUTTON_COUNT := hc
    rw [if_pos hc', if_pos hc]
    refine ⟨rfl, rfl, ?_⟩
    show (upd e.gpio.ports 4 _ 4).state.val = _
    rw [upd_same]
    show (u8 (if (e.nes.state e.nes.counter.val).val ≠ 0 then 0 else 1)).val = _
    split <;> rfl
  · have hc' : ¬ ({ e with nes := { e.nes with last_clock := u32 0 } } : emulator_t).nes.counter.val
        < NES_BUTTON_COUNT := hc
    rw [if_neg hc', if_neg hc]
    refine ⟨rfl, rfl, ?_⟩
    show (upd e.gpio.ports 4 _ 4).state.val = _
    rw [upd_same]
    rfl

/-- The state after a rising LATCH edge and `k` rising CLOCK edges: the counter is
`k + 1` modulo 2^32 and the data line follows the counter value `k` modulo 2^32 that
the last edge saw. -/
theorem nes_clock_edges_inv (emu : emulator_t) (hl : emu.nes.last_latch.val = 0) (k : Nat) :
    (nes_clock_edges k (nes_gpio_write emu NES_GPIO_PORT_LATCH 1)).nes.counter.val =
      (k + 1) % 4294967296 ∧
    (nes_clock_edges k (nes_gpio_write emu NES_GPIO_PORT_LATCH 1)).nes.state = emu.nes.state ∧
    ((nes_clock_edges k (nes_gpio_write emu NES_GPIO_PORT_LATCH 1)).gpio.ports
        NES_GPIO_PORT_DATA).state.val =
      if k % 4294967296 < 8 then
        (if (emu.nes.state (k % 4294967296)).val ≠ 0 then 0 else 1)
      else 1 := by
  induction k with
  | zero =>
    obtain ⟨h1, h2, h3⟩ := nes_latch_edge emu hl
    refine ⟨h1, h2, ?_⟩
    show ((nes_gpio_write emu NES_GPIO_PORT_LATCH 1).gpio.ports NES_GPIO_PORT_DATA).state.val = _
    rw [h3]
    rfl
  | succ k ih =>
    obtain ⟨i1, i2, _⟩ := ih
    obtain ⟨h1, h2, h3⟩ :=
      nes_clock_edge (nes_clock_edges k (nes_gpio_write emu NES_GPIO_PORT_LATCH 1))
    refine ⟨?_, ?_, ?_⟩
    · show (nes_gpio_write (nes_gpio_write (nes_clock_edges k
        (nes_gpio_write emu NES_GPIO_PORT_LATCH 1)) NES_GPIO_PORT_CLOCK 0)
        NES_GPIO_PORT_CLOCK 1).nes.counter.val = _
      rw [h1, i1]
      omega
    · show (nes_gpio_write (nes_gpio_write (nes_clock_edges k
        (nes_gpio_write emu NES_GPIO_PORT_LATCH 1)) NES_GPIO_PORT_CLOCK 0)
        NES_GPIO_PORT_CLOCK 1).nes.state = _
      rw [h2, i2]
    · show ((nes_gpio_write (nes_gpio_write (nes_clock_edges k
        (nes_gpio_write emu NES_GPIO_PORT_LATCH 1)) NES_GPIO_PORT_CLOCK 0)
        NES_GPIO_PORT_CLOCK 1).gpio.ports NES_GPIO_PORT_DATA).state.val = _
      rw [h3, i1, i2]

/-- C32, amended: after a rising edge on LATCH (`nes_gpio_write(11, 1)` with
`last_latch = 0`) and `k < 2^32` rising edges on CLOCK, the state of GPIO port 4 is 0
when button `k` is held and 1 when it is not, for `k ≤ 7`, which is `1 - s[k]` for a
button state `s[k]` of 0 or 1, and it is 1 for `8 ≤ k`. -/
theorem nes_shift_register (emu : emulator_t) (k : Nat)
    (hl : emu.nes.last_latch.val = 0) (hk : k < 4294967296) :
    ((nes_clock_edges k (nes_gpio_write emu NES_GPIO_PORT_LATCH 1)).gpio.ports
        NES_GPIO_PORT_DATA).state.val =
      (if k ≤ 7 then (if (emu.nes.state k).val ≠ 0 then 0 else 1) else 1) ∧
    (k ≤ 7 → (emu.nes.state k).val ≤ 1 →
      ((nes_clock_edges k (nes_gpio_write emu NES_GPIO_PORT_LATCH 1)).gpio.ports
        NES_GPIO_PORT_DATA).state.val = 1 - (emu.nes.state k).val) ∧
    (8 ≤ k →
      ((nes_clock_edges k (nes_gpio_write emu NES_GPIO_PORT_LATCH 1)).gpio.ports
        NES_GPIO_PORT_DATA).state.val = 1) := by
  have h := (nes_clock_edges_inv emu hl k).2.2
  rw [Nat.mod_eq_of_lt hk] at h
  refine ⟨?_, ?_, ?_⟩
  · rw [h]
    by_cases h7 : k ≤ 7
    · rw [if_pos h7, if_pos (by omega)]
    · rw [if_neg h7, if_neg (by omega)]
  · intro h7 hs
    rw [h, if_pos (by omega)]
    split <;> omega
  · intro h8
    rw [h, if_neg (by omega)]

/-- C32 at the witness of the claim: with only button A held, the data line after the
latch edge and 0 to 7 clock edges reads 0, 1, 1, 1, 1, 1, 1, 1. -/
theorem nes_shift_register_witness :
    (nes_button_down (emulator_init 0x10000 0x20 false false true 0) 0).nes.last_latch.val = 0 ∧
    7 < 4294967296 ∧
    ((nes_clock_edges 7 (nes_gpio_write
        (nes_button_down (emulator_init 0x10000 0x20 false false true 0) 0)
        NES_GPIO_PORT_LATCH 1)).gpio.ports NES_GPIO_PORT_DATA).state.val =
      (if 7 ≤ 7 then
        (if ((nes_button_down (emulator_init 0x10000 0x20 false false true 0) 0).nes.state 7).val
          ≠ 0 then 0 else 1)
      else 1) ∧
    (List.range 8).map (fun k => ((nes_clock_edges k (nes_gpio_write
        (nes_button_down (emulator_init 0x10000 0x20 false false true 0) 0)
        NES_GPIO_PORT_LATCH 1)).gpio.ports NES_GPIO_PORT_DATA).state.val) =
      [0, 1, 1, 1, 1, 1, 1, 1] :=
  ⟨rfl, by decide,
    (nes_shift_register (nes_button_down (emulator_init 0x10000 0x20 false false true 0) 0) 7
      rfl (by decide)).1,
    by decide⟩

/-- C32 as stated fails at `k = 2^32`: the 32-bit counter has wrapped to 0, so with
button A held the edge shows button 0 again and port 4 is 0, not 1. -/
theorem nes_shift_register_wraps :
    8 ≤ 4294967296 ∧
    ((nes_clock_edges 4294967296 (nes_gpio_write
        (nes_button_down (emulator_init 0x10000 0x20 false false true 0) 0)
        NES_GPIO_PORT_LATCH 1)).gpio.ports NES_GPIO_PORT_DATA).state.val = 0 := by
  refine ⟨by decide, ?_⟩
  rw [(nes_clock_edges_inv
    (nes_button_down (emulator_init 0x10000 0x20 false false true 0) 0) rfl 4294967296).2.2]
  rfl


/-! ## Block transfers: STMIA then LDMDB (C14) -/

/-- The loop of `instr_block_data_transfer` skips the registers that are not named. -/
theorem foldlM_block_step_filter (instr : Nat) (l : List Nat) (acc : emulator_t × Nat) :
    l.foldlM (block_data_transfer_step instr) acc =
      (l.filter fun i => (instr % 65536) &&& (1 <<< i) ≠ 0).foldlM
        (block_data_transfer_step instr) acc := by
  induction l generalizing acc with
  | nil => rfl
  | cons x l ih =>
    by_cases hx : (instr % 65536) &&& (1 <<< x) = 0
    · have hs : block_data_transfer_step instr acc x = some acc := by
        unfold block_data_transfer_step
        simp only [hx, if_true]
      rw [List.filter_cons_of_neg (by simp [hx]), List.foldlM_cons, hs]
      exact ih acc
    · rw [List.filter_cons_of_pos (by simp [hx]), List.foldlM_cons, List.foldlM_cons]
      cases block_data_transfer_step instr acc x with
      | none => rfl
      | some acc' => exact ih acc'

/-- One store step of STMIA (P = 0, U = 1, S = 0, L = 0) for a named register other
than the base. -/
theorem stm_step (instr x : Nat) (e : emulator_t) (a v : Nat)
    (hp : op_bit instr 24 = 0) (hu : op_bit instr 23 ≠ 0) (hs : op_bit instr 22 = 0)
    (hl : op_bit instr 20 = 0)
    (hx : (instr % 65536) &&& (1 <<< x) ≠ 0) (hrn : x ≠ (op_Rn instr).val)
    (hv : cpu_read_register e.cpu (armReg_of x) = some v) :
    block_data_transfer_step instr (e, a) x =
      (memory_write_dword_le e a v).map fun e' => (e', (a + 4) % 4294967296) := by
  unfold block_data_transfer_step
  simp only [hp, hu, hs, hl, hx, hrn, if_false, if_true, ne_eq, not_true_eq_false,
    not_false_eq_true, and_false]
  unfold armReg_of at hv
  rw [hv]
  simp only [Option.bind_eq_bind, Option.some_bind]
  cases memory_write_dword_le e a v <;> rfl

/-- One load step of LDMDB (P = 1, U = 0, S = 0, L = 1) for a named register other
than the base. -/
theorem ldm_step (instr x : Nat) (e : emulator_t) (a : Nat)
    (hp : op_bit instr 24 ≠ 0) (hu : op_bit instr 23 = 0) (hs : op_bit instr 22 = 0)
    (hl : op_bit instr 20 ≠ 0)
    (hx : (instr % 65536) &&& (1 <<< x) ≠ 0) (hrn : x ≠ (op_Rn instr).val) :
    block_data_transfer_step instr (e, a) x =
      some ({ e with cpu := (cpu_write_register e.cpu (armReg_of x)
          (memory_read_dword_le e ((a + 4294967292) % 4294967296))) },
        (a + 4294967292) % 4294967296) := by
  unfold block_data_transfer_step
  simp only [hp, hu, hs, hl, hx, hrn, if_false, if_true, ne_eq, not_true_eq_false,
    not_false_eq_true, and_false]
  rfl

/-- In one of the seven processor modes every register can be read. -/
theorem cpu_read_register_some (cpu : cpu_t) (reg : armReg_t)
    (hm : valid_mode (cpsr_m cpu)) : ∃ x, cpu_read_register cpu reg = some x := by
  unfold cpu_read_register
  by_cases h7 : reg.val ≤ 7
  · exact ⟨_, by rw [if_pos h7]⟩
  · by_cases h12 : reg.val ≤ 12
    · rw [if_neg h7, if_pos h12]
      split <;> exact ⟨_, rfl⟩
    · by_cases h14 : reg.val ≤ 14
      · rw [if_neg h7, if_neg h12, if_pos h14]
        rcases hm with h | h | h | h | h | h | h <;> rw [h] <;> exact ⟨_, rfl⟩
      · rw [if_neg h7, if_neg h12, if_neg h14]
        exact ⟨_, rfl⟩

/-- A word stored at an aligned address inside SDRAM: it reads back there, the CPU and
the memory size are kept, and the other aligned words inside SDRAM are kept. -/
theorem memory_write_dword_le_frame (e e' : emulator_t) (a v : Nat) (ha : a % 4 = 0)
    (hm : a % 1073741824 + 3 < e.mem_size)
    (hw : memory_write_dword_le e a v = some e') :
    memory_read_dword_le e' a = v % 4294967296 ∧ e'.cpu = e.cpu ∧ e'.mem_size = e.mem_size ∧
    ∀ a', a' % 4 = 0 → a' % 1073741824 ≠ a % 1073741824 →
      a' % 1073741824 + 3 < e.mem_size →
      memory_read_dword_le e' a' = memory_read_dword_le e a' := by
  rw [memory_write_dword_le_sdram e a v hm] at hw
  cases hw
  refine ⟨?_, rfl, rfl, ?_⟩
  · rw [memory_read_dword_le_sdram _ a (by exact hm)]
    have e0 : a % 1073741824 - a % 4 + (a % 4 + 0) % 4 = a % 1073741824 + 0 := by omega
    have e1 : a % 1073741824 - a % 4 + (a % 4 + 1) % 4 = a % 1073741824 + 1 := by omega
    have e2 : a % 1073741824 - a % 4 + (a % 4 + 2) % 4 = a % 1073741824 + 2 := by omega
    have e3 : a % 1073741824 - a % 4 + (a % 4 + 3) % 4 = a % 1073741824 + 3 := by omega
    simp only [e0, e1, e2, e3]
    rw [upd_other _ _ _ _ (by omega), upd_other _ _ _ _ (by omega),
      upd_other _ _ _ _ (by omega), upd_same, upd_other _ _ _ _ (by omega),
      upd_other _ _ _ _ (by omega), upd_same, upd_other _ _ _ _ (by omega), upd_same, upd_same]
    simp only [u8_val]
    omega
  · intro a' ha' hne hm'
    rw [memory_read_dword_le_sdram _ a' (by exact hm'), memory_read_dword_le_sdram e a' hm']
    have e0 : a' % 1073741824 - a' % 4 + (a' % 4 + 0) % 4 = a' % 1073741824 + 0 := by omega
    have e1 : a' % 1073741824 - a' % 4 + (a' % 4 + 1) % 4 = a' % 1073741824 + 1 := by omega
    have e2 : a' % 1073741824 - a' % 4 + (a' % 4 + 2) % 4 = a' % 1073741824 + 2 := by omega
    have e3 : a' % 1073741824 - a' % 4 + (a' % 4 + 3) % 4 = a' % 1073741824 + 3 := by omega
    simp only [e0, e1, e2, e3]
    have hk : ∀ k, k < 4 →
        (upd (upd (upd (upd e.data (a % 1073741824 + 0) (u8 (v % 4294967296 % 256)))
          (a % 1073741824 + 1) (u8 (v % 4294967296 / 256 % 256)))
          (a % 1073741824 + 2) (u8 (v % 4294967296 / 65536 % 256)))
          (a % 1073741824 + 3) (u8 (v % 4294967296 / 16777216 % 256)))
          (a' % 1073741824 + k) = e.data (a' % 1073741824 + k) := by
      intro k hk
      rw [upd_other _ _ _ _ (by omega), upd_other _ _ _ _ (by omega),
        upd_other _ _ _ _ (by omega), upd_other _ _ _ _ (by omega)]
    rw [hk 0 (by decide), hk 1 (by decide), hk 2 (by decide), hk 3 (by decide)]

/-- The word read does not depend on the CPU state. -/
theorem memory_read_dword_le_cpu (e : emulator_t) (c : cpu_t) (a : Nat) :
    memory_read_dword_le { e with cpu := c } a = memory_read_dword_le e a := rfl

/-- The register loop of STMIA over named registers other than the base, from an
aligned address with every word inside SDRAM: it succeeds, keeps the CPU, and the
`j`-th word stored holds the value of the `j`-th register. -/
theorem stm_fold (instr : Nat)
    (hp : op_bit instr 24 = 0) (hu : op_bit instr 23 ≠ 0) (hs : op_bit instr 22 = 0)
    (hl : op_bit instr 20 = 0) (e : emulator_t) (a : Nat)
    (ha : a % 4 = 0) (ha32 : a < 4294967296) (hvm : valid_mode (cpsr_m e.cpu))
    (l : List Nat)
    (hx : ∀ x ∈ l, (instr % 65536) &&& (1 <<< x) ≠ 0 ∧ x ≠ (op_Rn instr).val)
    (hlen : l.length ≤ 16)
    (hfit : ∀ j, j < l.length → ((a + 4 * j) % 4294967296) % 1073741824 + 3 < e.mem_size) :
    ∃ e', l.foldlM (block_data_transfer_step instr) (e, a)
        = some (e', (a + 4 * l.length) % 4294967296) ∧
      e'.cpu = e.cpu ∧ e'.mem_size = e.mem_size ∧
      ∀ j, j < l.length →
        cpu_read_register e.cpu (armReg_of (l.getD j 0))
          = some (memory_read_dword_le e' ((a + 4 * j) % 4294967296)) := by
  induction l using List.reverseRecOn with
  | nil =>
    refine ⟨e, ?_, rfl, rfl, ?_⟩
    · show some (e, a) = some (e, (a + 4 * 0) % 4294967296)
      rw [Nat.mul_zero, Nat.add_zero, Nat.mod_eq_of_lt ha32]
    · intro j hj
      exact absurd hj (Nat.not_lt_zero j)
  | append_singleton l x ih =>
    have hlen' : l.length + 1 ≤ 16 := by
      have := hlen
      rw [List.length_append] at this
      exact this
    obtain ⟨e1, h1, hc, hms, hrd⟩ := ih
      (fun y hy => hx y (List.mem_append_left _ hy)) (by omega)
      (fun j hj => hfit j (by rw [List.length_append]; exact Nat.lt_succ_of_lt hj))
    obtain ⟨hxb, hxn⟩ := hx x (List.mem_append_right _ (List.mem_singleton_self x))
    obtain ⟨v, hv⟩ := cpu_read_register_some e.cpu (armReg_of x) hvm
    have hv32 := cpu_read_register_lt _ _ _ hv
    have hfx := hfit l.length (by rw [List.length_append]; exact Nat.lt_succ_self _)
    have hal : ((a + 4 * l.length) % 4294967296) % 4 = 0 := by omega
    have hw := memory_write_dword_le_sdram e1 ((a + 4 * l.length) % 4294967296) v
      (by rw [hms]; exact hfx)
    obtain ⟨e2, he2⟩ : ∃ e2, e2 = { e1 with data :=
      (upd (upd (upd (upd e1.data (((a + 4 * l.length) % 4294967296) % 1073741824 + 0)
          (u8 (v % 4294967296 % 256)))
        (((a + 4 * l.length) % 4294967296) % 1073741824 + 1) (u8 (v % 4294967296 / 256 % 256)))
        (((a + 4 * l.length) % 4294967296) % 1073741824 + 2)
          (u8 (v % 4294967296 / 65536 % 256)))
        (((a + 4 * l.length) % 4294967296) % 1073741824 + 3)
          (u8 (v % 4294967296 / 16777216 % 256))) } := ⟨_, rfl⟩
    rw [← he2] at hw
    obtain ⟨f1, f2, f3, f4⟩ := memory_write_dword_le_frame e1 e2 _ v hal
      (by rw [hms]; exact hfx) hw
    refine ⟨e2, ?_, ?_, ?_, ?_⟩
    · rw [List.foldlM_append, h1]
      simp only [Option.bind_eq_bind, Option.some_bind, List.foldlM_cons, List.foldlM_nil]
      rw [stm_step instr x e1 _ v hp hu hs hl hxb hxn (by rw [hc]; exact hv), hw]
      simp only [Option.map_some', Option.some_bind, Option.pure_def, List.length_append,
        List.length_singleton]
      congr 2
      omega
    · rw [f2, hc]
    · rw [f3, hms]
    · intro j hj
      rw [List.length_append, List.length_singleton] at hj
      by_cases hjl : j < l.length
      · rw [List.getD_append _ _ _ _ hjl, hrd j hjl]
        congr 1
        symm
        apply f4
        · omega
        · omega
        · rw [hms]
          exact hfit j (by rw [List.length_append]; omega)
      · have hje : j = l.length := by omega
        subst hje
        rw [List.getD_append_right _ _ _ _ (Nat.le_refl _), Nat.sub_self]
        show cpu_read_register e.cpu (armReg_of x) = _
        rw [hv, f1, Nat.mod_eq_of_lt hv32]

theorem armReg_of_val (x : Nat) (h : x < 16) : (armReg_of x).val = x :=
  Nat.mod_eq_of_lt h

/-- The register loop of LDMDB, descending over distinct named registers other than the
base and PC: it succeeds, changes only the CPU, keeps the registers outside the list,
and the `k`-th lowest register holds the word read `length - k` words below the start. -/
theorem ldm_fold (instr : Nat)
    (hp : op_bit instr 24 ≠ 0) (hu : op_bit instr 23 = 0) (hs : op_bit instr 22 = 0)
    (hl : op_bit instr 20 ≠ 0) (e : emulator_t) (A : Nat) (hA : A < 4294967296)
    (hvm : valid_mode (cpsr_m e.cpu)) (l : List Nat)
    (hx : ∀ x ∈ l, (instr % 65536) &&& (1 <<< x) ≠ 0 ∧ x ≠ (op_Rn instr).val ∧ x < 15)
    (hnd : l.Nodup) :
    ∃ e', l.reverse.foldlM (block_data_transfer_step instr) (e, A)
        = some (e', (A + 4294967292 * l.length) % 4294967296) ∧
      e' = { e with cpu := e'.cpu } ∧ cpsr_m e'.cpu = cpsr_m e.cpu ∧
      (∀ r : armReg_t, r.val ∉ l → cpu_read_register e'.cpu r = cpu_read_register e.cpu r) ∧
      ∀ k, k < l.length →
        cpu_read_register e'.cpu (armReg_of (l.getD k 0))
          = some (memory_read_dword_le e ((A + 4294967292 * (l.length - k)) % 4294967296)
              % 4294967296) := by
  induction l with
  | nil =>
    refine ⟨e, ?_, rfl, rfl, fun _ _ => rfl, ?_⟩
    · show some (e, A) = some (e, (A + 4294967292 * 0) % 4294967296)
      rw [Nat.mul_zero, Nat.add_zero, Nat.mod_eq_of_lt hA]
    · intro k hk
      exact absurd hk (Nat.not_lt_zero k)
  | cons x t ih =>
    obtain ⟨e1, h1, hst, hcm, hk1, hrd⟩ := ih
      (fun y hy => hx y (List.mem_cons_of_mem _ hy)) (List.nodup_cons.mp hnd).2
    obtain ⟨hxb, hxn, hx15⟩ := hx x (List.mem_cons_self x t)
    have hxt : x ∉ t := (List.nodup_cons.mp hnd).1
    have hxv : (armReg_of x).val = x := armReg_of_val x (by omega)
    obtain ⟨v0, hv0⟩ := cpu_read_register_some e1.cpu (armReg_of x) (by rw [hcm]; exact hvm)
    have hmem : ∀ a, memory_read_dword_le e1 a = memory_read_dword_le e a := by
      intro a
      rw [hst]
      exact memory_read_dword_le_cpu e e1.cpu a
    have haddr : ((A + 4294967292 * t.length) % 4294967296 + 4294967292) % 4294967296
        = (A + 4294967292 * (t.length + 1)) % 4294967296 := by omega
    refine ⟨{ e1 with cpu := (cpu_write_register e1.cpu (armReg_of x)
        (memory_read_dword_le e ((A + 4294967292 * (t.length + 1)) % 4294967296))) },
      ?_, ?_, ?_, ?_, ?_⟩
    · rw [List.reverse_cons, List.foldlM_append, h1]
      simp only [Option.bind_eq_bind, Option.some_bind, List.foldlM_cons, List.foldlM_nil]
      rw [ldm_step instr x e1 _ hp hu hs hl hxb hxn, haddr, hmem]
      rfl
    · rw [hst]
    · show cpsr_m (cpu_write_register e1.cpu _ _) = _
      rw [cpsr_m_cpu_write_register, hcm]
    · intro r hr
      show cpu_read_register (cpu_write_register e1.cpu _ _) r = _
      have hrx : r.val ≠ x := fun h => hr (by rw [h]; exact List.mem_cons_self x t)
      rw [cpu_read_write_other _ _ _ _ (by rw [hxv]; exact hrx)]
      exact hk1 r (fun h => hr (List.mem_cons_of_mem _ h))
    · intro k hk
      show cpu_read_register (cpu_write_register e1.cpu _ _) _ = _
      cases k with
      | zero =>
        show cpu_read_register (cpu_write_register e1.cpu (armReg_of x) _) (armReg_of x) = _
        rw [cpu_read_write_same _ _ v0 _ hv0 (by rw [hxv]; omega)]
        rfl
      | succ k =>
        have hk' : k < t.length := by
          rw [List.length_cons] at hk
          omega
        have hmem_t : t.getD k 0 ∈ t := by
          rw [List.getD_eq_getElem _ _ hk']
          exact List.getElem_mem _
        have hy := hx _ (List.mem_cons_of_mem _ hmem_t)
        have hyv : (armReg_of (t.getD k 0)).val = t.getD k 0 := armReg_of_val _ (by omega)
        have hne : t.getD k 0 ≠ x := fun h => hxt (by rw [← h]; exact hmem_t)
        show cpu_read_register (cpu_write_register e1.cpu (armReg_of x) _)
          (armReg_of (t.getD k 0)) = _
        rw [cpu_read_write_other _ _ _ _ (by rw [hxv, hyv]; exact hne), hrd k hk']
        have hsub : (x :: t).length - (k + 1) = t.length - k := by
          rw [List.length_cons]
          omega
        rw [hsub]

theorem mem_reg_list (rl x : Nat) :
    x ∈ reg_list rl ↔ x < 16 ∧ rl &&& (1 <<< x) ≠ 0 := by
  unfold reg_list
  rw [List.mem_filter, List.mem_range]
  simp

theorem reg_list_nodup (rl : Nat) : (reg_list rl).Nodup :=
  List.Nodup.filter _ (List.nodup_range 16)

/-- With the S bit clear, write-back set and the base register outside the list,
`instr_block_data_transfer` is the register loop over the named registers, ascending
when U is set and descending otherwise, followed by the write-back of the address. -/
theorem instr_block_data_transfer_eq (emu : emulator_t) (instr b : Nat)
    (hrl : instr % 65536 ≠ 0) (hpc : (op_Rn instr).val ≠ 15) (hs : op_bit instr 22 = 0)
    (hw : op_bit instr 21 ≠ 0) (hrn : (instr % 65536) &&& (1 <<< (op_Rn instr).val) = 0)
    (hb : cpu_read_register emu.cpu (op_Rn instr) = some b) :
    instr_block_data_transfer emu instr =
      ((if op_bit instr 23 ≠ 0 then reg_list (instr % 65536)
          else (reg_list (instr % 65536)).reverse).foldlM
        (block_data_transfer_step instr) (emu, b &&& 0xfffffffc)).map
        fun p => { p.1 with cpu := cpu_write_register p.1.cpu (op_Rn instr) p.2 } := by
  unfold instr_block_data_transfer
  rw [if_neg hrl, if_neg hpc, if_neg (fun h => h.1 hs)]
  simp only [hb, Option.bind_eq_bind, Option.some_bind]
  rw [foldlM_block_step_filter]
  have hf : (if op_bit instr 23 ≠ 0 then List.range 16 else (List.range 16).reverse).filter
      (fun i => (instr % 65536) &&& (1 <<< i) ≠ 0) =
      (if op_bit instr 23 ≠ 0 then reg_list (instr % 65536)
          else (reg_list (instr % 65536)).reverse) := by
    unfold reg_list
    split
    · rfl
    · rw [List.filter_reverse]
  rw [hf]
  cases (List.foldlM (block_data_transfer_step instr) (emu, b &&& 0xfffffffc)
      (if op_bit instr 23 ≠ 0 then reg_list (instr % 65536)
        else (reg_list (instr % 65536)).reverse)) with
  | none => rfl
  | some p =>
    simp only [Option.some_bind, Option.map_some', hs, hw, hrn, ne_eq, not_true_eq_false,
      false_and, and_false, if_false, not_false_eq_true, and_self, if_true, Option.pure_def]

/-- C14: for a base register Rn other than PC holding a word-aligned address `b`, and two
register lists of equal size `n ≥ 1` that do not contain Rn, the list of the load not
containing PC either, with `[b, b + 4n)` inside SDRAM, the S bits clear and the
processor in one of its seven modes: STMIA Rn! (P = 0, U = 1, W = 1) followed by
LDMDB Rn! (P = 1, U = 0, W = 1) both execute, the `k`-th lowest register of the second
list then holds the value the `k`-th lowest register of the first list held at the
store, for every `k < n`, and Rn holds `b`. -/
theorem stm_ldm_round_trip (emu : emulator_t) (i1 i2 b : Nat)
    (h1p : op_bit i1 24 = 0) (h1u : op_bit i1 23 ≠ 0) (h1s : op_bit i1 22 = 0)
    (h1w : op_bit i1 21 ≠ 0) (h1l : op_bit i1 20 = 0)
    (h2p : op_bit i2 24 ≠ 0) (h2u : op_bit i2 23 = 0) (h2s : op_bit i2 22 = 0)
    (h2w : op_bit i2 21 ≠ 0) (h2l : op_bit i2 20 ≠ 0)
    (hrn : op_Rn i2 = op_Rn i1) (hpc : (op_Rn i1).val ≠ 15)
    (h1rn : (i1 % 65536) &&& (1 <<< (op_Rn i1).val) = 0)
    (h2rn : (i2 % 65536) &&& (1 <<< (op_Rn i1).val) = 0)
    (h2pc : (i2 % 65536) &&& (1 <<< 15) = 0)
    (hlen : (reg_list (i2 % 65536)).length = (reg_list (i1 % 65536)).length)
    (hn : 1 ≤ (reg_list (i1 % 65536)).length)
    (hvm : valid_mode (cpsr_m emu.cpu))
    (hb : cpu_read_register emu.cpu (op_Rn i1) = some b) (hal : b % 4 = 0)
    (hfit : b + 4 * (reg_list (i1 % 65536)).length ≤ emu.mem_size) :
    ∃ e1 e2, instr_block_data_transfer emu i1 = some e1 ∧
      instr_block_data_transfer e1 i2 = some e2 ∧
      cpu_read_register e2.cpu (op_Rn i1) = some b ∧
      ∀ k, k < (reg_list (i1 % 65536)).length →
        ∃ v, cpu_read_register emu.cpu (armReg_of ((reg_list (i1 % 65536)).getD k 0)) = some v ∧
          cpu_read_register e2.cpu (armReg_of ((reg_list (i2 % 65536)).getD k 0)) = some v := by
  have hb32 := cpu_read_register_lt _ _ _ hb
  have hn16 : (reg_list (i1 % 65536)).length ≤ 16 := by
    unfold reg_list
    exact le_trans (List.length_filter_le _ _) (by rw [List.length_range])
  have hrl1 : i1 % 65536 ≠ 0 := by
    intro h
    rw [h] at hn
    exact absurd hn (by decide)
  have hrl2 : i2 % 65536 ≠ 0 := by
    intro h
    rw [← hlen, h] at hn
    exact absurd hn (by decide)
  have hbm : b &&& 0xfffffffc = b := by
    rw [and_FFFFFFFC]
    omega
  -- the store
  obtain ⟨es, hs1, hs2, hs3, hs4⟩ := stm_fold i1 h1p h1u h1s h1l emu b hal hb32 hvm
    (reg_list (i1 % 65536))
    (fun x hx => by
      have hm := (mem_reg_list _ _).mp hx
      refine ⟨hm.2, ?_⟩
      intro h
      rw [h] at hm
      exact hm.2 h1rn)
    hn16 (fun j hj => by omega)
  have he1 := instr_block_data_transfer_eq emu i1 b hrl1 hpc h1s h1w h1rn hb
  rw [if_pos h1u, hbm, hs1] at he1
  obtain ⟨A, hA⟩ : ∃ A, A = (b + 4 * (reg_list (i1 % 65536)).length) % 4294967296 := ⟨_, rfl⟩
  rw [← hA] at he1 hs1
  have hA32 : A < 4294967296 := by
    rw [hA]
    exact Nat.mod_lt _ (by decide)
  have hAm : A &&& 0xfffffffc = A := by
    rw [and_FFFFFFFC]
    omega
  obtain ⟨e1, hE1⟩ : ∃ e1 : emulator_t,
      e1 = { es with cpu := cpu_write_register es.cpu (op_Rn i1) A } := ⟨_, rfl⟩
  have he1' : instr_block_data_transfer emu i1 = some e1 := by
    rw [he1, hE1]
    rfl
  have hcm1 : cpsr_m e1.cpu = cpsr_m emu.cpu := by
    rw [hE1]
    show cpsr_m (cpu_write_register es.cpu (op_Rn i1) A) = _
    rw [cpsr_m_cpu_write_register, hs2]
  have hvm1 : valid_mode (cpsr_m e1.cpu) := by
    rw [hcm1]
    exact hvm
  have hb1 : cpu_read_register e1.cpu (op_Rn i2) = some A := by
    rw [hrn, hE1]
    show cpu_read_register (cpu_write_register es.cpu (op_Rn i1) A) (op_Rn i1) = _
    rw [cpu_read_write_same _ _ b _ (by rw [hs2]; exact hb) hpc, Nat.mod_eq_of_lt hA32]
  have hmem1 : ∀ a, memory_read_dword_le e1 a = memory_read_dword_le es a := by
    intro a
    rw [hE1]
    exact memory_read_dword_le_cpu es _ a
  -- the load
  obtain ⟨el, hl1, hl2, hl3, hl4, hl5⟩ := ldm_fold i2 h2p h2u h2s h2l e1 A hA32 hvm1
    (reg_list (i2 % 65536))
    (fun x hx => by
      have hm := (mem_reg_list _ _).mp hx
      refine ⟨hm.2, ?_, ?_⟩
      · intro h
        rw [h, hrn] at hm
        exact hm.2 h2rn
      · have h15 : x ≠ 15 := by
          intro h
          rw [h] at hm
          exact hm.2 h2pc
        omega)
    (reg_list_nodup _)
  have he2 := instr_block_data_transfer_eq e1 i2 A hrl2 (by rw [hrn]; exact hpc) h2s h2w
    (by rw [hrn]; exact h2rn) hb1
  rw [if_neg (fun h => h h2u), hAm, hl1, hlen] at he2
  have hback : (A + 4294967292 * (reg_list (i1 % 65536)).length) % 4294967296 = b := by
    rw [hA]
    omega
  rw [hback, hrn] at he2
  obtain ⟨e2, hE2⟩ : ∃ e2 : emulator_t,
      e2 = { el with cpu := cpu_write_register el.cpu (op_Rn i1) b } := ⟨_, rfl⟩
  have he2' : instr_block_data_transfer e1 i2 = some e2 := by
    rw [he2, hE2]
    rfl
  have hrnl : (op_Rn i1).val ∉ reg_list (i2 % 65536) := by
    intro h
    exact ((mem_reg_list _ _).mp h).2 h2rn
  refine ⟨e1, e2, he1', he2', ?_, ?_⟩
  · rw [hE2]
    show cpu_read_register (cpu_write_register el.cpu (op_Rn i1) b) (op_Rn i1) = _
    rw [cpu_read_write_same _ _ A _ (by rw [hl4 _ hrnl, ← hrn]; exact hb1) hpc,
      Nat.mod_eq_of_lt hb32]
  · intro k hk
    have hk2 : k < (reg_list (i2 % 65536)).length := by rw [hlen]; exact hk
    have hst := hs4 k hk
    refine ⟨_, hst, ?_⟩
    have hv32 := cpu_read_register_lt _ _ _ hst
    have hmem_k : (reg_list (i2 % 65536)).getD k 0 ∈ reg_list (i2 % 65536) := by
      rw [List.getD_eq_getElem _ _ hk2]
      exact List.getElem_mem _
    have hm := (mem_reg_list _ _).mp hmem_k
    have hne : (armReg_of ((reg_list (i2 % 65536)).getD k 0)).val ≠ (op_Rn i1).val := by
      rw [armReg_of_val _ hm.1]
      intro h
      rw [h] at hm
      exact hm.2 h2rn
    rw [hE2]
    show cpu_read_register (cpu_write_register el.cpu (op_Rn i1) b) _ = _
    rw [cpu_read_write_other _ _ _ _ hne, hl5 k hk2, hmem1, hlen]
    have haddr : (A + 4294967292 * ((reg_list (i1 % 65536)).length - k)) % 4294967296
        = (b + 4 * k) % 4294967296 := by
      rw [hA]
      omega
    rw [haddr, Nat.mod_eq_of_lt hv32]

/-- C14 at the witness of the claim: from R0 = 0x1000 and R1, R2, R3 = 1, 2, 3,
`STMIA R0!, {R1, R2, R3}` (0xE8A0000E) then `LDMDB R0!, {R4, R5, R6}` (0xE9300070) give
R4, R5, R6 = 1, 2, 3 and R0 = 0x1000. -/
theorem stm_ldm_round_trip_witness :
    (∃ e1 e2, instr_block_data_transfer stm_ldm_start 0xE8A0000E = some e1 ∧
      instr_block_data_transfer e1 0xE9300070 = some e2 ∧
      cpu_read_register e2.cpu (op_Rn 0xE8A0000E) = some 0x1000 ∧
      ∀ k, k < (reg_list (0xE8A0000E % 65536)).length →
        ∃ v, cpu_read_register stm_ldm_start.cpu
            (armReg_of ((reg_list (0xE8A0000E % 65536)).getD k 0)) = some v ∧
          cpu_read_register e2.cpu
            (armReg_of ((reg_list (0xE9300070 % 65536)).getD k 0)) = some v) ∧
    ((instr_block_data_transfer stm_ldm_start 0xE8A0000E).bind
        (fun e1 => instr_block_data_transfer e1 0xE9300070)).map
      (fun e2 => [(e2.cpu.r_usr 0).val, (e2.cpu.r_usr 4).val, (e2.cpu.r_usr 5).val,
        (e2.cpu.r_usr 6).val]) = some [0x1000, 1, 2, 3] :=
  ⟨stm_ldm_round_trip stm_ldm_start 0xE8A0000E 0xE9300070 0x1000
    (by decide) (by decide) (by decide) (by decide) (by decide)
    (by decide) (by decide) (by decide) (by decide) (by decide)
    (by decide) (by decide) (by decide) (by decide) (by decide)
    (by decide) (by decide) (by decide) (by decide) (by decide) (by decide),
    by decide⟩

end PiEmu
